import Mathlib

/-!
# yandexkassa: a shallow embedding of the gateway client

The Go package `yandexkassa` (files `yandexkassa.go`, `payment.go`, `refund.go`) is embedded
as pure Lean functions.

* Go strings are Lean `String`s (valid UTF-8 text); `int64` and `int` are `Int`.
* Names are those of the source; a Go field `Type` is `Type_` here, `Type` being reserved.
* A pointer result `*T` is an `Option T` (`none` is `nil`).
* A Go `error` is an `Option GoError`; the constructor of `GoError` is the dynamic type.
* The network is a parameter: a function from the request handed to `client.Do` to the
  outcome of `client.Do` followed by `ioutil.ReadAll`.
* A body of JSON text is represented by the value it denotes (`Json`), or marked as text
  that is not valid JSON.
* The parts of the Go standard library the package calls (`reflect.StructTag`,
  `encoding/json`, `net/textproto`, `net/http`, `net/url`, `encoding/base64`) are modelled
  as far as the package can observe them; each model says what it covers.
-/

set_option autoImplicit false

namespace Yandexkassa

/-! ## Characters and strings -/

/-- ASCII upper-casing of a code point, other code points unchanged. -/
def upperAscii (c : Nat) : Nat := if 97 ≤ c ∧ c ≤ 122 then c - 32 else c

/-- ASCII lower-casing of a code point, other code points unchanged. -/
def lowerAscii (c : Nat) : Nat := if 65 ≤ c ∧ c ≤ 90 then c + 32 else c

/-- The code points of a string. -/
def codes (s : String) : List Nat := s.toList.map Char.toNat

/-- The UTF-8 bytes of one character. -/
def utf8Char (c : Char) : List Nat :=
  let n := c.toNat
  if n < 128 then [n]
  else if n < 2048 then [192 + n / 64, 128 + n % 64]
  else if n < 65536 then [224 + n / 4096, 128 + (n / 64) % 64, 128 + n % 64]
  else [240 + n / 262144, 128 + (n / 4096) % 64, 128 + (n / 64) % 64, 128 + n % 64]

/-- The bytes of a Go string holding this text: `[]byte(s)`. -/
def utf8Bytes (s : String) : List Nat := s.toList.flatMap utf8Char

/-! ## reflect.StructTag -/

/-- The loop `for i < len(tag) && tag[i] == ' '` of `StructTag.Lookup`. -/
def skipSpaces : List Char → List Char
  | [] => []
  | c :: cs => if c = ' ' then skipSpaces cs else c :: cs

/-- Scan to the colon in `StructTag.Lookup`: the longest run of characters above the space
that are not a colon, a quote or DEL, and what follows it. -/
def tagKeySpan : List Char → List Char × List Char
  | [] => ([], [])
  | c :: cs =>
    if 32 < c.toNat ∧ c ≠ ':' ∧ c ≠ '"' ∧ c.toNat ≠ 127 then
      ((c :: (tagKeySpan cs).1), (tagKeySpan cs).2)
    else ([], c :: cs)

/-- Scan the quoted value in `StructTag.Lookup`, starting after the opening quote: the raw
text up to the closing quote (a backslash takes the next character with it) and the
rest of the tag; `none` when the quote is never closed. -/
def tagQuoted : List Char → Option (List Char × List Char)
  | [] => none
  | c :: cs =>
    if c = '"' then some ([], cs)
    else if c = '\\' then
      match cs with
      | [] => none
      | d :: ds => (tagQuoted ds).map (fun p => (c :: d :: p.1, p.2))
    else (tagQuoted cs).map (fun p => (c :: p.1, p.2))

/-- What `strconv.Unquote` makes of a quoted tag value, for values without escape sequences
(no tag of this package has one): the text itself. A value containing a backslash or a
newline is treated as not unquotable. -/
def unquoteTag (raw : List Char) : Option String :=
  if raw.any (fun c => c = '\\' || c = '\n') then none else some (String.mk raw)

/-- The conventional-format loop of `reflect.StructTag.Lookup`; `fuel` bounds the number of
`key:"value"` pairs read. -/
def StructTag.lookupLoop (key : List Char) : Nat → List Char → Option String
  | 0, _ => none
  | fuel + 1, tag =>
    match skipSpaces tag with
    | [] => none
    | t =>
      match tagKeySpan t with
      | ([], _) => none
      | (name, ':' :: '"' :: rest) =>
        match tagQuoted rest with
        | none => none
        | some (raw, tag2) =>
          if key = name then unquoteTag raw else StructTag.lookupLoop key fuel tag2
      | _ => none

/-- Go `reflect.StructTag.Get`: the value associated with `key` in the tag string, or the
empty string when the tag has no such key or does not have the conventional format
`key:"value"` (a blank between the colon and the quote breaks the format). -/
def StructTag.Get (tag key : String) : String :=
  (StructTag.lookupLoop key.toList (tag.length + 1) tag.toList).getD ""

/-- Function `isValidTag` of encoding/json on ASCII names: non-empty, and every character
is a letter, a digit, or one of the listed punctuation marks. -/
def isValidTag (s : String) : Bool :=
  s ≠ "" && s.toList.all (fun c =>
    c.isAlphanum || "!#$%&()*+-./:;<=>?@[]^_\x7b|\x7d~ ".toList.contains c)

/-- The name under which encoding/json reads and writes a struct field, from the Go field
name and the struct tag written in the source (`typeFields`): `none` when the json tag is
`-` (field skipped), the tag name up to the first comma when that is a valid name, the Go
field name otherwise. -/
def jsonKey (goName tag : String) : Option String :=
  let t := StructTag.Get tag "json"
  if t = "-" then none
  else
    let name := String.mk (t.toList.takeWhile (fun c => c ≠ ','))
    if isValidTag name then some name else some goName

/-- One code point of the case folding encoding/json uses to match object keys to field
names. On ASCII names it is exact: lower-case ASCII letters fold to upper case, and the only
non-ASCII code points folding to an ASCII letter are U+212A (Kelvin sign, to K) and
U+017F (long s, to S). -/
def foldRune (c : Nat) : Nat :=
  if c = 8490 then 75 else if c = 383 then 83 else upperAscii c

/-- Function `foldName` of encoding/json. -/
def foldName (s : String) : List Nat := (codes s).map foldRune

/-! ## JSON values -/

/-- A JSON number literal. `int i` is a literal written as an integer (optional minus sign and
digits only); `real m e` is a literal with a fraction or an exponent, of value `m * 10^e`. -/
inductive Number where
  | int (i : Int)
  | real (mantissa : Int) (exp : Int)
  deriving DecidableEq, Repr

/-- A JSON value; an object keeps its members in document order, duplicates included. -/
inductive Json where
  | null
  | bool (b : Bool)
  | num (n : Number)
  | str (s : String)
  | arr (elems : List Json)
  | obj (members : List (String × Json))
  deriving Repr

/-- A body of bytes as encoding/json sees it: text that is not one valid JSON value, or the
value the text denotes. -/
inductive Body where
  | invalid (reason : String)
  | value (v : Json)
  deriving Repr

/-- The word encoding/json uses for a JSON value in `UnmarshalTypeError.Value`. -/
def Json.kind : Json → String
  | .null => "null"
  | .bool _ => "bool"
  | .num _ => "number"
  | .str _ => "string"
  | .arr _ => "array"
  | .obj _ => "object"

/-- Whether `strconv.ParseFloat(s, 64)` accepts the literal: it reports a range error exactly
when the value rounds to infinity, that is when its magnitude is at least
`2^1024 - 2^970`. -/
def Number.fitsFloat64 : Number → Bool
  | .int i => i.natAbs < 2 ^ 1024 - 2 ^ 970
  | .real m e =>
    if 0 ≤ e then m.natAbs * 10 ^ e.toNat < 2 ^ 1024 - 2 ^ 970
    else m.natAbs < (2 ^ 1024 - 2 ^ 970) * 10 ^ (-e).toNat

mutual
/-- Whether every number literal inside the value converts to a float64, which is what
decoding into an `interface{}` needs. -/
def Json.floatsFit : Json → Bool
  | .num n => n.fitsFloat64
  | .arr xs => Json.floatsFitList xs
  | .obj kvs => Json.floatsFitMembers kvs
  | _ => true
/-- The array case of `Json.floatsFit`. -/
def Json.floatsFitList : List Json → Bool
  | [] => true
  | x :: xs => x.floatsFit && Json.floatsFitList xs
/-- The object case of `Json.floatsFit`. -/
def Json.floatsFitMembers : List (String × Json) → Bool
  | [] => true
  | (_, v) :: kvs => v.floatsFit && Json.floatsFitMembers kvs
end

/-! ## Data model (yandexkassa.go, payment.go, refund.go) -/

structure Amount where
  Value : String := ""
  Currency : String := ""
  deriving DecidableEq, Repr

structure Item where
  Description : String := ""
  Quantity : String := ""
  Amount : Yandexkassa.Amount := {}
  VatCode : Int := 0
  deriving DecidableEq, Repr

/-- A slice field is `none` for the nil slice. -/
structure Receipt where
  Items : Option (List Item) := none
  TaxSystemCode : Int := 0
  Phone : String := ""
  Email : String := ""
  deriving DecidableEq, Repr

structure Kassa where
  ShopID : Int := 0
  SecretKey : String := ""
  IdempotenceKey : String := ""
  deriving DecidableEq, Repr

structure Error where
  Type_ : String := ""
  ID : String := ""
  Code : String := ""
  Description : String := ""
  Parameter : String := ""
  deriving DecidableEq, Repr

structure Recipient where
  GatewayID : String := ""
  deriving DecidableEq, Repr

structure Card where
  Number : String := ""
  ExpiryYear : String := ""
  ExpiryMonth : String := ""
  CSC : String := ""
  Cardholder : String := ""
  deriving DecidableEq, Repr

structure PaymentMethodData where
  Type_ : String := ""
  Card : Yandexkassa.Card := {}
  deriving DecidableEq, Repr

structure Confirmation where
  Type_ : String := ""
  Enforce : Bool := false
  ReturnUrl : String := ""
  deriving DecidableEq, Repr

structure ConfirmationResponse where
  Type_ : String := ""
  Enforce : Bool := false
  ReturnUrl : String := ""
  ConfirmationUrl : String := ""
  deriving DecidableEq, Repr

structure Passenger where
  FirstName : String := ""
  LastName : String := ""
  deriving DecidableEq, Repr

structure Leg where
  DepartureAirport : String := ""
  DestinationAirport : String := ""
  DepartureDate : String := ""
  deriving DecidableEq, Repr

structure Airline where
  BookingReference : String := ""
  TicketNumber : String := ""
  Passengers : Option (List Passenger) := none
  Legs : Option (List Leg) := none
  deriving DecidableEq, Repr

structure PaymentMethod where
  Type_ : String := ""
  ID : String := ""
  Saved : Bool := false
  Title : String := ""
  Phone : String := ""
  deriving DecidableEq, Repr

/-- A Go `map[string]interface{}` as far as encoding/json can tell: the nil map, a map given
by its members (distinct keys; each value stands for the Go value that is written as, or was
read from, that JSON value, so float64 rounding of numbers is not represented), or a map
holding a value that `json.Marshal` rejects (a channel, a function, a NaN). -/
inductive Metadata where
  | nil
  | entries (members : List (String × Json))
  | unsupported
  deriving Repr

structure PaymentRequest where
  Amount : Yandexkassa.Amount := {}
  Description : String := ""
  Receipt : Yandexkassa.Receipt := {}
  Recipient : Yandexkassa.Recipient := {}
  PaymentToken : String := ""
  PaymentMethodId : String := ""
  PaymentMethodData : Yandexkassa.PaymentMethodData := {}
  Confirmation : Yandexkassa.Confirmation := {}
  SavePaymentMethod : Bool := false
  Capture : Bool := false
  ClientIp : String := ""
  Metadata : Yandexkassa.Metadata := .nil
  Airline : Yandexkassa.Airline := {}
  deriving Repr

structure PaymentConfirmRequest where
  Amount : Yandexkassa.Amount := {}
  Receipt : Yandexkassa.Receipt := {}
  Airline : Yandexkassa.Airline := {}
  deriving DecidableEq, Repr

structure Payment where
  ID : String := ""
  Status : String := ""
  Amount : Yandexkassa.Amount := {}
  Description : String := ""
  Recipient : Yandexkassa.Recipient := {}
  PaymentMethod : Yandexkassa.PaymentMethod := {}
  CapturedAt : String := ""
  CreatedAt : String := ""
  ExpiresAt : String := ""
  Confirmation : Yandexkassa.ConfirmationResponse := {}
  Test : Bool := false
  RefundedAmount : Yandexkassa.Amount := {}
  Paid : Bool := false
  ReceiptRegistration : String := ""
  Metadata : Yandexkassa.Metadata := .nil
  deriving Repr

structure Processing where
  Type_ : String := ""
  Description : String := ""
  RetryAfter : Int := 0
  deriving DecidableEq, Repr

structure RefundRequest where
  PaymentID : String := ""
  Amount : Yandexkassa.Amount := {}
  Description : String := ""
  Receipt : Yandexkassa.Receipt := {}
  deriving DecidableEq, Repr

structure Refund where
  ID : String := ""
  PaymentID : String := ""
  Status : String := ""
  CreatedAt : String := ""
  Amount : Yandexkassa.Amount := {}
  ReceiptRegistration : String := ""
  Description : String := ""
  deriving DecidableEq, Repr

/-- A non-nil Go `error`, by dynamic type: `yandex` is a `*Error` of this package; the others
are the error types of the standard library that reach the package's callers. -/
inductive GoError where
  | yandex (e : Error)
  | unmarshalType (value : String) (goType : String)
  | jsonSyntax (reason : String)
  | marshal (reason : String)
  | transport (reason : String)
  | read (reason : String)
  deriving DecidableEq, Repr

/-! ## encoding/json: decoding into the package's structs

`json.Unmarshal` does not stop at a value of the wrong type: it leaves the destination as it
was, saves the first such error, goes on, and returns the saved error at the end. A decoder
below therefore returns the destination afterwards together with the saved error. -/

/-- The error the decoder keeps: the first one. -/
def keepFirst (saved new : Option GoError) : Option GoError :=
  match saved with
  | some e => some e
  | none => new

/-- Decoding into a Go `string`; `null` leaves it unchanged. -/
def decodeString (cur : String) : Json → String × Option GoError
  | .str s => (s, none)
  | .null => (cur, none)
  | v => (cur, some (.unmarshalType v.kind "string"))

/-- Decoding into a Go `bool`; `null` leaves it unchanged. -/
def decodeBool (cur : Bool) : Json → Bool × Option GoError
  | .bool b => (b, none)
  | .null => (cur, none)
  | v => (cur, some (.unmarshalType v.kind "bool"))

/-- Decoding into a Go `int64`: the literal must pass `strconv.ParseInt(s, 10, 64)`, so it is
written as an integer and lies in the int64 range; `null` leaves the field unchanged. -/
def decodeInt64 (cur : Int) : Json → Int × Option GoError
  | .num (.int i) =>
    if -(2 ^ 63) ≤ i ∧ i < 2 ^ 63 then (i, none)
    else (cur, some (.unmarshalType "number" "int64"))
  | .null => (cur, none)
  | v => (cur, some (.unmarshalType v.kind "int64"))

/-- Assignment `m[k] = v` on a map given by its members. -/
def setMember (k : String) (v : Json) : List (String × Json) → List (String × Json)
  | [] => [(k, v)]
  | x :: xs => if x.1 = k then (k, v) :: xs else x :: setMember k v xs

/-- Decoding into a Go `map[string]interface{}`: an object sets its members in document order
(a nil map is made first), `null` sets the map to nil, anything else is a type error. A
number literal that does not fit a float64 is a type error; the members kept in that case
are not meaningful (every caller discards the struct when an error is returned). -/
def decodeMetadata (cur : Metadata) : Json → Metadata × Option GoError
  | .obj kvs =>
    (.entries (kvs.foldl (fun m kv => setMember kv.1 kv.2 m)
        (match cur with
         | .entries m => m
         | _ => [])),
      if Json.floatsFitMembers kvs then none else some (.unmarshalType "number" "float64"))
  | .null => (.nil, none)
  | v => (cur, some (.unmarshalType v.kind "map[string]interface {}"))

/-- A struct field as encoding/json reads it: the Go field name, the struct tag as written in
the source, and the decoder of the field's type acting on the struct. -/
structure Field (σ : Type) where
  goName : String
  tag : String
  store : σ → Json → σ × Option GoError

/-- The JSON name of the field. -/
def Field.key {σ : Type} (f : Field σ) : Option String := jsonKey f.goName f.tag

/-- The field an object key is decoded into: the field whose JSON name is the key exactly,
otherwise the first field whose JSON name equals the key under case folding, otherwise
none (the member is skipped). -/
def findField {σ : Type} (fields : List (Field σ)) (key : String) : Option (Field σ) :=
  match fields.find? (fun f => f.key = some key) with
  | some f => some f
  | none => fields.find? (fun f => f.key.map foldName = some (foldName key))

/-- One member of an object decoded into a struct: the member is skipped when no field matches
its key, and stored into the matching field otherwise; of the errors the first is kept. -/
def storeMember {σ : Type} (fields : List (Field σ)) (acc : σ × Option GoError)
    (kv : String × Json) : σ × Option GoError :=
  match findField fields kv.1 with
  | none => acc
  | some f => ((f.store acc.1 kv.2).1, keepFirst acc.2 (f.store acc.1 kv.2).2)

/-- Decoding into a Go struct that has the given fields: the members of an object are
stored one after the other in document order, `null` leaves the struct unchanged, any other
value is a type error. -/
def decodeStruct {σ : Type} (goType : String) (fields : List (Field σ)) (cur : σ) :
    Json → σ × Option GoError
  | .obj kvs => kvs.foldl (storeMember fields) (cur, none)
  | .null => (cur, none)
  | v => (cur, some (.unmarshalType v.kind goType))

/-- Go `json.Unmarshal(body, &x)` for a struct `x` that holds `zero`: a syntax error when the
body is not valid JSON, the saved error when a value has the wrong type, the decoded struct
otherwise. -/
def unmarshalInto {σ : Type} (goType : String) (fields : List (Field σ)) (zero : σ) :
    Body → Except GoError σ
  | .invalid reason => .error (.jsonSyntax reason)
  | .value v =>
    match decodeStruct goType fields zero v with
    | (x, none) => .ok x
    | (_, some e) => .error e

/-- A field of Go type `string`. -/
def Field.ofString {σ : Type} (goName tag : String) (get : σ → String)
    (set : σ → String → σ) : Field σ :=
  ⟨goName, tag, fun x v => (set x (decodeString (get x) v).1, (decodeString (get x) v).2)⟩

/-- A field of Go type `bool`. -/
def Field.ofBool {σ : Type} (goName tag : String) (get : σ → Bool) (set : σ → Bool → σ) :
    Field σ :=
  ⟨goName, tag, fun x v => (set x (decodeBool (get x) v).1, (decodeBool (get x) v).2)⟩

/-- A field of Go type `int64`. -/
def Field.ofInt64 {σ : Type} (goName tag : String) (get : σ → Int) (set : σ → Int → σ) :
    Field σ :=
  ⟨goName, tag, fun x v => (set x (decodeInt64 (get x) v).1, (decodeInt64 (get x) v).2)⟩

/-- A field whose Go type is a struct with the given fields. -/
def Field.ofStruct {σ τ : Type} (goName tag goType : String) (fields : List (Field τ))
    (get : σ → τ) (set : σ → τ → σ) : Field σ :=
  ⟨goName, tag, fun x v =>
    (set x (decodeStruct goType fields (get x) v).1, (decodeStruct goType fields (get x) v).2)⟩

/-- A field of Go type `map[string]interface{}`. -/
def Field.ofMetadata {σ : Type} (goName tag : String) (get : σ → Metadata)
    (set : σ → Metadata → σ) : Field σ :=
  ⟨goName, tag, fun x v => (set x (decodeMetadata (get x) v).1, (decodeMetadata (get x) v).2)⟩

/-- The fields of `Amount` (yandexkassa.go). -/
def Amount.fields : List (Field Amount) :=
  [ .ofString "Value" "json:\"value\"" (·.Value) (fun a x => { a with Value := x }),
    .ofString "Currency" "json:\"currency\"" (·.Currency) (fun a x => { a with Currency := x }) ]

/-- The fields of `Error` (yandexkassa.go). -/
def Error.fields : List (Field Error) :=
  [ .ofString "Type" "json:\"type\"" (·.Type_) (fun e x => { e with Type_ := x }),
    .ofString "ID" "json:\"id\"" (·.ID) (fun e x => { e with ID := x }),
    .ofString "Code" "json:\"code\"" (·.Code) (fun e x => { e with Code := x }),
    .ofString "Description" "json:\"description\"" (·.Description)
      (fun e x => { e with Description := x }),
    .ofString "Parameter" "json:\"parameter\"" (·.Parameter)
      (fun e x => { e with Parameter := x }) ]

/-- The fields of `Recipient` (payment.go). -/
def Recipient.fields : List (Field Recipient) :=
  [ .ofString "GatewayID" "json:\"gateway_id\"" (·.GatewayID)
      (fun r x => { r with GatewayID := x }) ]

/-- The fields of `ConfirmationResponse` (payment.go). -/
def ConfirmationResponse.fields : List (Field ConfirmationResponse) :=
  [ .ofString "Type" "json:\"type\"" (·.Type_) (fun c x => { c with Type_ := x }),
    .ofBool "Enforce" "json:\"enforce\"" (·.Enforce) (fun c x => { c with Enforce := x }),
    .ofString "ReturnUrl" "json:\"return_url\"" (·.ReturnUrl)
      (fun c x => { c with ReturnUrl := x }),
    .ofString "ConfirmationUrl" "json:\"confirmation_url\"" (·.ConfirmationUrl)
      (fun c x => { c with ConfirmationUrl := x }) ]

/-- The fields of `PaymentMethod` (payment.go). -/
def PaymentMethod.fields : List (Field PaymentMethod) :=
  [ .ofString "Type" "json:\"type\"" (·.Type_) (fun m x => { m with Type_ := x }),
    .ofString "ID" "json:\"id\"" (·.ID) (fun m x => { m with ID := x }),
    .ofBool "Saved" "json:\"saved\"" (·.Saved) (fun m x => { m with Saved := x }),
    .ofString "Title" "json:\"title\"" (·.Title) (fun m x => { m with Title := x }),
    .ofString "Phone" "json:\"phone\"" (·.Phone) (fun m x => { m with Phone := x }) ]

/-- The fields of `Payment` (payment.go). -/
def Payment.fields : List (Field Payment) :=
  [ .ofString "ID" "json:\"id\"" (·.ID) (fun p x => { p with ID := x }),
    .ofString "Status" "json:\"status\"" (·.Status) (fun p x => { p with Status := x }),
    .ofStruct "Amount" "json:\"amount\"" "yandexkassa.Amount" Amount.fields (·.Amount)
      (fun p x => { p with Amount := x }),
    .ofString "Description" "json:\"description\"" (·.Description)
      (fun p x => { p with Description := x }),
    .ofStruct "Recipient" "json:\"recipient\"" "yandexkassa.Recipient" Recipient.fields
      (·.Recipient) (fun p x => { p with Recipient := x }),
    .ofStruct "PaymentMethod" "json:\"payment_method\"" "yandexkassa.PaymentMethod"
      PaymentMethod.fields (·.PaymentMethod) (fun p x => { p with PaymentMethod := x }),
    .ofString "CapturedAt" "json:\"captured_at\"" (·.CapturedAt)
      (fun p x => { p with CapturedAt := x }),
    .ofString "CreatedAt" "json:\"created_at\"" (·.CreatedAt)
      (fun p x => { p with CreatedAt := x }),
    .ofString "ExpiresAt" "json:\"expires_at\"" (·.ExpiresAt)
      (fun p x => { p with ExpiresAt := x }),
    .ofStruct "Confirmation" "json:\"confirmation\"" "yandexkassa.ConfirmationResponse"
      ConfirmationResponse.fields (·.Confirmation) (fun p x => { p with Confirmation := x }),
    .ofBool "Test" "json:\"test\"" (·.Test) (fun p x => { p with Test := x }),
    .ofStruct "RefundedAmount" "json:\"refunded_amount\"" "yandexkassa.Amount" Amount.fields
      (·.RefundedAmount) (fun p x => { p with RefundedAmount := x }),
    .ofBool "Paid" "json:\"paid\"" (·.Paid) (fun p x => { p with Paid := x }),
    .ofString "ReceiptRegistration" "json:\"receipt_registration\"" (·.ReceiptRegistration)
      (fun p x => { p with ReceiptRegistration := x }),
    .ofMetadata "Metadata" "json:\"metadata\"" (·.Metadata)
      (fun p x => { p with Metadata := x }) ]

/-- The fields of `Processing` (payment.go); the tag of `RetryAfter` is written in the source
with a blank after the colon. -/
def Processing.fields : List (Field Processing) :=
  [ .ofString "Type" "json:\"type\"" (·.Type_) (fun p x => { p with Type_ := x }),
    .ofString "Description" "json:\"description\"" (·.Description)
      (fun p x => { p with Description := x }),
    .ofInt64 "RetryAfter" "json: \"retry_after\"" (·.RetryAfter)
      (fun p x => { p with RetryAfter := x }) ]

/-- The fields of `Refund` (refund.go). -/
def Refund.fields : List (Field Refund) :=
  [ .ofString "ID" "json:\"id\"" (·.ID) (fun r x => { r with ID := x }),
    .ofString "PaymentID" "json:\"payment_id\"" (·.PaymentID)
      (fun r x => { r with PaymentID := x }),
    .ofString "Status" "json:\"status\"" (·.Status) (fun r x => { r with Status := x }),
    .ofString "CreatedAt" "json:\"created_at\"" (·.CreatedAt)
      (fun r x => { r with CreatedAt := x }),
    .ofStruct "Amount" "json:\"amount\"" "yandexkassa.Amount" Amount.fields (·.Amount)
      (fun r x => { r with Amount := x }),
    .ofString "ReceiptRegistration" "json:\"receipt_registration\"" (·.ReceiptRegistration)
      (fun r x => { r with ReceiptRegistration := x }),
    .ofString "Description" "json:\"description\"" (·.Description)
      (fun r x => { r with Description := x }) ]

/-- Go `var payment Payment; err = json.Unmarshal(body, &payment)`. -/
def Payment.Unmarshal (body : Body) : Except GoError Payment :=
  unmarshalInto "yandexkassa.Payment" Payment.fields {} body

/-- Go `var refund Refund; err = json.Unmarshal(body, &refund)`. -/
def Refund.Unmarshal (body : Body) : Except GoError Refund :=
  unmarshalInto "yandexkassa.Refund" Refund.fields {} body

/-- Go `var proc Processing; err = json.Unmarshal(body, &proc)`. -/
def Processing.Unmarshal (body : Body) : Except GoError Processing :=
  unmarshalInto "yandexkassa.Processing" Processing.fields {} body

/-- Go `var yandexError Error; err = json.Unmarshal(body, &yandexError)`. -/
def Error.Unmarshal (body : Body) : Except GoError Error :=
  unmarshalInto "yandexkassa.Error" Error.fields {} body

/-! ## encoding/json: encoding the request structs -/

/-- A struct field as encoding/json writes it: the Go field name, the struct tag as written in
the source, and the encoding of the field's value. -/
structure OutField (σ : Type) where
  goName : String
  tag : String
  encode : σ → Json

/-- The object `json.Marshal` writes for a struct: one member per field, in declaration order,
under the field's JSON name. -/
def marshalStruct {σ : Type} (fields : List (OutField σ)) (x : σ) : Json :=
  .obj (fields.filterMap (fun f => (jsonKey f.goName f.tag).map (fun k => (k, f.encode x))))

/-- A slice is written as `null` when nil and as an array otherwise. -/
def marshalSlice {σ : Type} (enc : σ → Json) : Option (List σ) → Json
  | none => .null
  | some xs => .arr (xs.map enc)

/-- Insertion of a member before the first member with a larger key (byte order of the keys,
which on UTF-8 text is code point order). -/
def insertMember (kv : String × Json) : List (String × Json) → List (String × Json)
  | [] => [kv]
  | x :: xs => if codes kv.1 < codes x.1 then kv :: x :: xs else x :: insertMember kv xs

/-- A map is written as `null` when nil and otherwise as an object with its keys sorted. -/
def Metadata.marshal : Metadata → Json
  | .entries kvs => .obj (kvs.foldr insertMember [])
  | _ => .null

/-- The fields of `Amount` as written. -/
def Amount.outFields : List (OutField Amount) :=
  [ ⟨"Value", "json:\"value\"", fun a => .str a.Value⟩,
    ⟨"Currency", "json:\"currency\"", fun a => .str a.Currency⟩ ]

/-- The fields of `Item` as written. -/
def Item.outFields : List (OutField Item) :=
  [ ⟨"Description", "json:\"description\"", fun i => .str i.Description⟩,
    ⟨"Quantity", "json:\"quantity\"", fun i => .str i.Quantity⟩,
    ⟨"Amount", "json:\"amount\"", fun i => marshalStruct Amount.outFields i.Amount⟩,
    ⟨"VatCode", "json:\"vat_code\"", fun i => .num (.int i.VatCode)⟩ ]

/-- The fields of `Receipt` as written. -/
def Receipt.outFields : List (OutField Receipt) :=
  [ ⟨"Items", "json:\"items\"", fun r => marshalSlice (marshalStruct Item.outFields) r.Items⟩,
    ⟨"TaxSystemCode", "json:\"tax_system_code\"", fun r => .num (.int r.TaxSystemCode)⟩,
    ⟨"Phone", "json:\"phone\"", fun r => .str r.Phone⟩,
    ⟨"Email", "json:\"email\"", fun r => .str r.Email⟩ ]

/-- The fields of `Recipient` as written. -/
def Recipient.outFields : List (OutField Recipient) :=
  [ ⟨"GatewayID", "json:\"gateway_id\"", fun r => .str r.GatewayID⟩ ]

/-- The fields of `Card` as written. -/
def Card.outFields : List (OutField Card) :=
  [ ⟨"Number", "json:\"number\"", fun c => .str c.Number⟩,
    ⟨"ExpiryYear", "json:\"expiry_year\"", fun c => .str c.ExpiryYear⟩,
    ⟨"ExpiryMonth", "json:\"expiry_month\"", fun c => .str c.ExpiryMonth⟩,
    ⟨"CSC", "json:\"csc\"", fun c => .str c.CSC⟩,
    ⟨"Cardholder", "json:\"cardholder\"", fun c => .str c.Cardholder⟩ ]

/-- The fields of `PaymentMethodData` as written. -/
def PaymentMethodData.outFields : List (OutField PaymentMethodData) :=
  [ ⟨"Type", "json:\"type\"", fun d => .str d.Type_⟩,
    ⟨"Card", "json:\"card\"", fun d => marshalStruct Card.outFields d.Card⟩ ]

/-- The fields of `Confirmation` as written. -/
def Confirmation.outFields : List (OutField Confirmation) :=
  [ ⟨"Type", "json:\"type\"", fun c => .str c.Type_⟩,
    ⟨"Enforce", "json:\"enforce\"", fun c => .bool c.Enforce⟩,
    ⟨"ReturnUrl", "json:\"return_url\"", fun c => .str c.ReturnUrl⟩ ]

/-- The fields of `Passenger` as written. -/
def Passenger.outFields : List (OutField Passenger) :=
  [ ⟨"FirstName", "json:\"first_name\"", fun p => .str p.FirstName⟩,
    ⟨"LastName", "json:\"last_name\"", fun p => .str p.LastName⟩ ]

/-- The fields of `Leg` as written. -/
def Leg.outFields : List (OutField Leg) :=
  [ ⟨"DepartureAirport", "json:\"departure_airport\"", fun l => .str l.DepartureAirport⟩,
    ⟨"DestinationAirport", "json:\"destination_airport\"", fun l => .str l.DestinationAirport⟩,
    ⟨"DepartureDate", "json:\"departure_date\"", fun l => .str l.DepartureDate⟩ ]

/-- The fields of `Airline` as written. -/
def Airline.outFields : List (OutField Airline) :=
  [ ⟨"BookingReference", "json:\"booking_reference\"", fun a => .str a.BookingReference⟩,
    ⟨"TicketNumber", "json:\"ticket_number\"", fun a => .str a.TicketNumber⟩,
    ⟨"Passengers", "json:\"passengers\"",
      fun a => marshalSlice (marshalStruct Passenger.outFields) a.Passengers⟩,
    ⟨"Legs", "json:\"legs\"", fun a => marshalSlice (marshalStruct Leg.outFields) a.Legs⟩ ]

/-- The fields of `PaymentRequest` as written (payment.go). -/
def PaymentRequest.outFields : List (OutField PaymentRequest) :=
  [ ⟨"Amount", "json:\"amount\"", fun r => marshalStruct Amount.outFields r.Amount⟩,
    ⟨"Description", "json:\"description\"", fun r => .str r.Description⟩,
    ⟨"Receipt", "json:\"receipt\"", fun r => marshalStruct Receipt.outFields r.Receipt⟩,
    ⟨"Recipient", "json:\"recipient\"", fun r => marshalStruct Recipient.outFields r.Recipient⟩,
    ⟨"PaymentToken", "json:\"payment_token\"", fun r => .str r.PaymentToken⟩,
    ⟨"PaymentMethodId", "json:\"payment_method_id\"", fun r => .str r.PaymentMethodId⟩,
    ⟨"PaymentMethodData", "json:\"payment_method_data\"",
      fun r => marshalStruct PaymentMethodData.outFields r.PaymentMethodData⟩,
    ⟨"Confirmation", "json:\"confirmation\"",
      fun r => marshalStruct Confirmation.outFields r.Confirmation⟩,
    ⟨"SavePaymentMethod", "json:\"save_payment_method\"", fun r => .bool r.SavePaymentMethod⟩,
    ⟨"Capture", "json:\"capture\"", fun r => .bool r.Capture⟩,
    ⟨"ClientIp", "json:\"client_ip\"", fun r => .str r.ClientIp⟩,
    ⟨"Metadata", "json:\"metadata\"", fun r => r.Metadata.marshal⟩,
    ⟨"Airline", "json:\"airline\"", fun r => marshalStruct Airline.outFields r.Airline⟩ ]

/-- The fields of `PaymentConfirmRequest` as written (payment.go); the three tags are written
in the source with a blank after the colon. -/
def PaymentConfirmRequest.outFields : List (OutField PaymentConfirmRequest) :=
  [ ⟨"Amount", "json: \"amount\"", fun r => marshalStruct Amount.outFields r.Amount⟩,
    ⟨"Receipt", "json: \"receipt\"", fun r => marshalStruct Receipt.outFields r.Receipt⟩,
    ⟨"Airline", "json: \"airline\"", fun r => marshalStruct Airline.outFields r.Airline⟩ ]

/-- The fields of `RefundRequest` as written (refund.go). -/
def RefundRequest.outFields : List (OutField RefundRequest) :=
  [ ⟨"PaymentID", "json:\"payment_id\"", fun r => .str r.PaymentID⟩,
    ⟨"Amount", "json:\"amount\"", fun r => marshalStruct Amount.outFields r.Amount⟩,
    ⟨"Description", "json:\"description\"", fun r => .str r.Description⟩,
    ⟨"Receipt", "json:\"receipt\"", fun r => marshalStruct Receipt.outFields r.Receipt⟩ ]

/-- Go `json.Marshal(inputPayment)` for `inputPayment *PaymentRequest`: `null` for the nil
pointer; an error when the metadata holds a value that cannot be encoded (the only field
whose type admits one); the object of the struct otherwise. -/
def PaymentRequest.Marshal : Option PaymentRequest → Except GoError Json
  | none => .ok .null
  | some r =>
    match r.Metadata with
    | .unsupported => .error (.marshal "json: unsupported type or value in metadata")
    | _ => .ok (marshalStruct PaymentRequest.outFields r)

/-- Go `json.Marshal(paymentConfirmData)`; no field type admits an unencodable value. -/
def PaymentConfirmRequest.Marshal (r : PaymentConfirmRequest) : Except GoError Json :=
  .ok (marshalStruct PaymentConfirmRequest.outFields r)

/-- Go `json.Marshal(inputRefund)`; no field type admits an unencodable value. -/
def RefundRequest.Marshal (r : RefundRequest) : Except GoError Json :=
  .ok (marshalStruct RefundRequest.outFields r)

/-! ## net/http: headers, requests, the round trip -/

/-- Table `isTokenTable` of net/textproto: the bytes allowed in a header field name. -/
def validHeaderFieldByte (c : Nat) : Bool :=
  (48 ≤ c && c ≤ 57) || (65 ≤ c && c ≤ 90) || (97 ≤ c && c ≤ 122) ||
    [33, 35, 36, 37, 38, 39, 42, 43, 45, 46, 94, 95, 96, 124, 126].contains c

/-- The rewriting loop of `canonicalMIMEHeaderKey`: upper case at the start and after each
dash, lower case elsewhere; the flag says whether the next letter is to be upper case. -/
def canonicalLoop : Bool → List Nat → List Nat
  | _, [] => []
  | upper, c :: cs =>
    (if upper then upperAscii c else lowerAscii c) ::
      canonicalLoop ((if upper then upperAscii c else lowerAscii c) = 45) cs

/-- Go `textproto.CanonicalMIMEHeaderKey`: a key with a byte that is not allowed in a field
name (any non-ASCII character included) is returned unchanged. -/
def CanonicalMIMEHeaderKey (s : String) : String :=
  if (codes s).all validHeaderFieldByte then
    String.mk ((canonicalLoop true (codes s)).map Char.ofNat)
  else s

/-- Go `http.Header`: the values stored under each canonical key. -/
abbrev Header := List (String × List String)

/-- Go `Header.Set`: the values under the canonical form of the key are replaced by the
single value. -/
def Header.Set (h : Header) (key value : String) : Header :=
  if h.any (fun e => e.1 = CanonicalMIMEHeaderKey key) then
    h.map (fun e => if e.1 = CanonicalMIMEHeaderKey key then (e.1, [value]) else e)
  else h ++ [(CanonicalMIMEHeaderKey key, [value])]

/-- Go `Header.Values`: the values stored under the canonical form of the key. -/
def Header.Values (h : Header) (key : String) : List String :=
  match h.find? (fun e => e.1 = CanonicalMIMEHeaderKey key) with
  | some e => e.2
  | none => []

/-- The alphabet of `base64.StdEncoding`. -/
def base64Digit (n : Nat) : Char :=
  "ABCDEFGHIJKLMNOPQRSTUVWXYZabcdefghijklmnopqrstuvwxyz0123456789+/".toList.getD n 'A'

/-- Go `base64.StdEncoding.EncodeToString` on a list of bytes. -/
def base64Encode : List Nat → List Char
  | [] => []
  | [a] => [base64Digit (a / 4), base64Digit (a % 4 * 16), '=', '=']
  | [a, b] =>
    [base64Digit (a / 4), base64Digit (a % 4 * 16 + b / 16), base64Digit (b % 16 * 4), '=']
  | a :: b :: c :: rest =>
    base64Digit (a / 4) :: base64Digit (a % 4 * 16 + b / 16) ::
      base64Digit (b % 16 * 4 + c / 64) :: base64Digit (c % 64) :: base64Encode rest

/-- Function `basicAuth` of net/http: the base64 encoding of `username:password`. -/
def basicAuth (username password : String) : String :=
  String.mk (base64Encode (utf8Bytes (username ++ ":" ++ password)))

/-- Go `http.Request`, as far as the package sets it: method, URL as given to `NewRequest`,
header, and the body (`none` for a nil body, otherwise the JSON value whose text it is). -/
structure Request where
  Method : String
  URL : String
  Header : Header := []
  Body : Option Json := none
  deriving Repr

/-- Go `Request.SetBasicAuth`. -/
def Request.SetBasicAuth (r : Request) (username password : String) : Request :=
  { r with Header := r.Header.Set "Authorization" ("Basic " ++ basicAuth username password) }

/-- Go `req.Header.Set(key, value)`. -/
def Request.SetHeader (r : Request) (key value : String) : Request :=
  { r with Header := r.Header.Set key value }

/-- Function `ishex` of net/url. -/
def ishex (c : Char) : Bool :=
  (48 ≤ c.toNat && c.toNat ≤ 57) || (97 ≤ c.toNat && c.toNat ≤ 102) ||
    (65 ≤ c.toNat && c.toNat ≤ 70)

/-- The check of percent escapes made by `unescape` of net/url: each percent sign is followed
by two hexadecimal digits. -/
def escapesValid : List Char → Bool
  | [] => true
  | c :: cs =>
    if c = '%' then
      match cs with
      | a :: b :: rest => ishex a && ishex b && escapesValid rest
      | _ => false
    else escapesValid cs

/-- The text `url.Parse` parses before it turns to the fragment: the URL up to the first
`#` (`strings.Cut(rawURL, "#")`). -/
def urlBeforeFragment (rawURL : String) : List Char :=
  rawURL.toList.takeWhile (fun c => c ≠ '#')

/-- The fragment text: the URL after the first `#`. -/
def urlFragmentText (rawURL : String) : List Char :=
  (rawURL.toList.dropWhile (fun c => c ≠ '#')).drop 1

/-- The query text: what follows the first `?` in the text before the fragment. -/
def urlQueryText (rawURL : String) : List Char :=
  ((urlBeforeFragment rawURL).dropWhile (fun c => c ≠ '?')).drop 1

/-- The path text of a URL that starts with `https://payment.yandex.net/`: what follows the
scheme and the authority in the text before the first `?` or `#`. -/
def urlPathText (rawURL : String) : List Char :=
  ((urlBeforeFragment rawURL).takeWhile (fun c => c ≠ '?')).drop
    "https://payment.yandex.net".length

/-- Whether `url.Parse` accepts a URL that starts with `https://payment.yandex.net/` (scheme
and host are then fine): the text before the first `#` has no ASCII control character
(`stringContainsCTLByte` in `parse`; the fragment is not checked for it), and the percent
escapes of the path (the text before the first `?` or `#`) and of the fragment (the text
after the first `#`) are well formed. -/
def urlParses (rawURL : String) : Bool :=
  (urlBeforeFragment rawURL).all (fun c => ¬ (c.toNat < 32 ∨ c.toNat = 127)) &&
    escapesValid ((urlBeforeFragment rawURL).takeWhile (fun c => c ≠ '?')) &&
    escapesValid (urlFragmentText rawURL)

/-- Go `http.NewRequest(method, url, body)` for the methods and URLs of this package: it
fails exactly when `url.Parse` rejects the URL. The error is a `*url.Error`; it is kept as
a transport error that records the URL, and its text is not the text Go gives it. -/
def NewRequest (method url : String) (body : Option Json) : Except GoError Request :=
  if urlParses url then .ok { Method := method, URL := url, Body := body }
  else .error (.transport ("parse " ++ url))

/-! ## net/url: the parsed URL of a request -/

/-- Function `shouldEscape(c, encodePath)` of net/url on a byte: letters, digits and the
marks `- _ . ~ $ & + , / : ; = @` stay as they are in a path, every other byte is escaped. -/
def shouldEscapePath (c : Nat) : Bool :=
  !((97 ≤ c && c ≤ 122) || (65 ≤ c && c ≤ 90) || (48 ≤ c && c ≤ 57) ||
    [45, 95, 46, 126, 36, 38, 43, 44, 47, 58, 59, 61, 64].contains c)

/-- Function `unhex` of net/url. -/
def unhex (c : Nat) : Nat :=
  if 48 ≤ c ∧ c ≤ 57 then c - 48
  else if 97 ≤ c ∧ c ≤ 102 then c - 97 + 10
  else if 65 ≤ c ∧ c ≤ 70 then c - 65 + 10
  else 0

/-- Function `unescape(s, encodePath)` of net/url on the bytes of a text whose escapes have
been checked: each `%XX` becomes the byte XX, every other byte stays. -/
def unescapePath : List Nat → List Nat
  | [] => []
  | c :: cs =>
    if c = 37 then
      match cs with
      | a :: b :: rest => (unhex a * 16 + unhex b) :: unescapePath rest
      | _ => []
    else c :: unescapePath cs

/-- The digits of `upperhex` of net/url. -/
def upperhex (n : Nat) : Nat := ("0123456789ABCDEF".toList.getD n '0').toNat

/-- Function `escape(s, encodePath)` of net/url on bytes. -/
def escapePath : List Nat → List Nat
  | [] => []
  | c :: cs =>
    if shouldEscapePath c then 37 :: upperhex (c / 16) :: upperhex (c % 16) :: escapePath cs
    else c :: escapePath cs

/-- The test `validEncoded(s, encodePath)` of net/url makes on one byte: the marks
`! $ & ' ( ) * + , ; = : @ [ ]` and `%` are fine, any other byte is fine when it needs no
escaping. -/
def validPathByte (c : Nat) : Bool :=
  [33, 36, 38, 39, 40, 41, 42, 43, 44, 59, 61, 58, 64, 91, 93, 37].contains c ||
    !shouldEscapePath c

/-- Function `validEncoded(s, encodePath)` of net/url on bytes. -/
def validEncodedPath (s : List Nat) : Bool := s.all validPathByte

/-- Go `url.URL`, the fields `url.Parse` sets from the text after scheme and host: the
decoded path and fragment are sequences of bytes. -/
structure URL where
  Path : List Nat
  RawPath : List Nat
  ForceQuery : Bool
  RawQuery : String
  Fragment : List Nat
  deriving DecidableEq, Repr

/-- Go `url.Parse` on a URL it accepts that starts with `https://payment.yandex.net/`:
`setPath` decodes the path text and keeps the text itself as RawPath unless it is the
default encoding of the decoded path; the query is the text after the first `?`
(ForceQuery when that `?` is the last character and the only one); `setFragment` decodes
the fragment. -/
def parsedURL (rawURL : String) : URL :=
  { Path := unescapePath ((urlPathText rawURL).flatMap utf8Char)
    RawPath :=
      if (urlPathText rawURL).flatMap utf8Char =
          escapePath (unescapePath ((urlPathText rawURL).flatMap utf8Char)) then []
      else (urlPathText rawURL).flatMap utf8Char
    ForceQuery :=
      decide ((urlBeforeFragment rawURL).getLast? = some '?') &&
        decide ((urlBeforeFragment rawURL).count '?' = 1)
    RawQuery := String.mk (urlQueryText rawURL)
    Fragment := unescapePath ((urlFragmentText rawURL).flatMap utf8Char) }

/-- Go `(*URL).EscapedPath`: RawPath when it is set, is a valid encoding and decodes to Path;
otherwise the default encoding of Path (`*` for the path `*`). -/
def URL.EscapedPath (u : URL) : List Nat :=
  if u.RawPath ≠ [] ∧ validEncodedPath u.RawPath = true ∧ unescapePath u.RawPath = u.Path then
    u.RawPath
  else if u.Path = [42] then [42]
  else escapePath u.Path

/-- Go `(*URL).RequestURI` for a URL without opaque part: the escaped path (`/` when it is
empty), followed by `?` and the query when there is one. This is the request target the
client of net/http writes on the request line; the fragment is not sent. -/
def URL.RequestURI (u : URL) : String :=
  (if u.EscapedPath = [] then "/" else String.mk (u.EscapedPath.map Char.ofNat)) ++
    (if u.ForceQuery = true ∨ u.RawQuery ≠ "" then "?" ++ u.RawQuery else "")

/-- The request target of a request: `req.URL.RequestURI()`. -/
def Request.RequestURI (r : Request) : String := (parsedURL r.URL).RequestURI

/-- What `client.Do(req)` followed by `ioutil.ReadAll(resp.Body)` comes to: `client.Do`
returns an error, or it returns a response with a status code whose body cannot be read to
the end, or the response is read in full. The errors of the first two cases are values of
net/http, net/url and io types; they are kept by their text. -/
inductive Exchange where
  | doFailed (reason : String)
  | readFailed (status : Int) (reason : String)
  | response (status : Int) (body : Body)
  deriving Repr

/-- The three results of an operation: resource, processing, error. -/
abbrev Result (ρ : Type) := Option ρ × Option Processing × Option GoError

/-! ## The operations (payment.go, refund.go)

Each operation is its request-building part (up to the last `req.Header.Set`), named
`request`, followed by the round trip and the `switch resp.StatusCode`. -/

/-- Lines 139-151 of payment.go: the request `CreatePayment` hands to `client.Do`. -/
def Kassa.CreatePayment.request (k : Kassa) (inputPayment : Option PaymentRequest) :
    Except GoError Request :=
  match PaymentRequest.Marshal inputPayment with
  | .error err => .error err
  | .ok serializedPayment =>
    match NewRequest "POST" "https://payment.yandex.net/api/v3/payments"
        (some serializedPayment) with
    | .error err => .error err
    | .ok req =>
      .ok (((req.SetBasicAuth k.IdempotenceKey k.SecretKey).SetHeader "Idempotence-Key"
        k.IdempotenceKey).SetHeader "Content-Type" "application/json")

/-- Go `func (k *Kassa) CreatePayment(inputPayment *PaymentRequest)`. -/
def Kassa.CreatePayment (k : Kassa) (client : Request → Exchange)
    (inputPayment : Option PaymentRequest) : Result Payment :=
  match Kassa.CreatePayment.request k inputPayment with
  | .error err => (none, none, some err)
  | .ok req =>
    match client req with
    | .doFailed reason => (none, none, some (.transport reason))
    | .readFailed _ reason => (none, none, some (.read reason))
    | .response status body =>
      if status = 200 then
        match Payment.Unmarshal body with
        | .error err => (none, none, some err)
        | .ok payment => (some payment, none, none)
      else if status = 202 then
        match Processing.Unmarshal body with
        | .error err => (none, none, some err)
        | .ok proc => (none, some proc, none)
      else
        match Error.Unmarshal body with
        | .error err => (none, none, some err)
        | .ok yandexError => (none, none, some (.yandex yandexError))

/-- Lines 196-203 of payment.go: the request `PaymentInfo` hands to `client.Do`. -/
def Kassa.PaymentInfo.request (k : Kassa) (paymentId : String) : Except GoError Request :=
  match NewRequest "GET" ("https://payment.yandex.net/api/v3/payments/" ++ paymentId) none with
  | .error err => .error err
  | .ok req => .ok (req.SetBasicAuth k.IdempotenceKey k.SecretKey)

/-- Go `func (k *Kassa) PaymentInfo(paymentId string)`. -/
def Kassa.PaymentInfo (k : Kassa) (client : Request → Exchange) (paymentId : String) :
    Result Payment :=
  match Kassa.PaymentInfo.request k paymentId with
  | .error err => (none, none, some err)
  | .ok req =>
    match client req with
    | .doFailed reason => (none, none, some (.transport reason))
    | .readFailed _ reason => (none, none, some (.read reason))
    | .response status body =>
      if status = 200 then
        match Payment.Unmarshal body with
        | .error err => (none, none, some err)
        | .ok payment => (some payment, none, none)
      else if status = 202 then
        match Processing.Unmarshal body with
        | .error err => (none, none, some err)
        | .ok proc => (none, some proc, none)
      else
        match Error.Unmarshal body with
        | .error err => (none, none, some err)
        | .ok yandexError => (none, none, some (.yandex yandexError))

/-- Lines 273-290 of payment.go, for a non-nil `inputPayment`: the request `PaymentConfirm`
hands to `client.Do`. -/
def Kassa.PaymentConfirm.request (k : Kassa) (paymentId : String)
    (inputPayment : PaymentRequest) : Except GoError Request :=
  match PaymentConfirmRequest.Marshal
      { Amount := inputPayment.Amount
        Receipt := inputPayment.Receipt
        Airline := inputPayment.Airline } with
  | .error err => .error err
  | .ok serializedPayment =>
    match NewRequest "POST"
        ("https://payment.yandex.net/api/v3/payments/" ++ paymentId ++ "/capture")
        (some serializedPayment) with
    | .error err => .error err
    | .ok req =>
      .ok (((req.SetHeader k.IdempotenceKey k.SecretKey).SetHeader "Idempotence-Key"
        k.IdempotenceKey).SetHeader "Content-Type" "application/json")

/-- Go `func (k *Kassa) PaymentConfirm(paymentId string, inputPayment *PaymentRequest)`.
The outer `none` is the run-time panic of `inputPayment.Amount` on a nil `inputPayment`. -/
def Kassa.PaymentConfirm (k : Kassa) (client : Request → Exchange) (paymentId : String)
    (inputPayment : Option PaymentRequest) : Option (Result Payment) :=
  match inputPayment with
  | none => none
  | some input =>
    some
      (match Kassa.PaymentConfirm.request k paymentId input with
       | .error err => (none, none, some err)
       | .ok req =>
         match client req with
         | .doFailed reason => (none, none, some (.transport reason))
         | .readFailed _ reason => (none, none, some (.read reason))
         | .response status body =>
           if status = 200 then
             match Payment.Unmarshal body with
             | .error err => (none, none, some err)
             | .ok payment => (some payment, none, none)
           else if status = 202 then
             match Processing.Unmarshal body with
             | .error err => (none, none, some err)
             | .ok proc => (none, some proc, none)
           else
             match Error.Unmarshal body with
             | .error err => (none, none, some err)
             | .ok yandexError => (none, none, some (.yandex yandexError)))

/-- Lines 335-343 of payment.go: the request `PaymentCancel` hands to `client.Do`. -/
def Kassa.PaymentCancel.request (k : Kassa) (paymentId : String) : Except GoError Request :=
  match NewRequest "POST"
      ("https://payment.yandex.net/api/v3/payments/" ++ paymentId ++ "/cancel") none with
  | .error err => .error err
  | .ok req =>
    .ok (((req.SetHeader k.IdempotenceKey k.SecretKey).SetHeader "Idempotence-Key"
      k.IdempotenceKey).SetHeader "Content-Type" "application/json")

/-- Go `func (k *Kassa) PaymentCancel(paymentId string)`. -/
def Kassa.PaymentCancel (k : Kassa) (client : Request → Exchange) (paymentId : String) :
    Result Payment :=
  match Kassa.PaymentCancel.request k paymentId with
  | .error err => (none, none, some err)
  | .ok req =>
    match client req with
    | .doFailed reason => (none, none, some (.transport reason))
    | .readFailed _ reason => (none, none, some (.read reason))
    | .response status body =>
      if status = 200 then
        match Payment.Unmarshal body with
        | .error err => (none, none, some err)
        | .ok payment => (some payment, none, none)
      else if status = 202 then
        match Processing.Unmarshal body with
        | .error err => (none, none, some err)
        | .ok proc => (none, some proc, none)
      else
        match Error.Unmarshal body with
        | .error err => (none, none, some err)
        | .ok yandexError => (none, none, some (.yandex yandexError))

/-- Lines 34-48 of refund.go: the request `CreateRefund` hands to `client.Do`. -/
def Kassa.CreateRefund.request (k : Kassa) (inputRefund : RefundRequest) :
    Except GoError Request :=
  match RefundRequest.Marshal inputRefund with
  | .error err => .error err
  | .ok serializedRefund =>
    match NewRequest "POST" "https://payment.yandex.net/api/v3/refunds"
        (some serializedRefund) with
    | .error err => .error err
    | .ok req =>
      .ok (((req.SetBasicAuth k.IdempotenceKey k.SecretKey).SetHeader "Idempotence-Key"
        k.IdempotenceKey).SetHeader "Content-Type" "application/json")

/-- Go `func (k *Kassa) CreateRefund(inputRefund RefundRequest)`. -/
def Kassa.CreateRefund (k : Kassa) (client : Request → Exchange) (inputRefund : RefundRequest) :
    Result Refund :=
  match Kassa.CreateRefund.request k inputRefund with
  | .error err => (none, none, some err)
  | .ok req =>
    match client req with
    | .doFailed reason => (none, none, some (.transport reason))
    | .readFailed _ reason => (none, none, some (.read reason))
    | .response status body =>
      if status = 200 then
        match Refund.Unmarshal body with
        | .error err => (none, none, some err)
        | .ok refund => (some refund, none, none)
      else if status = 202 then
        match Processing.Unmarshal body with
        | .error err => (none, none, some err)
        | .ok proc => (none, some proc, none)
      else
        match Error.Unmarshal body with
        | .error err => (none, none, some err)
        | .ok yandexError => (none, none, some (.yandex yandexError))

/-- Lines 92-98 of refund.go: the request `RefundInfo` hands to `client.Do`. -/
def Kassa.RefundInfo.request (k : Kassa) (refundId : String) : Except GoError Request :=
  match NewRequest "GET" ("https://payment.yandex.net/api/v3/refunds/" ++ refundId) none with
  | .error err => .error err
  | .ok req => .ok (req.SetBasicAuth k.IdempotenceKey k.SecretKey)

/-- Go `func (k *Kassa) RefundInfo(refundId string)`. -/
def Kassa.RefundInfo (k : Kassa) (client : Request → Exchange) (refundId : String) :
    Result Refund :=
  match Kassa.RefundInfo.request k refundId with
  | .error err => (none, none, some err)
  | .ok req =>
    match client req with
    | .doFailed reason => (none, none, some (.transport reason))
    | .readFailed _ reason => (none, none, some (.read reason))
    | .response status body =>
      if status = 200 then
        match Refund.Unmarshal body with
        | .error err => (none, none, some err)
        | .ok refund => (some refund, none, none)
      else if status = 202 then
        match Processing.Unmarshal body with
        | .error err => (none, none, some err)
        | .ok proc => (none, some proc, none)
      else
        match Error.Unmarshal body with
        | .error err => (none, none, some err)
        | .ok yandexError => (none, none, some (.yandex yandexError))

/-- Go `func IsYandexError(err error) (*Error, bool)` (yandexkassa.go): in the `else` branch
the shadowing `err` is the zero `*Error`, nil. -/
def IsYandexError (err : Option GoError) : Option Error × Bool :=
  match err with
  | some (.yandex e) => (some e, true)
  | _ => (none, false)

/-! ## The notification handler (payment.go) -/

/-- Go `http.ResponseWriter`, as far as a handler can act on it: the status code passed to the
first `WriteHeader`, and the chunks passed to `Write`. -/
structure ResponseWriter where
  status : Option Int := none
  written : List String := []
  deriving DecidableEq, Repr

/-- Go `w.WriteHeader(code)`: the first call fixes the status code. -/
def ResponseWriter.WriteHeader (w : ResponseWriter) (code : Int) : ResponseWriter :=
  match w.status with
  | none => { w with status := some code }
  | some _ => w

/-- How a call of the handler ends: the response writer and the world as the handler leaves
them, and the value it panicked with (`none` when it returns normally). -/
structure Served (ω : Type) where
  w : ResponseWriter
  world : ω
  panicked : Option GoError

/-- Go `json.NewDecoder(q.Body).Decode(&payment)` on a zero `payment`: the request body is
represented by the first JSON value of the stream, or marked `invalid` when reading or
scanning it fails. -/
def Payment.Decode (q : Body) : Except GoError Payment :=
  unmarshalInto "yandexkassa.Payment" Payment.fields {} q

/-- Go `func (k *Kassa) PaymentNotification(captureFunction, succeedFunction
func(*Kassa, *Payment) error) http.HandlerFunc`. The two callbacks are arbitrary Go
functions: here they act on a world `ω` of whatever they can change, and return their
error with the world they leave. The handler is given the response writer, the request
body and the world. -/
def Kassa.PaymentNotification {ω : Type} (k : Kassa)
    (captureFunction succeedFunction : Kassa → Payment → ω → Option GoError × ω)
    (w : ResponseWriter) (q : Body) (world : ω) : Served ω :=
  match Payment.Decode q with
  | .error err => ⟨w.WriteHeader 500, world, some err⟩
  | .ok payment =>
    if payment.Status = "waiting_for_capture" then
      match captureFunction k payment world with
      | (some err, world1) => ⟨w.WriteHeader 500, world1, some err⟩
      | (none, world1) => ⟨w, world1, none⟩
    else if payment.Status = "succeeded" then
      match succeedFunction k payment world with
      | (some err, world1) => ⟨w.WriteHeader 500, world1, some err⟩
      | (none, world1) => ⟨w, world1, none⟩
    else ⟨w, world, none⟩

/-! ## net/http: what the server sends for a call of a handler -/

/-- What the peer of the connection gets from the server of net/http for one request: a
complete response with its status code and body; or a connection closed before any byte of
a response; or a connection closed after at most a part of a response. -/
inductive Sent where
  | response (status : Int) (body : List String)
  | closedWithoutResponse
  | aborted
  deriving DecidableEq, Repr

/-- Function `conn.serve` of net/http around one call of a handler that the server calls
directly (as `http.HandleFunc` and `http.ListenAndServe` of demo/main.go arrange).
`WriteHeader` only records the status code: the status line is written by the first flush
of the body or by `finishRequest`, which the server runs after the handler has returned
and which sends status 200 when none was recorded. When the handler panics, the deferred
`recover` of `conn.serve` logs the panic and closes the connection without running
`finishRequest`: when the handler has written no body, no byte of a response has been
sent and the recorded status is lost; otherwise at most a part of the response has. -/
def serverSends {ω : Type} (s : Served ω) : Sent :=
  match s.panicked with
  | none => .response (s.w.status.getD 200) s.w.written
  | some _ => if s.w.written = [] then .closedWithoutResponse else .aborted

/-! ## The six operations taken together

The properties below are stated for all six operations at once. `Operation` is a call of one
of them with its arguments; `Operation.run` is what the call returns, the resource being a
`Payment` or a `Refund` according to the operation. -/

/-- A call of one of the six operations, with its arguments. -/
inductive Operation where
  | CreatePayment (inputPayment : Option PaymentRequest)
  | PaymentInfo (paymentId : String)
  | PaymentConfirm (paymentId : String) (inputPayment : Option PaymentRequest)
  | PaymentCancel (paymentId : String)
  | CreateRefund (inputRefund : RefundRequest)
  | RefundInfo (refundId : String)

/-- The resource an operation returns: a `*Payment` or a `*Refund`. -/
inductive Resource where
  | payment (p : Payment)
  | refund (r : Refund)

/-- The result of a payment operation, as a result on resources. -/
def Resource.ofPayment (r : Result Payment) : Result Resource :=
  (r.1.map Resource.payment, r.2.1, r.2.2)

/-- The result of a refund operation, as a result on resources. -/
def Resource.ofRefund (r : Result Refund) : Result Resource :=
  (r.1.map Resource.refund, r.2.1, r.2.2)

/-- What the call returns; `none` when it panics instead of returning. -/
def Operation.run (k : Kassa) (client : Request → Exchange) :
    Operation → Option (Result Resource)
  | .CreatePayment inputPayment => some (Resource.ofPayment (k.CreatePayment client inputPayment))
  | .PaymentInfo paymentId => some (Resource.ofPayment (k.PaymentInfo client paymentId))
  | .PaymentConfirm paymentId inputPayment =>
    (k.PaymentConfirm client paymentId inputPayment).map Resource.ofPayment
  | .PaymentCancel paymentId => some (Resource.ofPayment (k.PaymentCancel client paymentId))
  | .CreateRefund inputRefund => some (Resource.ofRefund (k.CreateRefund client inputRefund))
  | .RefundInfo refundId => some (Resource.ofRefund (k.RefundInfo client refundId))

/-- The request-building part of the call: the request handed to `client.Do`, or the error
returned before any request is sent; `none` when the call panics. -/
def Operation.request (k : Kassa) : Operation → Option (Except GoError Request)
  | .CreatePayment inputPayment => some (Kassa.CreatePayment.request k inputPayment)
  | .PaymentInfo paymentId => some (Kassa.PaymentInfo.request k paymentId)
  | .PaymentConfirm _ none => none
  | .PaymentConfirm paymentId (some input) => some (Kassa.PaymentConfirm.request k paymentId input)
  | .PaymentCancel paymentId => some (Kassa.PaymentCancel.request k paymentId)
  | .CreateRefund inputRefund => some (Kassa.CreateRefund.request k inputRefund)
  | .RefundInfo refundId => some (Kassa.RefundInfo.request k refundId)

/-- The round trip of the call: what the network answers to the request the call sends;
`none` when the call sends no request. -/
def Operation.exchange (k : Kassa) (client : Request → Exchange) (op : Operation) :
    Option Exchange :=
  match op.request k with
  | some (.ok req) => some (client req)
  | _ => none

/-- Decoding a body as the resource type of the operation's endpoint: `Payment` for the four
payment operations, `Refund` for the two refund operations. -/
def Operation.decodeResource : Operation → Body → Except GoError Resource
  | .CreateRefund _, body => (Refund.Unmarshal body).map Resource.refund
  | .RefundInfo _, body => (Refund.Unmarshal body).map Resource.refund
  | _, body => (Payment.Unmarshal body).map Resource.payment

/-! ## Vocabulary of the properties -/

/-- The text of a JSON string; `none` for any other JSON value. -/
def Json.text? : Json → Option String
  | .str s => some s
  | _ => none

/-- The value of the member of an object with the given name, the last one when the name
occurs more than once; `none` when no member has the name. -/
def lastMember (name : String) : List (String × Json) → Option Json
  | [] => none
  | kv :: rest =>
    match lastMember name rest with
    | some v => some v
    | none => if kv.1 = name then some kv.2 else none

/-- The text an object carries under a name: the text of its member with that name, the empty
string when it has no such member. -/
def fieldText (members : List (String × Json)) (name : String) : String :=
  ((lastMember name members).bind Json.text?).getD ""

/-- The JSON names of the fields of `Error`. -/
def Error.names : List String := ["type", "id", "code", "description", "parameter"]

/-- A member of an object is plain for a list of names when, if its key matches one of the
names under case folding, the key is that very name and the value is a JSON string. -/
def MemberPlain (names : List String) (kv : String × Json) : Prop :=
  ∀ name ∈ names, foldName kv.1 = foldName name → kv.1 = name ∧ (kv.2.text?).isSome = true

instance (names : List String) (kv : String × Json) : Decidable (MemberPlain names kv) := by
  unfold MemberPlain
  infer_instance

/-- What a member does to the text held under a name: a member with that name replaces the
text by its own (a member that is not a string leaves it), any other member leaves it. -/
def textAfter (name : String) (cur : String) (kv : String × Json) : String :=
  if kv.1 = name then (kv.2.text?).getD cur else cur

/-- What storing one plain member does to an `Error`. -/
def Error.afterMember (e : Error) (kv : String × Json) : Error :=
  { Type_ := textAfter "type" e.Type_ kv
    ID := textAfter "id" e.ID kv
    Code := textAfter "code" e.Code kv
    Description := textAfter "description" e.Description kv
    Parameter := textAfter "parameter" e.Parameter kv }

/-- Whether the dynamic type of the error is `*Error`. -/
def GoError.isYandex : GoError → Bool
  | .yandex _ => true
  | _ => false

/-- A field is sound when the errors its decoder saves are errors of encoding/json, never a
`*Error` of this package. -/
def Field.Sound {σ : Type} (f : Field σ) : Prop :=
  ∀ x v e, (f.store x v).2 = some e → e.isYandex = false

/-- The three-way shape of a result: with a nil error exactly one of resource and processing
is non-nil, with a non-nil error both are nil. -/
def ThreeWay {ρ : Type} (r : Result ρ) : Prop :=
  (r.2.2 = none → (r.1.isSome ∧ r.2.1 = none) ∨ (r.1 = none ∧ r.2.1.isSome)) ∧
    (r.2.2 ≠ none → r.1 = none ∧ r.2.1 = none)

/-! ## Example values -/

/-- The client of demo/main.go. -/
def exampleKassa : Kassa :=
  { ShopID := 12345, SecretKey := "testSecrectKey", IdempotenceKey := "testIdempotenceKey" }

/-- A payment request with amount 10.00 RUB and a receipt e-mail address. -/
def exampleRequest : PaymentRequest :=
  { Amount := { Value := "10.00", Currency := "RUB" }, Receipt := { Email := "payer@example.com" } }

/-- A network that answers every request with the same status code and JSON body. -/
def answering (status : Int) (v : Json) : Request → Exchange :=
  fun _ => .response status (.value v)

/-- The body of a pending payment. -/
def pendingBody : Json :=
  .obj [("id", .str "pay_1"), ("status", .str "pending"),
    ("amount", .obj [("value", .str "10.00"), ("currency", .str "RUB")]), ("paid", .bool false)]

/-- The payment of `pendingBody`. -/
def pendingPayment : Payment :=
  { ID := "pay_1", Status := "pending", Amount := { Value := "10.00", Currency := "RUB" } }

/-- The body of an in-progress acknowledgment with `retry_after` 3000. -/
def inProgressBody : Json :=
  .obj [("type", .str "InProgress"), ("description", .str "..."),
    ("retry_after", .num (.int 3000))]

/-- The body of a `not_found` gateway error. -/
def notFoundBody : Json :=
  .obj [("type", .str "error"), ("id", .str "ab5a11cd-13cc-4e33-af8b-75a74e18dd09"),
    ("code", .str "not_found"), ("description", .str "Payment not found"),
    ("parameter", .str "payment_id")]

/-- An error body whose `code` is a number, not a string. -/
def numericCodeBody : Json :=
  .obj [("type", .str "error"), ("code", .num (.int 404))]

/-! ## Vocabulary for the notification handler -/

/-- One call of a callback of `PaymentNotification`, with its arguments. -/
inductive Call where
  | capture (k : Kassa) (p : Payment)
  | succeed (k : Kassa) (p : Payment)

/-- A callback that appends its call to a log of calls (the world) and returns the error given
by `ret`. -/
def recording (tag : Kassa → Payment → Call) (ret : Kassa → Payment → Option GoError) :
    Kassa → Payment → List Call → Option GoError × List Call :=
  fun k p log => (ret k p, log ++ [tag k p])

/-- The notification body of scenario D: a payment `pay_1` with status `succeeded`. -/
def succeededBody : Json :=
  .obj [("id", .str "pay_1"), ("status", .str "succeeded"), ("paid", .bool true)]

/-- The payment of `succeededBody`. -/
def succeededPayment : Payment := { ID := "pay_1", Status := "succeeded", Paid := true }

/-! ## Vocabulary for the idempotence key -/

/-- The mutating operations: create, confirm (capture), cancel, refund. -/
def Operation.mutating : Operation → Bool
  | .CreatePayment _ => true
  | .PaymentConfirm _ _ => true
  | .PaymentCancel _ => true
  | .CreateRefund _ => true
  | _ => false

/-- A second payment request, for another order. -/
def otherRequest : PaymentRequest :=
  { Amount := { Value := "250.00", Currency := "RUB" }, Description := "order 73" }

/-- A refund request for the payment `pay_1`. -/
def exampleRefund : RefundRequest :=
  { PaymentID := "pay_1", Amount := { Value := "10.00", Currency := "RUB" } }

/-! ## The response classifier of the specification -/

/-- The Response Classifier as the specification words it (§4.2), for an endpoint whose
resource type is decoded by `decode`: a pure function of the status code and the body.
Status 200: decode the body as the resource, a decoding failure surfaces the
deserialization error. Status 202: decode the body as Processing, a non-error outcome.
Any other status: decode the body as a gateway error and return it as the error value;
if this decoding fails, surface the deserialization error instead. -/
def specClassifier {ρ : Type} (decode : Body → Except GoError ρ) (status : Int) (body : Body) :
    Result ρ :=
  if status = 200 then
    match decode body with
    | .ok resource => (some resource, none, none)
    | .error err => (none, none, some err)
  else if status = 202 then
    match Processing.Unmarshal body with
    | .ok proc => (none, some proc, none)
    | .error err => (none, none, some err)
  else
    match Error.Unmarshal body with
    | .ok gatewayError => (none, none, some (.yandex gatewayError))
    | .error err => (none, none, some err)

/-- Whether the operation is one of the two refund operations. -/
def Operation.isRefund : Operation → Bool
  | .CreateRefund _ => true
  | .RefundInfo _ => true
  | _ => false

/-- Which of the three outcomes a result is: whether the resource, the Processing and the
error are non-nil. -/
def outcomeOf {ρ : Type} (r : Result ρ) : Bool × Bool × Bool :=
  (r.1.isSome, r.2.1.isSome, r.2.2.isSome)

/-- A body that decodes as a Refund and not as a Payment: its `paid` member, a field of
Payment only, is a string where Payment has a bool. -/
def clashBody : Json :=
  .obj [("id", .str "x"), ("status", .str "succeeded"), ("paid", .str "yes")]

/-! ## Vocabulary for the request line -/

/-- The fixed base of the remote API. -/
def baseURL : String := "https://payment.yandex.net/api/v3"

/-- A character that is neither an ASCII control character nor a percent sign. -/
def plainURLChar (c : Char) : Bool :=
  !(decide (c.toNat < 32) || decide (c.toNat = 127)) && !decide (c = '%')

/-- Whether `json.Marshal` accepts the map. -/
def Metadata.encodable : Metadata → Bool
  | .unsupported => false
  | _ => true

/-- A character that may stand in a path for itself as far as `url.Parse` goes: no ASCII
control character, no percent sign, no `?` and no `#`. -/
def plainPathChar (c : Char) : Bool :=
  plainURLChar c && !decide (c = '?') && !decide (c = '#')

/-- A character the request line shows as it is: an ASCII letter, a digit or one of the marks
`- _ . ~ $ & + , / : ; = @ ! ' ( ) * [ ]`, that is a byte `validEncoded` accepts, the
percent sign apart. -/
def verbatimPathChar (c : Char) : Bool :=
  validPathByte c.toNat && !decide (c.toNat = 37)

/-- The operation issues a request with this method for this path on the fixed host: the
request is built from the URL `https://payment.yandex.net` followed by `path`, and
`url.Parse` reads from that URL the decoded path `path`, no query and no fragment. -/
def IssuesPath (r : Except GoError Request) (method path : String) : Prop :=
  ∃ req, r = .ok req ∧ req.Method = method ∧ req.URL = "https://payment.yandex.net" ++ path ∧
    (parsedURL req.URL).Path = utf8Bytes path ∧ (parsedURL req.URL).RawQuery = "" ∧
    (parsedURL req.URL).ForceQuery = false ∧ (parsedURL req.URL).Fragment = []

/-- The operation issues a request whose request line has this method and this target. -/
def IssuesTarget (r : Except GoError Request) (method target : String) : Prop :=
  ∃ req, r = .ok req ∧ req.Method = method ∧ req.RequestURI = target

/-! ## Lemmas on the operations -/

/-- An operation whose request cannot be built returns the error of the failing step. -/
lemma Operation.run_of_request_error (k : Kassa) (client : Request → Exchange) (op : Operation)
    (err : GoError) (h : op.request k = some (.error err)) :
    op.run k client = some (none, none, some err) := by
  cases op with
  | PaymentConfirm paymentId inputPayment =>
    cases inputPayment with
    | none => simp [Operation.request] at h
    | some input =>
      simp only [Operation.request, Option.some.injEq] at h
      simp [Operation.run, Kassa.PaymentConfirm, h, Resource.ofPayment]
  | _ =>
    simp only [Operation.request, Option.some.injEq] at h
    simp [Operation.run, Kassa.CreatePayment, Kassa.PaymentInfo, Kassa.PaymentCancel,
      Kassa.CreateRefund, Kassa.RefundInfo, h, Resource.ofPayment, Resource.ofRefund]

/-- The request of a call that has a round trip. -/
lemma Operation.request_of_exchange (k : Kassa) (client : Request → Exchange) (op : Operation)
    (x : Exchange) (h : op.exchange k client = some x) :
    ∃ req, op.request k = some (.ok req) ∧ client req = x := by
  unfold Operation.exchange at h
  split at h
  · next req hreq => exact ⟨req, hreq, by simpa using h⟩
  · simp at h

/-- An operation whose `client.Do` fails returns that error. -/
lemma Operation.run_of_doFailed (k : Kassa) (client : Request → Exchange) (op : Operation)
    (reason : String) (h : op.exchange k client = some (.doFailed reason)) :
    op.run k client = some (none, none, some (.transport reason)) := by
  obtain ⟨req, hreq, hx⟩ := Operation.request_of_exchange k client op _ h
  cases op with
  | PaymentConfirm paymentId inputPayment =>
    cases inputPayment with
    | none => simp [Operation.request] at hreq
    | some input =>
      simp only [Operation.request, Option.some.injEq] at hreq
      simp [Operation.run, Kassa.PaymentConfirm, hreq, hx, Resource.ofPayment]
  | _ =>
    simp only [Operation.request, Option.some.injEq] at hreq
    simp [Operation.run, Kassa.CreatePayment, Kassa.PaymentInfo, Kassa.PaymentCancel,
      Kassa.CreateRefund, Kassa.RefundInfo, hreq, hx, Resource.ofPayment, Resource.ofRefund]

/-- An operation whose response body cannot be read returns that error. -/
lemma Operation.run_of_readFailed (k : Kassa) (client : Request → Exchange) (op : Operation)
    (status : Int) (reason : String)
    (h : op.exchange k client = some (.readFailed status reason)) :
    op.run k client = some (none, none, some (.read reason)) := by
  obtain ⟨req, hreq, hx⟩ := Operation.request_of_exchange k client op _ h
  cases op with
  | PaymentConfirm paymentId inputPayment =>
    cases inputPayment with
    | none => simp [Operation.request] at hreq
    | some input =>
      simp only [Operation.request, Option.some.injEq] at hreq
      simp [Operation.run, Kassa.PaymentConfirm, hreq, hx, Resource.ofPayment]
  | _ =>
    simp only [Operation.request, Option.some.injEq] at hreq
    simp [Operation.run, Kassa.CreatePayment, Kassa.PaymentInfo, Kassa.PaymentCancel,
      Kassa.CreateRefund, Kassa.RefundInfo, hreq, hx, Resource.ofPayment, Resource.ofRefund]

/-- An operation that reads a response with status 200 decodes the body as its resource. -/
lemma Operation.run_of_ok (k : Kassa) (client : Request → Exchange) (op : Operation)
    (body : Body) (h : op.exchange k client = some (.response 200 body)) :
    op.run k client = some
      (match op.decodeResource body with
       | .error err => (none, none, some err)
       | .ok r => (some r, none, none)) := by
  obtain ⟨req, hreq, hx⟩ := Operation.request_of_exchange k client op _ h
  cases op with
  | PaymentConfirm paymentId inputPayment =>
    cases inputPayment with
    | none => simp [Operation.request] at hreq
    | some input =>
      simp only [Operation.request, Option.some.injEq] at hreq
      simp only [Operation.run, Kassa.PaymentConfirm, hreq, hx, Operation.decodeResource]
      cases Payment.Unmarshal body <;> simp [Resource.ofPayment, Except.map]
  | CreateRefund inputRefund =>
    simp only [Operation.request, Option.some.injEq] at hreq
    simp only [Operation.run, Kassa.CreateRefund, hreq, hx, Operation.decodeResource]
    cases Refund.Unmarshal body <;> simp [Resource.ofRefund, Except.map]
  | RefundInfo refundId =>
    simp only [Operation.request, Option.some.injEq] at hreq
    simp only [Operation.run, Kassa.RefundInfo, hreq, hx, Operation.decodeResource]
    cases Refund.Unmarshal body <;> simp [Resource.ofRefund, Except.map]
  | _ =>
    simp only [Operation.request, Option.some.injEq] at hreq
    simp only [Operation.run, Kassa.CreatePayment, Kassa.PaymentInfo, Kassa.PaymentCancel, hreq,
      hx, Operation.decodeResource]
    cases Payment.Unmarshal body <;> simp [Resource.ofPayment, Except.map]

/-- An operation that reads a response with status 202 decodes the body as a `Processing`. -/
lemma Operation.run_of_accepted (k : Kassa) (client : Request → Exchange) (op : Operation)
    (body : Body) (h : op.exchange k client = some (.response 202 body)) :
    op.run k client = some
      (match Processing.Unmarshal body with
       | .error err => (none, none, some err)
       | .ok proc => (none, some proc, none)) := by
  obtain ⟨req, hreq, hx⟩ := Operation.request_of_exchange k client op _ h
  cases op with
  | PaymentConfirm paymentId inputPayment =>
    cases inputPayment with
    | none => simp [Operation.request] at hreq
    | some input =>
      simp only [Operation.request, Option.some.injEq] at hreq
      simp only [Operation.run, Kassa.PaymentConfirm, hreq, hx]
      cases Processing.Unmarshal body <;> simp [Resource.ofPayment]
  | _ =>
    simp only [Operation.request, Option.some.injEq] at hreq
    simp only [Operation.run, Kassa.CreatePayment, Kassa.PaymentInfo, Kassa.PaymentCancel,
      Kassa.CreateRefund, Kassa.RefundInfo, hreq, hx]
    cases Processing.Unmarshal body <;> simp [Resource.ofPayment, Resource.ofRefund]

/-- An operation that reads a response with another status decodes the body as an `Error`. -/
lemma Operation.run_of_other (k : Kassa) (client : Request → Exchange) (op : Operation)
    (status : Int) (body : Body) (h200 : status ≠ 200) (h202 : status ≠ 202)
    (h : op.exchange k client = some (.response status body)) :
    op.run k client = some
      (match Error.Unmarshal body with
       | .error err => (none, none, some err)
       | .ok yandexError => (none, none, some (.yandex yandexError))) := by
  obtain ⟨req, hreq, hx⟩ := Operation.request_of_exchange k client op _ h
  cases op with
  | PaymentConfirm paymentId inputPayment =>
    cases inputPayment with
    | none => simp [Operation.request] at hreq
    | some input =>
      simp only [Operation.request, Option.some.injEq] at hreq
      simp only [Operation.run, Kassa.PaymentConfirm, hreq, hx, h200, h202, if_false]
      cases Error.Unmarshal body <;> simp [Resource.ofPayment]
  | _ =>
    simp only [Operation.request, Option.some.injEq] at hreq
    simp only [Operation.run, Kassa.CreatePayment, Kassa.PaymentInfo, Kassa.PaymentCancel,
      Kassa.CreateRefund, Kassa.RefundInfo, hreq, hx, h200, h202, if_false]
    cases Error.Unmarshal body <;> simp [Resource.ofPayment, Resource.ofRefund]

/-! ## Lemmas on decoding -/

lemma jsonKey_Type : jsonKey "Type" "json:\"type\"" = some "type" := by decide

lemma jsonKey_ID : jsonKey "ID" "json:\"id\"" = some "id" := by decide

lemma jsonKey_Code : jsonKey "Code" "json:\"code\"" = some "code" := by decide

lemma jsonKey_Description : jsonKey "Description" "json:\"description\"" = some "description" := by
  decide

lemma jsonKey_Parameter : jsonKey "Parameter" "json:\"parameter\"" = some "parameter" := by
  decide

/-- The JSON name of `Processing.RetryAfter` is the Go field name: the tag in the source has
a blank after the colon, so it has no `json` key. -/
lemma jsonKey_RetryAfter : jsonKey "RetryAfter" "json: \"retry_after\"" = some "RetryAfter" := by
  decide

/-- A value with a text is a JSON string. -/
lemma Json.text?_isSome (v : Json) (h : (v.text?).isSome = true) : ∃ s, v = .str s := by
  cases v <;> simp_all [Json.text?]

/-- Storing a plain member into an `Error` sets the field the member names, without error. -/
lemma Error.storeMember_plain (e : Error) (kv : String × Json)
    (h : MemberPlain Error.names kv) :
    storeMember Error.fields (e, none) kv = (e.afterMember kv, none) := by
  obtain ⟨key, v⟩ := kv
  simp only [MemberPlain, Error.names, List.mem_cons, List.mem_singleton, List.not_mem_nil,
    or_false, forall_eq_or_imp, forall_eq] at h
  obtain ⟨h1, h2, h3, h4, h5⟩ := h
  by_cases c1 : key = "type"
  · subst c1
    obtain ⟨s, rfl⟩ := Json.text?_isSome v (h1 rfl).2
    simp [storeMember, findField, Error.fields, Field.key, Field.ofString, jsonKey_Type,
      jsonKey_ID, jsonKey_Code, jsonKey_Description, jsonKey_Parameter, Error.afterMember,
      textAfter, decodeString, keepFirst, Json.text?]
  by_cases c2 : key = "id"
  · subst c2
    obtain ⟨s, rfl⟩ := Json.text?_isSome v (h2 rfl).2
    simp [storeMember, findField, Error.fields, Field.key, Field.ofString, jsonKey_Type,
      jsonKey_ID, jsonKey_Code, jsonKey_Description, jsonKey_Parameter, Error.afterMember,
      textAfter, decodeString, keepFirst, Json.text?]
  by_cases c3 : key = "code"
  · subst c3
    obtain ⟨s, rfl⟩ := Json.text?_isSome v (h3 rfl).2
    simp [storeMember, findField, Error.fields, Field.key, Field.ofString, jsonKey_Type,
      jsonKey_ID, jsonKey_Code, jsonKey_Description, jsonKey_Parameter, Error.afterMember,
      textAfter, decodeString, keepFirst, Json.text?]
  by_cases c4 : key = "description"
  · subst c4
    obtain ⟨s, rfl⟩ := Json.text?_isSome v (h4 rfl).2
    simp [storeMember, findField, Error.fields, Field.key, Field.ofString, jsonKey_Type,
      jsonKey_ID, jsonKey_Code, jsonKey_Description, jsonKey_Parameter, Error.afterMember,
      textAfter, decodeString, keepFirst, Json.text?]
  by_cases c5 : key = "parameter"
  · subst c5
    obtain ⟨s, rfl⟩ := Json.text?_isSome v (h5 rfl).2
    simp [storeMember, findField, Error.fields, Field.key, Field.ofString, jsonKey_Type,
      jsonKey_ID, jsonKey_Code, jsonKey_Description, jsonKey_Parameter, Error.afterMember,
      textAfter, decodeString, keepFirst, Json.text?]
  have f1 : ¬ foldName "type" = foldName key := fun hf => c1 (h1 hf.symm).1
  have f2 : ¬ foldName "id" = foldName key := fun hf => c2 (h2 hf.symm).1
  have f3 : ¬ foldName "code" = foldName key := fun hf => c3 (h3 hf.symm).1
  have f4 : ¬ foldName "description" = foldName key := fun hf => c4 (h4 hf.symm).1
  have f5 : ¬ foldName "parameter" = foldName key := fun hf => c5 (h5 hf.symm).1
  have g1 : ¬ "type" = key := fun hf => c1 hf.symm
  have g2 : ¬ "id" = key := fun hf => c2 hf.symm
  have g3 : ¬ "code" = key := fun hf => c3 hf.symm
  have g4 : ¬ "description" = key := fun hf => c4 hf.symm
  have g5 : ¬ "parameter" = key := fun hf => c5 hf.symm
  simp [storeMember, findField, Error.fields, Field.key, Field.ofString, jsonKey_Type,
    jsonKey_ID, jsonKey_Code, jsonKey_Description, jsonKey_Parameter, Error.afterMember,
    textAfter, c1, c2, c3, c4, c5, f1, f2, f3, f4, f5, g1, g2, g3, g4, g5]

/-- Decoding an object of plain members into an `Error` stores them one by one, without
error. -/
lemma Error.decode_plain (members : List (String × Json))
    (h : ∀ kv ∈ members, MemberPlain Error.names kv) (e : Error) :
    decodeStruct "yandexkassa.Error" Error.fields e (.obj members) =
      (members.foldl Error.afterMember e, none) := by
  simp only [decodeStruct]
  induction members generalizing e with
  | nil => rfl
  | cons kv rest ih =>
    rw [List.foldl_cons, List.foldl_cons,
      Error.storeMember_plain e kv (h kv (List.mem_cons_self _ _))]
    exact ih (fun x hx => h x (List.mem_cons_of_mem _ hx)) _

/-- The member `lastMember` returns is a member with that name. -/
lemma lastMember_mem (name : String) (members : List (String × Json)) (v : Json)
    (h : lastMember name members = some v) : (name, v) ∈ members := by
  induction members with
  | nil => simp [lastMember] at h
  | cons kv rest ih =>
    simp only [lastMember] at h
    cases hl : lastMember name rest with
    | some u =>
      rw [hl] at h
      simp only [Option.some.injEq] at h
      subst h
      exact List.mem_cons_of_mem _ (ih hl)
    | none =>
      rw [hl] at h
      by_cases hk : kv.1 = name
      · simp only [hk, if_true, Option.some.injEq] at h
        subst h
        subst hk
        exact List.mem_cons_self _ _
      · simp [hk] at h

/-- Storing the members one after the other leaves, under a name, the text of the last member
with that name, provided the members with that name are strings. -/
lemma foldl_textAfter (name : String) (members : List (String × Json))
    (h : ∀ kv ∈ members, kv.1 = name → ∃ s, kv.2 = .str s) (start : String) :
    members.foldl (textAfter name) start =
      ((lastMember name members).bind Json.text?).getD start := by
  induction members generalizing start with
  | nil => rfl
  | cons kv rest ih =>
    rw [List.foldl_cons, ih (fun x hx => h x (List.mem_cons_of_mem _ hx))]
    simp only [lastMember]
    cases hl : lastMember name rest with
    | some u =>
      obtain ⟨s, hs⟩ := h (name, u) (List.mem_cons_of_mem _ (lastMember_mem name rest u hl)) rfl
      simp only at hs
      subst hs
      simp [Json.text?]
    | none =>
      by_cases hk : kv.1 = name
      · simp [textAfter, hk]
      · simp [textAfter, hk]

/-- Storing members into an `Error` acts on each field separately. -/
lemma Error.foldl_afterMember (members : List (String × Json)) (e : Error) :
    members.foldl Error.afterMember e =
      { Type_ := members.foldl (textAfter "type") e.Type_
        ID := members.foldl (textAfter "id") e.ID
        Code := members.foldl (textAfter "code") e.Code
        Description := members.foldl (textAfter "description") e.Description
        Parameter := members.foldl (textAfter "parameter") e.Parameter } := by
  induction members generalizing e with
  | nil => rfl
  | cons kv rest ih =>
    rw [List.foldl_cons, ih]
    rfl

/-- A plain member with one of the names of `Error` is a string. -/
lemma MemberPlain.text (kv : String × Json) (name : String) (hn : name ∈ Error.names)
    (h : MemberPlain Error.names kv) (hk : kv.1 = name) : ∃ s, kv.2 = .str s :=
  Json.text?_isSome kv.2 (h name hn (by rw [hk])).2

/-- Decoding the body of a gateway error: an object of plain members decodes, without error,
to the `Error` whose fields are the texts the object carries under the five names. -/
lemma Error.Unmarshal_plain (members : List (String × Json))
    (h : ∀ kv ∈ members, MemberPlain Error.names kv) :
    Error.Unmarshal (.value (.obj members)) =
      .ok { Type_ := fieldText members "type"
            ID := fieldText members "id"
            Code := fieldText members "code"
            Description := fieldText members "description"
            Parameter := fieldText members "parameter" } := by
  have ht := foldl_textAfter "type" members
    (fun kv hkv => MemberPlain.text kv _ (by simp [Error.names]) (h kv hkv)) ""
  have hi := foldl_textAfter "id" members
    (fun kv hkv => MemberPlain.text kv _ (by simp [Error.names]) (h kv hkv)) ""
  have hc := foldl_textAfter "code" members
    (fun kv hkv => MemberPlain.text kv _ (by simp [Error.names]) (h kv hkv)) ""
  have hd := foldl_textAfter "description" members
    (fun kv hkv => MemberPlain.text kv _ (by simp [Error.names]) (h kv hkv)) ""
  have hp := foldl_textAfter "parameter" members
    (fun kv hkv => MemberPlain.text kv _ (by simp [Error.names]) (h kv hkv)) ""
  simp only [Error.Unmarshal, unmarshalInto, Error.decode_plain members h,
    Error.foldl_afterMember, fieldText]
  rw [ht, hi, hc, hd, hp]

/-! ## Decoding errors are not gateway errors -/

/-- The field `findField` returns is one of the fields. -/
lemma findField_mem {σ : Type} (fields : List (Field σ)) (key : String) (f : Field σ)
    (h : findField fields key = some f) : f ∈ fields := by
  unfold findField at h
  split at h
  · next g hg =>
    simp only [Option.some.injEq] at h
    subst h
    exact List.mem_of_find?_eq_some hg
  · exact List.mem_of_find?_eq_some h

/-- The error a struct decoder saves is not a `*Error` when its fields are sound. -/
lemma decodeStruct_sound {σ : Type} (goType : String) (fields : List (Field σ))
    (hf : ∀ f ∈ fields, f.Sound) (cur : σ) (v : Json) (e : GoError)
    (h : (decodeStruct goType fields cur v).2 = some e) : e.isYandex = false := by
  cases v with
  | obj kvs =>
    simp only [decodeStruct] at h
    have key : ∀ (l : List (String × Json)) (acc : σ × Option GoError),
        (∀ e, acc.2 = some e → e.isYandex = false) →
        ∀ e, (l.foldl (storeMember fields) acc).2 = some e → e.isYandex = false := by
      intro l
      induction l with
      | nil => intro acc hacc e he; exact hacc e he
      | cons kv rest ih =>
        intro acc hacc e he
        rw [List.foldl_cons] at he
        refine ih _ ?_ e he
        intro e2 he2
        unfold storeMember at he2
        split at he2
        · exact hacc e2 he2
        · next f hfind =>
          cases hs : acc.2 with
          | some e3 =>
            rw [hs] at he2
            simp only [keepFirst, Option.some.injEq] at he2
            subst he2
            exact hacc _ hs
          | none =>
            rw [hs] at he2
            simp only [keepFirst] at he2
            exact hf f (findField_mem fields _ f hfind) _ _ _ he2
    exact key kvs (cur, none) (by simp) e h
  | null => simp [decodeStruct] at h
  | bool b => simp only [decodeStruct, Option.some.injEq] at h; subst h; rfl
  | num n => simp only [decodeStruct, Option.some.injEq] at h; subst h; rfl
  | str s => simp only [decodeStruct, Option.some.injEq] at h; subst h; rfl
  | arr xs => simp only [decodeStruct, Option.some.injEq] at h; subst h; rfl

lemma Field.sound_ofString {σ : Type} (goName tag : String) (get : σ → String)
    (set : σ → String → σ) : (Field.ofString goName tag get set).Sound := by
  intro x v e h
  cases v <;> simp only [Field.ofString, decodeString, Option.some.injEq] at h <;>
    first
    | (subst h; rfl)
    | simp at h

lemma Field.sound_ofBool {σ : Type} (goName tag : String) (get : σ → Bool)
    (set : σ → Bool → σ) : (Field.ofBool goName tag get set).Sound := by
  intro x v e h
  cases v <;> simp only [Field.ofBool, decodeBool, Option.some.injEq] at h <;>
    first
    | (subst h; rfl)
    | simp at h

lemma Field.sound_ofInt64 {σ : Type} (goName tag : String) (get : σ → Int)
    (set : σ → Int → σ) : (Field.ofInt64 goName tag get set).Sound := by
  intro x v e h
  cases v with
  | num n =>
    cases n with
    | int i =>
      simp only [Field.ofInt64, decodeInt64] at h
      split at h
      · simp at h
      · simp only [Option.some.injEq] at h; subst h; rfl
    | real m ex => simp only [Field.ofInt64, decodeInt64, Option.some.injEq] at h; subst h; rfl
  | null => simp [Field.ofInt64, decodeInt64] at h
  | bool b => simp only [Field.ofInt64, decodeInt64, Option.some.injEq] at h; subst h; rfl
  | str s => simp only [Field.ofInt64, decodeInt64, Option.some.injEq] at h; subst h; rfl
  | arr xs => simp only [Field.ofInt64, decodeInt64, Option.some.injEq] at h; subst h; rfl
  | obj kvs => simp only [Field.ofInt64, decodeInt64, Option.some.injEq] at h; subst h; rfl

lemma Field.sound_ofMetadata {σ : Type} (goName tag : String) (get : σ → Metadata)
    (set : σ → Metadata → σ) : (Field.ofMetadata goName tag get set).Sound := by
  intro x v e h
  cases v with
  | obj kvs =>
    simp only [Field.ofMetadata, decodeMetadata] at h
    split at h
    · simp at h
    · simp only [Option.some.injEq] at h; subst h; rfl
  | null => simp [Field.ofMetadata, decodeMetadata] at h
  | bool b => simp only [Field.ofMetadata, decodeMetadata, Option.some.injEq] at h; subst h; rfl
  | num n => simp only [Field.ofMetadata, decodeMetadata, Option.some.injEq] at h; subst h; rfl
  | str s => simp only [Field.ofMetadata, decodeMetadata, Option.some.injEq] at h; subst h; rfl
  | arr xs => simp only [Field.ofMetadata, decodeMetadata, Option.some.injEq] at h; subst h; rfl

lemma Field.sound_ofStruct {σ τ : Type} (goName tag goType : String) (fields : List (Field τ))
    (hf : ∀ f ∈ fields, f.Sound) (get : σ → τ) (set : σ → τ → σ) :
    (Field.ofStruct goName tag goType fields get set).Sound := by
  intro x v e h
  exact decodeStruct_sound goType fields hf (get x) v e h

/-- The error `json.Unmarshal` returns for a struct with sound fields is not a `*Error`. -/
lemma unmarshalInto_sound {σ : Type} (goType : String) (fields : List (Field σ))
    (hf : ∀ f ∈ fields, f.Sound) (zero : σ) (body : Body) (e : GoError)
    (h : unmarshalInto goType fields zero body = .error e) : e.isYandex = false := by
  cases body with
  | invalid reason =>
    simp only [unmarshalInto, Except.error.injEq] at h
    subst h
    rfl
  | value v =>
    simp only [unmarshalInto] at h
    split at h
    · simp at h
    · next x e2 hd =>
      simp only [Except.error.injEq] at h
      subst h
      exact decodeStruct_sound goType fields hf zero v e2 (by rw [hd])

lemma fields_sound_Amount : ∀ f ∈ Amount.fields, f.Sound := by
  simp [Amount.fields, Field.sound_ofString]

lemma fields_sound_Recipient : ∀ f ∈ Recipient.fields, f.Sound := by
  simp [Recipient.fields, Field.sound_ofString]

lemma fields_sound_PaymentMethod : ∀ f ∈ PaymentMethod.fields, f.Sound := by
  simp [PaymentMethod.fields, Field.sound_ofString, Field.sound_ofBool]

lemma fields_sound_ConfirmationResponse : ∀ f ∈ ConfirmationResponse.fields, f.Sound := by
  simp [ConfirmationResponse.fields, Field.sound_ofString, Field.sound_ofBool]

lemma fields_sound_Error : ∀ f ∈ Error.fields, f.Sound := by
  simp [Error.fields, Field.sound_ofString]

lemma fields_sound_Processing : ∀ f ∈ Processing.fields, f.Sound := by
  simp [Processing.fields, Field.sound_ofString, Field.sound_ofInt64]

lemma fields_sound_Refund : ∀ f ∈ Refund.fields, f.Sound := by
  simp only [Refund.fields, List.forall_mem_cons, Field.sound_ofString, true_and, and_true,
    List.not_mem_nil, false_imp_iff, implies_true]
  exact Field.sound_ofStruct _ _ _ _ fields_sound_Amount _ _

lemma fields_sound_Payment : ∀ f ∈ Payment.fields, f.Sound := by
  simp only [Payment.fields, List.forall_mem_cons, Field.sound_ofString, Field.sound_ofBool,
    Field.sound_ofMetadata, true_and, and_true, List.not_mem_nil, false_imp_iff, implies_true]
  exact ⟨Field.sound_ofStruct _ _ _ _ fields_sound_Amount _ _,
    Field.sound_ofStruct _ _ _ _ fields_sound_Recipient _ _,
    Field.sound_ofStruct _ _ _ _ fields_sound_PaymentMethod _ _,
    Field.sound_ofStruct _ _ _ _ fields_sound_ConfirmationResponse _ _,
    Field.sound_ofStruct _ _ _ _ fields_sound_Amount _ _⟩

/-- `IsYandexError` answers `(nil, false)` on an error that is not a `*Error`. -/
lemma IsYandexError_of_not_yandex (e : GoError) (h : e.isYandex = false) :
    IsYandexError (some e) = (none, false) := by
  cases e <;> simp_all [IsYandexError, GoError.isYandex]

/-- A call that sends no request and returns no error is a call that panics. -/
lemma Operation.run_of_no_request (k : Kassa) (client : Request → Exchange) (op : Operation)
    (h : op.request k = none) : op.run k client = none := by
  cases op with
  | PaymentConfirm paymentId inputPayment =>
    cases inputPayment with
    | none => rfl
    | some input => simp [Operation.request] at h
  | _ => simp [Operation.request] at h

/-- The only call that panics is `PaymentConfirm` on a nil request. -/
lemma Operation.request_eq_none (k : Kassa) (op : Operation) :
    op.request k = none ↔ ∃ paymentId, op = .PaymentConfirm paymentId none := by
  cases op with
  | PaymentConfirm paymentId inputPayment =>
    cases inputPayment <;> simp [Operation.request]
  | _ => simp [Operation.request]

/-- The error of a request that cannot be built is not a `*Error`. -/
lemma Operation.request_error_not_yandex (k : Kassa) (op : Operation) (err : GoError)
    (h : op.request k = some (.error err)) : err.isYandex = false := by
  have hnew : ∀ (m u : String) (b : Option Json) (e : GoError),
      NewRequest m u b = .error e → e.isYandex = false := by
    intro m u b e he
    unfold NewRequest at he
    split at he
    · simp at he
    · simp only [Except.error.injEq] at he
      subst he
      rfl
  cases op with
  | CreatePayment inputPayment =>
    simp only [Operation.request, Option.some.injEq, Kassa.CreatePayment.request] at h
    split at h
    · next e he =>
      simp only [Except.error.injEq] at h
      subst h
      cases inputPayment with
      | none => simp [PaymentRequest.Marshal] at he
      | some r =>
        simp only [PaymentRequest.Marshal] at he
        split at he
        · simp only [Except.error.injEq] at he
          subst he
          rfl
        · simp at he
    · split at h
      · next e he =>
        simp only [Except.error.injEq] at h
        subst h
        exact hnew _ _ _ _ he
      · simp at h
  | PaymentInfo paymentId =>
    simp only [Operation.request, Option.some.injEq, Kassa.PaymentInfo.request] at h
    split at h
    · next e he =>
      simp only [Except.error.injEq] at h
      subst h
      exact hnew _ _ _ _ he
    · simp at h
  | PaymentConfirm paymentId inputPayment =>
    cases inputPayment with
    | none => simp [Operation.request] at h
    | some input =>
      simp only [Operation.request, Option.some.injEq, Kassa.PaymentConfirm.request,
        PaymentConfirmRequest.Marshal] at h
      split at h
      · next e he =>
        simp only [Except.error.injEq] at h
        subst h
        exact hnew _ _ _ _ he
      · simp at h
  | PaymentCancel paymentId =>
    simp only [Operation.request, Option.some.injEq, Kassa.PaymentCancel.request] at h
    split at h
    · next e he =>
      simp only [Except.error.injEq] at h
      subst h
      exact hnew _ _ _ _ he
    · simp at h
  | CreateRefund inputRefund =>
    simp only [Operation.request, Option.some.injEq, Kassa.CreateRefund.request,
      RefundRequest.Marshal] at h
    split at h
    · next e he =>
      simp only [Except.error.injEq] at h
      subst h
      exact hnew _ _ _ _ he
    · simp at h
  | RefundInfo refundId =>
    simp only [Operation.request, Option.some.injEq, Kassa.RefundInfo.request] at h
    split at h
    · next e he =>
      simp only [Except.error.injEq] at h
      subst h
      exact hnew _ _ _ _ he
    · simp at h

/-- The error of decoding a body as the operation's resource is not a `*Error`. -/
lemma Operation.decodeResource_error_not_yandex (op : Operation) (body : Body) (err : GoError)
    (h : op.decodeResource body = .error err) : err.isYandex = false := by
  have hp : ∀ e, (Payment.Unmarshal body).map Resource.payment = .error e →
      e.isYandex = false := by
    intro e he
    cases hu : Payment.Unmarshal body with
    | error e2 =>
      rw [hu] at he
      simp only [Except.map, Except.error.injEq] at he
      subst he
      exact unmarshalInto_sound _ _ fields_sound_Payment _ _ _ hu
    | ok p => rw [hu] at he; simp [Except.map] at he
  have hr : ∀ e, (Refund.Unmarshal body).map Resource.refund = .error e →
      e.isYandex = false := by
    intro e he
    cases hu : Refund.Unmarshal body with
    | error e2 =>
      rw [hu] at he
      simp only [Except.map, Except.error.injEq] at he
      subst he
      exact unmarshalInto_sound _ _ fields_sound_Refund _ _ _ hu
    | ok p => rw [hu] at he; simp [Except.map] at he
  cases op <;> first
    | exact hp err h
    | exact hr err h

/-- The field `findField` returns has the key as its JSON name, exactly or under case
folding. -/
lemma findField_key {σ : Type} (fields : List (Field σ)) (key : String) (f : Field σ)
    (h : findField fields key = some f) : f.key.map foldName = some (foldName key) := by
  unfold findField at h
  split at h
  · next g hg =>
    simp only [Option.some.injEq] at h
    subst h
    have := List.find?_some hg
    simp only [decide_eq_true_eq] at this
    rw [this]
    rfl
  · have := List.find?_some h
    simpa using this

/-- A member whose key is no spelling of `RetryAfter` leaves `RetryAfter` as it was. -/
lemma Processing.storeMember_RetryAfter (acc : Processing × Option GoError)
    (kv : String × Json) (h : foldName kv.1 ≠ foldName "RetryAfter") :
    (storeMember Processing.fields acc kv).1.RetryAfter = acc.1.RetryAfter := by
  unfold storeMember
  cases hf : findField Processing.fields kv.1 with
  | none => rfl
  | some f =>
    have hkey := findField_key _ _ _ hf
    have hmem := findField_mem _ _ _ hf
    simp only [Processing.fields, List.mem_cons, List.mem_singleton, List.not_mem_nil,
      or_false] at hmem
    rcases hmem with rfl | rfl | rfl
    · rfl
    · rfl
    · exfalso
      simp only [Field.key, Field.ofInt64, jsonKey_RetryAfter, Option.map_some',
        Option.some.injEq] at hkey
      exact h hkey.symm

/-- An object without a member spelled `RetryAfter` leaves `RetryAfter` as it was. -/
lemma Processing.foldl_RetryAfter (members : List (String × Json))
    (h : ∀ kv ∈ members, foldName kv.1 ≠ foldName "RetryAfter")
    (acc : Processing × Option GoError) :
    (members.foldl (storeMember Processing.fields) acc).1.RetryAfter = acc.1.RetryAfter := by
  induction members generalizing acc with
  | nil => rfl
  | cons kv rest ih =>
    rw [List.foldl_cons, ih (fun x hx => h x (List.mem_cons_of_mem _ hx)),
      Processing.storeMember_RetryAfter acc kv (h kv (List.mem_cons_self _ _))]

/-- A Processing decoded from an object without a member spelled `RetryAfter` has
`RetryAfter` 0. -/
lemma Processing.Unmarshal_RetryAfter (members : List (String × Json))
    (h : ∀ kv ∈ members, foldName kv.1 ≠ foldName "RetryAfter") (proc : Processing)
    (hd : Processing.Unmarshal (.value (.obj members)) = .ok proc) : proc.RetryAfter = 0 := by
  simp only [Processing.Unmarshal, unmarshalInto, decodeStruct] at hd
  have := Processing.foldl_RetryAfter members h (({} : Processing), none)
  split at hd
  · next x hx =>
    simp only [Except.ok.injEq] at hd
    subst hd
    rw [hx] at this
    exact this
  · simp at hd

/-! ## The claims -/

/-- C1, as the code behaves: for each of the six operations and every response with status
202. (1) When the body is the object with members `type` t, `description` d and
`retry_after` n, the operation returns a nil resource, a nil error and a Processing with
Type t and Description d, but with RetryAfter 0 whatever n is. (2) More generally, when
the body is an object that decodes as a Processing and has no member whose key is
`RetryAfter` up to case, the operation returns nil, that Processing and nil, and its
RetryAfter is 0. The struct tag of `RetryAfter` is written `json: "retry_after"`, with a
blank after the colon, so the field is read under the key `RetryAfter` and the body's
`retry_after` is skipped. -/
theorem C1_retry_after_not_read (k : Kassa) (client : Request → Exchange) (op : Operation) :
    (∀ (t d : String) (n : Int),
        op.exchange k client = some (.response 202 (.value (.obj
          [("type", .str t), ("description", .str d), ("retry_after", .num (.int n))]))) →
        op.run k client =
          some (none, some { Type_ := t, Description := d, RetryAfter := 0 }, none)) ∧
      (∀ (members : List (String × Json)) (proc : Processing),
        (∀ kv ∈ members, foldName kv.1 ≠ foldName "RetryAfter") →
        op.exchange k client = some (.response 202 (.value (.obj members))) →
        Processing.Unmarshal (.value (.obj members)) = .ok proc →
        op.run k client = some (none, some proc, none) ∧ proc.RetryAfter = 0) := by
  constructor
  · intro t d n h
    rw [Operation.run_of_accepted k client op _ h]
    rfl
  · intro members proc hkeys h hd
    rw [Operation.run_of_accepted k client op _ h, hd]
    exact ⟨rfl, Processing.Unmarshal_RetryAfter members hkeys proc hd⟩

/-- C1 at the body of scenario B: `CreatePayment` receives 202 with `retry_after` 3000 and
returns a Processing whose RetryAfter is 0, not 3000. -/
theorem C1_retry_after_not_read_witness :
    (Operation.CreatePayment (some exampleRequest)).exchange exampleKassa
        (answering 202 inProgressBody) = some (.response 202 (.value inProgressBody)) ∧
      (Operation.CreatePayment (some exampleRequest)).run exampleKassa
        (answering 202 inProgressBody) =
        some (none, some { Type_ := "InProgress", Description := "...", RetryAfter := 0 }, none) ∧
      (0 : Int) ≠ 3000 :=
  ⟨rfl, (C1_retry_after_not_read exampleKassa (answering 202 inProgressBody)
    (.CreatePayment (some exampleRequest))).1 "InProgress" "..." 3000 rfl, by decide⟩

/-- C2: for each of the six operations, a response with status 200 is decoded as the resource
of the operation's endpoint (Payment for the payment operations, Refund for the refund
operations): when the body decodes, the operation returns the decoded resource, a nil
Processing and a nil error; when it does not, the operation returns nil, nil and the
decoding error. -/
theorem C2_status_ok_returns_resource (k : Kassa) (client : Request → Exchange) (op : Operation)
    (body : Body) (h : op.exchange k client = some (.response 200 body)) :
    (∀ r, op.decodeResource body = .ok r → op.run k client = some (some r, none, none)) ∧
      (∀ err, op.decodeResource body = .error err →
        op.run k client = some (none, none, some err)) := by
  rw [Operation.run_of_ok k client op body h]
  constructor
  · intro r hr
    rw [hr]
  · intro err he
    rw [he]

/-- C2 at scenario A: `CreatePayment` receives 200 with a pending payment and returns it. -/
theorem C2_status_ok_returns_resource_witness :
    (Operation.CreatePayment (some exampleRequest)).run exampleKassa (answering 200 pendingBody) =
      some (some (.payment pendingPayment), none, none) :=
  (C2_status_ok_returns_resource exampleKassa (answering 200 pendingBody)
    (.CreatePayment (some exampleRequest)) (.value pendingBody) rfl).1 _ rfl


/-- C3, counterexample: `PaymentCancel` receives 404 with a body that is a JSON object whose
`code` member is the number 404. The operation returns nil, nil and the decoding error
of encoding/json, which is not a `*Error`. -/
theorem C3_counterexample :
    (Operation.PaymentCancel "pay_1").exchange exampleKassa (answering 404 numericCodeBody) =
        some (.response 404 (.value numericCodeBody)) ∧
      (Operation.PaymentCancel "pay_1").run exampleKassa (answering 404 numericCodeBody) =
        some (none, none, some (.unmarshalType "number" "string")) ∧
      ¬ ∃ e : Error, (Operation.PaymentCancel "pay_1").run exampleKassa
        (answering 404 numericCodeBody) = some (none, none, some (.yandex e)) := by
  refine ⟨rfl, rfl, ?_⟩
  rintro ⟨e, he⟩
  have h2 : (Operation.PaymentCancel "pay_1").run exampleKassa (answering 404 numericCodeBody) =
      some (none, none, some (.unmarshalType "number" "string")) := rfl
  rw [h2] at he
  simp at he

/-- C3, amended: for each of the six operations and every response whose status is neither 200
nor 202 and whose body is a JSON object in which every member whose key matches `type`,
`id`, `code`, `description` or `parameter` under case folding has that very key and a string
value, the operation returns nil, nil and a `*Error` whose Type, ID, Code, Description
and Parameter are the texts of the body's members of those names (of the last one when
a name is repeated, the empty string when it is absent). -/
theorem C3_error_fields_from_body (k : Kassa) (client : Request → Exchange) (op : Operation)
    (status : Int) (members : List (String × Json)) (h200 : status ≠ 200) (h202 : status ≠ 202)
    (h : op.exchange k client = some (.response status (.value (.obj members))))
    (hplain : ∀ kv ∈ members, MemberPlain Error.names kv) :
    op.run k client = some (none, none, some (.yandex
      { Type_ := fieldText members "type"
        ID := fieldText members "id"
        Code := fieldText members "code"
        Description := fieldText members "description"
        Parameter := fieldText members "parameter" })) := by
  rw [Operation.run_of_other k client op status _ h200 h202 h, Error.Unmarshal_plain members hplain]

/-- C3 at scenario C: `PaymentCancel` receives 404 with the `not_found` error and returns
nil, nil and that error. -/
theorem C3_error_fields_from_body_witness :
    (Operation.PaymentCancel "pay_1").run exampleKassa (answering 404 notFoundBody) =
      some (none, none, some (.yandex
        { Type_ := "error"
          ID := "ab5a11cd-13cc-4e33-af8b-75a74e18dd09"
          Code := "not_found"
          Description := "Payment not found"
          Parameter := "payment_id" })) :=
  C3_error_fields_from_body exampleKassa (answering 404 notFoundBody) (.PaymentCancel "pay_1") 404
    [("type", .str "error"), ("id", .str "ab5a11cd-13cc-4e33-af8b-75a74e18dd09"),
      ("code", .str "not_found"), ("description", .str "Payment not found"),
      ("parameter", .str "payment_id")]
    (by decide) (by decide) rfl (by decide)

/-- C4: for each of the six operations, whatever the network does, a call that returns has the
three-way shape: with a nil error exactly one of resource and Processing is non-nil, with a
non-nil error both are nil. Every call returns, except `PaymentConfirm` on a nil
request, which panics. -/
theorem C4_three_way_result (k : Kassa) (client : Request → Exchange) (op : Operation) :
    (∀ r, op.run k client = some r → ThreeWay r) ∧
      (op.run k client = none ↔ ∃ paymentId, op = .PaymentConfirm paymentId none) := by
  constructor
  · intro r hr
    cases hreq : op.request k with
    | none => rw [Operation.run_of_no_request k client op hreq] at hr; simp at hr
    | some built =>
      cases built with
      | error err =>
        rw [Operation.run_of_request_error k client op err hreq] at hr
        simp only [Option.some.injEq] at hr
        subst hr
        simp [ThreeWay]
      | ok req =>
        have hx : op.exchange k client = some (client req) := by
          simp [Operation.exchange, hreq]
        cases hc : client req with
        | doFailed reason =>
          rw [hc] at hx
          rw [Operation.run_of_doFailed k client op reason hx] at hr
          simp only [Option.some.injEq] at hr
          subst hr
          simp [ThreeWay]
        | readFailed status reason =>
          rw [hc] at hx
          rw [Operation.run_of_readFailed k client op status reason hx] at hr
          simp only [Option.some.injEq] at hr
          subst hr
          simp [ThreeWay]
        | response status body =>
          rw [hc] at hx
          by_cases h200 : status = 200
          · subst h200
            rw [Operation.run_of_ok k client op body hx] at hr
            simp only [Option.some.injEq] at hr
            subst hr
            cases op.decodeResource body <;> simp [ThreeWay]
          · by_cases h202 : status = 202
            · subst h202
              rw [Operation.run_of_accepted k client op body hx] at hr
              simp only [Option.some.injEq] at hr
              subst hr
              cases Processing.Unmarshal body <;> simp [ThreeWay]
            · rw [Operation.run_of_other k client op status body h200 h202 hx] at hr
              simp only [Option.some.injEq] at hr
              subst hr
              cases Error.Unmarshal body <;> simp [ThreeWay]
  · rw [← Operation.request_eq_none k op]
    constructor
    · intro hnone
      cases hreq : op.request k with
      | none => rfl
      | some built =>
        exfalso
        cases op with
        | PaymentConfirm paymentId inputPayment =>
          cases inputPayment with
          | none => simp [Operation.request] at hreq
          | some input => simp [Operation.run, Kassa.PaymentConfirm] at hnone
        | _ => simp [Operation.run] at hnone
    · exact Operation.run_of_no_request k client op

/-- C4 at a call whose round trip fails: `RefundInfo` returns nil, nil and an error. -/
theorem C4_three_way_result_witness :
    (Operation.RefundInfo "ref_1").run exampleKassa (fun _ => .doFailed "dial tcp: timeout") =
        some (none, none, some (.transport "dial tcp: timeout")) ∧
      ThreeWay ((none, none, some (.transport "dial tcp: timeout")) : Result Resource) :=
  ⟨rfl, (C4_three_way_result exampleKassa (fun _ => .doFailed "dial tcp: timeout")
    (.RefundInfo "ref_1")).1 _ rfl⟩

/-- C5: for each of the six operations, (1) when the request cannot be built, (2) when
`client.Do` fails, (3) when the response body cannot be read, or (4) when the body does
not decode into the shape the status code selects (the resource for 200, Processing for
202, Error for any other status), the operation returns nil, nil and an error on which
`IsYandexError` answers `(nil, false)`; and (5) when the status is neither 200 nor 202 and
the body decodes as an Error, the operation returns nil, nil and an error on which
`IsYandexError` answers that Error and `true`. -/
theorem C5_generic_and_gateway_errors (k : Kassa) (client : Request → Exchange)
    (op : Operation) :
    (∀ err, op.request k = some (.error err) →
        op.run k client = some (none, none, some err) ∧
          IsYandexError (some err) = (none, false)) ∧
      (∀ reason, op.exchange k client = some (.doFailed reason) →
        ∃ err, op.run k client = some (none, none, some err) ∧
          IsYandexError (some err) = (none, false)) ∧
      (∀ status reason, op.exchange k client = some (.readFailed status reason) →
        ∃ err, op.run k client = some (none, none, some err) ∧
          IsYandexError (some err) = (none, false)) ∧
      (∀ status body err, op.exchange k client = some (.response status body) →
        (if status = 200 then op.decodeResource body = .error err
         else if status = 202 then Processing.Unmarshal body = .error err
         else Error.Unmarshal body = .error err) →
        op.run k client = some (none, none, some err) ∧
          IsYandexError (some err) = (none, false)) ∧
      (∀ status body e, op.exchange k client = some (.response status body) →
        status ≠ 200 → status ≠ 202 → Error.Unmarshal body = .ok e →
        op.run k client = some (none, none, some (.yandex e)) ∧
          IsYandexError (some (.yandex e)) = (some e, true)) := by
  refine ⟨?_, ?_, ?_, ?_, ?_⟩
  · intro err h
    exact ⟨Operation.run_of_request_error k client op err h,
      IsYandexError_of_not_yandex err (Operation.request_error_not_yandex k op err h)⟩
  · intro reason h
    exact ⟨_, Operation.run_of_doFailed k client op reason h, rfl⟩
  · intro status reason h
    exact ⟨_, Operation.run_of_readFailed k client op status reason h, rfl⟩
  · intro status body err h hdec
    by_cases h200 : status = 200
    · subst h200
      simp only [if_true] at hdec
      rw [Operation.run_of_ok k client op body h, hdec]
      exact ⟨rfl, IsYandexError_of_not_yandex err
        (Operation.decodeResource_error_not_yandex op body err hdec)⟩
    · by_cases h202 : status = 202
      · subst h202
        simp only [if_true, if_neg h200] at hdec
        rw [Operation.run_of_accepted k client op body h, hdec]
        exact ⟨rfl, IsYandexError_of_not_yandex err
          (unmarshalInto_sound _ _ fields_sound_Processing _ _ _ hdec)⟩
      · simp only [if_neg h200, if_neg h202] at hdec
        rw [Operation.run_of_other k client op status body h200 h202 h, hdec]
        exact ⟨rfl, IsYandexError_of_not_yandex err
          (unmarshalInto_sound _ _ fields_sound_Error _ _ _ hdec)⟩
  · intro status body e h h200 h202 hdec
    rw [Operation.run_of_other k client op status body h200 h202 h, hdec]
    exact ⟨rfl, rfl⟩

/-- C5 at two calls of `PaymentInfo`: a 503 response whose body is not JSON gives an error
that `IsYandexError` rejects, and a 404 response with the `not_found` body gives an error
that `IsYandexError` accepts. -/
theorem C5_generic_and_gateway_errors_witness :
    ((Operation.PaymentInfo "pay_1").run exampleKassa
          (fun _ => .response 503 (.invalid "invalid character <")) =
        some (none, none, some (.jsonSyntax "invalid character <")) ∧
      IsYandexError (some (.jsonSyntax "invalid character <")) = (none, false)) ∧
    ((Operation.PaymentInfo "pay_1").run exampleKassa (answering 404 notFoundBody) =
        some (none, none, some (.yandex
          { Type_ := "error"
            ID := "ab5a11cd-13cc-4e33-af8b-75a74e18dd09"
            Code := "not_found"
            Description := "Payment not found"
            Parameter := "payment_id" })) ∧
      IsYandexError (some (.yandex
          { Type_ := "error"
            ID := "ab5a11cd-13cc-4e33-af8b-75a74e18dd09"
            Code := "not_found"
            Description := "Payment not found"
            Parameter := "payment_id" })) =
        (some
          { Type_ := "error"
            ID := "ab5a11cd-13cc-4e33-af8b-75a74e18dd09"
            Code := "not_found"
            Description := "Payment not found"
            Parameter := "payment_id" }, true)) :=
  ⟨(C5_generic_and_gateway_errors exampleKassa
      (fun _ => .response 503 (.invalid "invalid character <"))
      (.PaymentInfo "pay_1")).2.2.2.1 503 _ _ rfl rfl,
    (C5_generic_and_gateway_errors exampleKassa (answering 404 notFoundBody)
      (.PaymentInfo "pay_1")).2.2.2.2 404 _ _ rfl (by decide) (by decide) rfl⟩

/-! ## The notification handler -/

/-- C6: the handler returned by `PaymentNotification`, on a request body that decodes to a
payment p. If p.Status is `waiting_for_capture`, the world the handler leaves is the world
one call of the capture callback on the client and p leaves, and with callbacks that log
their calls the log gains exactly the one entry `capture k p`. If p.Status is `succeeded`,
the same holds with the succeed callback. -/
theorem C6_notification_dispatch {ω : Type} (k : Kassa)
    (captureFunction succeedFunction : Kassa → Payment → ω → Option GoError × ω)
    (rc rs : Kassa → Payment → Option GoError) (w : ResponseWriter) (q : Body) (world : ω)
    (log : List Call) (p : Payment) (h : Payment.Decode q = .ok p) :
    (p.Status = "waiting_for_capture" →
        (k.PaymentNotification captureFunction succeedFunction w q world).world =
            (captureFunction k p world).2 ∧
          (k.PaymentNotification (recording .capture rc) (recording .succeed rs) w q log).world =
            log ++ [.capture k p]) ∧
      (p.Status = "succeeded" →
        (k.PaymentNotification captureFunction succeedFunction w q world).world =
            (succeedFunction k p world).2 ∧
          (k.PaymentNotification (recording .capture rc) (recording .succeed rs) w q log).world =
            log ++ [.succeed k p]) := by
  constructor
  · intro hs
    constructor
    · simp only [Kassa.PaymentNotification, h, hs, if_true]
      rcases hc : captureFunction k p world with ⟨_ | err, world1⟩ <;> rfl
    · simp only [Kassa.PaymentNotification, h, hs, if_true, recording]
      cases rc k p <;> rfl
  · intro hs
    have hne : ¬ p.Status = "waiting_for_capture" := by rw [hs]; decide
    constructor
    · simp only [Kassa.PaymentNotification, h, hs, if_true]
      rcases hc : succeedFunction k p world with ⟨_ | err, world1⟩ <;> simp
    · simp only [Kassa.PaymentNotification, h, hs, if_true, recording]
      cases rs k p <;> simp

/-- C6 at scenario D: a notification with status `succeeded` and id `pay_1` makes one call, of
the succeed callback, with the payment whose ID is `pay_1`. -/
theorem C6_notification_dispatch_witness :
    (exampleKassa.PaymentNotification (recording .capture (fun _ _ => none))
        (recording .succeed (fun _ _ => none)) {} (.value succeededBody) []).world =
      [] ++ [.succeed exampleKassa succeededPayment] :=
  ((C6_notification_dispatch exampleKassa (recording .capture (fun _ _ => none))
    (recording .succeed (fun _ _ => none)) (fun _ _ => none) (fun _ _ => none) {}
    (.value succeededBody) [] [] succeededPayment rfl).2 rfl).2

/-- C7: the handler returned by `PaymentNotification`, on a request body that decodes to a
payment whose Status is neither `waiting_for_capture` nor `succeeded`, returns normally
and leaves the response writer and the world as they were: neither callback is called, no
status and no body is written. -/
theorem C7_other_status_ignored {ω : Type} (k : Kassa)
    (captureFunction succeedFunction : Kassa → Payment → ω → Option GoError × ω)
    (w : ResponseWriter) (q : Body) (world : ω) (p : Payment) (h : Payment.Decode q = .ok p)
    (h1 : p.Status ≠ "waiting_for_capture") (h2 : p.Status ≠ "succeeded") :
    k.PaymentNotification captureFunction succeedFunction w q world = ⟨w, world, none⟩ := by
  simp only [Kassa.PaymentNotification, h, if_neg h1, if_neg h2]

/-- C7 at a notification with status `Succeeded` (capital S) and callbacks that log their
calls: the log stays empty and the fresh response writer stays untouched. -/
theorem C7_other_status_ignored_witness :
    exampleKassa.PaymentNotification (recording .capture (fun _ _ => none))
        (recording .succeed (fun _ _ => none)) {}
        (.value (.obj [("id", .str "pay_1"), ("status", .str "Succeeded")])) [] =
      ⟨{ status := none, written := [] }, [], none⟩ :=
  C7_other_status_ignored exampleKassa _ _ {}
    (.value (.obj [("id", .str "pay_1"), ("status", .str "Succeeded")])) []
    { ID := "pay_1", Status := "Succeeded" } rfl (by decide) (by decide)

/-- C8, as the code behaves: the handler returned by `PaymentNotification`, on a request body
that decodes to a payment p whose status selects a callback. When the selected callback
returns an error, the handler calls `WriteHeader(500)` and then panics with that error;
the server of net/http answers a panicking handler by closing the connection, so no
response is sent at all, with status 500 or any other, and when nothing had been written
to the writer the connection is closed before any byte of a response. When the selected callback
returns nil, the handler returns normally, leaves the response writer as it was, and the
server sends the response of an untouched writer (status 200 and an empty body on a fresh
writer). The handler sets the status it means to send and then defeats it by panicking. -/
theorem C8_error_status_not_sent {ω : Type} (k : Kassa)
    (captureFunction succeedFunction : Kassa → Payment → ω → Option GoError × ω)
    (w : ResponseWriter) (q : Body) (world : ω) (p : Payment) (h : Payment.Decode q = .ok p) :
    (p.Status = "waiting_for_capture" →
        (∀ err, (captureFunction k p world).1 = some err →
          (k.PaymentNotification captureFunction succeedFunction w q world).panicked = some err ∧
            (k.PaymentNotification captureFunction succeedFunction w q world).w =
              w.WriteHeader 500 ∧
            (∀ status body,
              serverSends (k.PaymentNotification captureFunction succeedFunction w q world) ≠
                .response status body) ∧
            (w.written = [] →
              serverSends (k.PaymentNotification captureFunction succeedFunction w q world) =
                .closedWithoutResponse)) ∧
        ((captureFunction k p world).1 = none →
          (k.PaymentNotification captureFunction succeedFunction w q world).panicked = none ∧
            (k.PaymentNotification captureFunction succeedFunction w q world).w = w ∧
            serverSends (k.PaymentNotification captureFunction succeedFunction w q world) =
              .response (w.status.getD 200) w.written)) ∧
      (p.Status = "succeeded" →
        (∀ err, (succeedFunction k p world).1 = some err →
          (k.PaymentNotification captureFunction succeedFunction w q world).panicked = some err ∧
            (k.PaymentNotification captureFunction succeedFunction w q world).w =
              w.WriteHeader 500 ∧
            (∀ status body,
              serverSends (k.PaymentNotification captureFunction succeedFunction w q world) ≠
                .response status body) ∧
            (w.written = [] →
              serverSends (k.PaymentNotification captureFunction succeedFunction w q world) =
                .closedWithoutResponse)) ∧
        ((succeedFunction k p world).1 = none →
          (k.PaymentNotification captureFunction succeedFunction w q world).panicked = none ∧
            (k.PaymentNotification captureFunction succeedFunction w q world).w = w ∧
            serverSends (k.PaymentNotification captureFunction succeedFunction w q world) =
              .response (w.status.getD 200) w.written)) ∧
      (w.status = none → (w.WriteHeader 500).status = some 500 ∧
        (w.WriteHeader 500).written = w.written) := by
  have hwritten : (w.WriteHeader 500).written = w.written := by
    unfold ResponseWriter.WriteHeader
    cases w.status <;> rfl
  refine ⟨?_, ?_, ?_⟩
  · intro hs
    simp only [Kassa.PaymentNotification, h, hs, if_true]
    rcases hc : captureFunction k p world with ⟨_ | err, world1⟩
    · simp [serverSends]
    · simp only [Option.some.injEq, forall_eq', reduceCtorEq, false_imp_iff, and_true]
      refine ⟨trivial, trivial, ?_, ?_⟩
      · intro status body
        simp only [serverSends, hwritten]
        split <;> simp
      · intro hw
        simp [serverSends, hwritten, hw]
  · intro hs
    have hne : ¬ "succeeded" = "waiting_for_capture" := by decide
    simp only [Kassa.PaymentNotification, h, hs, hne, if_true, if_false]
    rcases hc : succeedFunction k p world with ⟨_ | err, world1⟩
    · simp [serverSends]
    · simp only [Option.some.injEq, forall_eq', reduceCtorEq, false_imp_iff, and_true]
      refine ⟨trivial, trivial, ?_, ?_⟩
      · intro status body
        simp only [serverSends, hwritten]
        split <;> simp
      · intro hw
        simp [serverSends, hwritten, hw]
  · intro hw
    simp [ResponseWriter.WriteHeader, hw]

/-- C8 at a notification with status `waiting_for_capture` whose capture callback fails with
a gateway error: the handler records status 500 and panics with that error, and the server
closes the connection without sending a response. -/
theorem C8_error_status_not_sent_witness :
    (exampleKassa.PaymentNotification
          (recording .capture (fun _ _ => some (.yandex { Code := "forbidden" })))
          (recording .succeed (fun _ _ => none)) {}
          (.value (.obj [("id", .str "pay_1"), ("status", .str "waiting_for_capture")]))
          []).w.status = some 500 ∧
      serverSends (exampleKassa.PaymentNotification
          (recording .capture (fun _ _ => some (.yandex { Code := "forbidden" })))
          (recording .succeed (fun _ _ => none)) {}
          (.value (.obj [("id", .str "pay_1"), ("status", .str "waiting_for_capture")]))
          []) = .closedWithoutResponse :=
  ⟨rfl, (((C8_error_status_not_sent exampleKassa
    (recording .capture (fun _ _ => some (.yandex { Code := "forbidden" })))
    (recording .succeed (fun _ _ => none)) {}
    (.value (.obj [("id", .str "pay_1"), ("status", .str "waiting_for_capture")])) []
    { ID := "pay_1", Status := "waiting_for_capture" } rfl).1 rfl).1 _ rfl).2.2.2 rfl⟩

/-! ## Headers -/

/-- Replacing the values of the entries under one key does not change which entries are
under a key. -/
lemma Header.key_after_replace (ck ck2 v : String) :
    ((fun e : String × List String => decide (e.1 = ck)) ∘
        fun e : String × List String => if e.1 = ck2 then (e.1, [v]) else e) =
      fun e : String × List String => decide (e.1 = ck) := by
  funext e
  by_cases h : e.1 = ck2 <;> simp [h]

/-- After `Set`, the entry found under the canonical key is the value set. -/
lemma Header.find_after_set_same (h : Header) (ck v : String) :
    (if h.any (fun e => e.1 = ck) then
        h.map (fun e => if e.1 = ck then (e.1, [v]) else e)
      else h ++ [(ck, [v])]).find? (fun e => e.1 = ck) = some (ck, [v]) := by
  by_cases hany : h.any (fun e => e.1 = ck) = true
  · rw [if_pos hany, List.find?_map, Header.key_after_replace]
    cases hf : h.find? (fun e => decide (e.1 = ck)) with
    | none =>
      rw [List.find?_eq_none] at hf
      rw [List.any_eq_true] at hany
      obtain ⟨x, hx, hp⟩ := hany
      exact absurd hp (hf x hx)
    | some e =>
      have he : e.1 = ck := by simpa using List.find?_some hf
      simp [he]
  · rw [if_neg hany, List.find?_append]
    have hnone : h.find? (fun e => decide (e.1 = ck)) = none := by
      rw [List.find?_eq_none]
      intro x hx hp
      exact hany (List.any_eq_true.mpr ⟨x, hx, hp⟩)
    simp [hnone]

/-- After `Set`, the entry found under another canonical key is the one found before. -/
lemma Header.find_after_set_other (h : Header) (ck ck2 v : String) (hne : ck ≠ ck2) :
    (if h.any (fun e => e.1 = ck2) then
        h.map (fun e => if e.1 = ck2 then (e.1, [v]) else e)
      else h ++ [(ck2, [v])]).find? (fun e => e.1 = ck) = h.find? (fun e => e.1 = ck) := by
  by_cases hany : h.any (fun e => e.1 = ck2) = true
  · rw [if_pos hany, List.find?_map, Header.key_after_replace]
    cases hf : h.find? (fun e => decide (e.1 = ck)) with
    | none => rfl
    | some e =>
      have he : e.1 = ck := by simpa using List.find?_some hf
      have he2 : ¬ e.1 = ck2 := fun hk => hne (he.symm.trans hk)
      simp [he2]
  · rw [if_neg hany, List.find?_append]
    simp [Ne.symm hne]

/-- The values under a key just set are the value set. -/
lemma Header.Values_Set_same (h : Header) (key key2 v : String)
    (hk : CanonicalMIMEHeaderKey key = CanonicalMIMEHeaderKey key2) :
    (h.Set key2 v).Values key = [v] := by
  unfold Header.Values Header.Set
  rw [hk, Header.find_after_set_same]

/-- Setting a key leaves the values under a key with another canonical form. -/
lemma Header.Values_Set_other (h : Header) (key key2 v : String)
    (hk : CanonicalMIMEHeaderKey key ≠ CanonicalMIMEHeaderKey key2) :
    (h.Set key2 v).Values key = h.Values key := by
  unfold Header.Values Header.Set
  rw [Header.find_after_set_other h _ _ v hk]

lemma canonical_Idempotence_Key : CanonicalMIMEHeaderKey "Idempotence-Key" = "Idempotence-Key" := by
  decide

lemma canonical_Content_Type : CanonicalMIMEHeaderKey "Content-Type" = "Content-Type" := by
  decide

lemma canonical_Authorization : CanonicalMIMEHeaderKey "Authorization" = "Authorization" := by
  decide

/-- The request made by `NewRequest` has an empty header. -/
lemma NewRequest_Header (method url : String) (body : Option Json) (req : Request)
    (h : NewRequest method url body = .ok req) : req.Header = [] := by
  unfold NewRequest at h
  split at h
  · simp only [Except.ok.injEq] at h
    subst h
    rfl
  · simp at h

/-- The `Idempotence-Key` header after the three header calls of a mutating operation that
starts with `SetBasicAuth`. -/
lemma idempotence_after_basic_auth (req : Request) (idem secret : String) :
    (((req.SetBasicAuth idem secret).SetHeader "Idempotence-Key" idem).SetHeader "Content-Type"
      "application/json").Header.Values "Idempotence-Key" = [idem] := by
  simp only [Request.SetHeader, Request.SetBasicAuth]
  rw [Header.Values_Set_other _ _ _ _ (by decide), Header.Values_Set_same _ _ _ _ rfl]

/-- The `Idempotence-Key` header after the three header calls of a mutating operation that
starts with `Header.Set(k.IdempotenceKey, k.SecretKey)`. -/
lemma idempotence_after_header_set (req : Request) (idem secret : String) :
    (((req.SetHeader idem secret).SetHeader "Idempotence-Key" idem).SetHeader "Content-Type"
      "application/json").Header.Values "Idempotence-Key" = [idem] := by
  simp only [Request.SetHeader]
  rw [Header.Values_Set_other _ _ _ _ (by decide), Header.Values_Set_same _ _ _ _ rfl]

/-- The base64 text is at least as long as the bytes encoded. -/
lemma base64Encode_length (l : List Nat) : l.length ≤ (base64Encode l).length := by
  induction l using base64Encode.induct with
  | case1 => simp [base64Encode]
  | case2 a => simp [base64Encode]
  | case3 a b => simp [base64Encode]
  | case4 a b c rest ih =>
    simp only [base64Encode, List.length_cons]
    omega

/-- A character has at least one UTF-8 byte. -/
lemma utf8Char_length (c : Char) : 1 ≤ (utf8Char c).length := by
  unfold utf8Char
  simp only
  split_ifs <;> simp

/-- A list of characters has at least as many UTF-8 bytes as characters. -/
lemma utf8_flatMap_length (l : List Char) : l.length ≤ (l.flatMap utf8Char).length := by
  induction l with
  | nil => simp
  | cons c cs ih =>
    have := utf8Char_length c
    simp only [List.flatMap_cons, List.length_append, List.length_cons]
    omega

/-- A text has at least as many UTF-8 bytes as characters. -/
lemma utf8Bytes_length (s : String) : s.length ≤ (utf8Bytes s).length :=
  utf8_flatMap_length s.toList

/-- The value of a basic-auth header is longer than the password. -/
lemma basicAuth_longer (username password : String) :
    password.length < ("Basic " ++ basicAuth username password).length := by
  have h1 := base64Encode_length (utf8Bytes (username ++ ":" ++ password))
  have h2 := utf8Bytes_length (username ++ ":" ++ password)
  have h3 : (basicAuth username password).length =
      (base64Encode (utf8Bytes (username ++ ":" ++ password))).length := rfl
  have h4 : (username ++ ":" ++ password).length = username.length + 1 + password.length := by
    rw [String.length_append, String.length_append]
    rfl
  rw [String.length_append, h3]
  omega

/-- The `Authorization` header after the header calls of an operation that starts with
`SetBasicAuth`. -/
lemma authorization_after_basic_auth (req : Request) (idem secret : String) :
    (((req.SetBasicAuth idem secret).SetHeader "Idempotence-Key" idem).SetHeader "Content-Type"
      "application/json").Header.Values "Authorization" = ["Basic " ++ basicAuth idem secret] := by
  simp only [Request.SetHeader, Request.SetBasicAuth]
  rw [Header.Values_Set_other _ _ _ _ (by decide), Header.Values_Set_other _ _ _ _ (by decide),
    Header.Values_Set_same _ _ _ _ rfl]

/-- The `Authorization` header after the header calls of an operation that starts with
`Header.Set(k.IdempotenceKey, k.SecretKey)` on an empty header: no value, or the bare
secret key when the idempotence key is a spelling of `Authorization`. -/
lemma authorization_after_header_set (req : Request) (hreq : req.Header = [])
    (idem secret : String) :
    (((req.SetHeader idem secret).SetHeader "Idempotence-Key" idem).SetHeader "Content-Type"
      "application/json").Header.Values "Authorization" ≠
      ["Basic " ++ basicAuth idem secret] := by
  simp only [Request.SetHeader, hreq]
  rw [Header.Values_Set_other _ _ _ _ (by decide), Header.Values_Set_other _ _ _ _ (by decide)]
  by_cases hk : CanonicalMIMEHeaderKey "Authorization" = CanonicalMIMEHeaderKey idem
  · rw [Header.Values_Set_same _ _ _ _ hk]
    intro heq
    simp only [List.cons.injEq, and_true] at heq
    have hlen := basicAuth_longer idem secret
    rw [← heq] at hlen
    exact lt_irrefl _ hlen
  · rw [Header.Values_Set_other _ _ _ _ hk]
    simp [Header.Values]

/-- C9, as the code behaves: for every client k, the requests of CreatePayment, PaymentInfo,
CreateRefund and RefundInfo carry the basic-auth header with k.IdempotenceKey as user name
and k.SecretKey as password, and the requests of PaymentConfirm and PaymentCancel do not:
these two call `req.Header.Set(k.IdempotenceKey, k.SecretKey)` where the others call
`req.SetBasicAuth(k.IdempotenceKey, k.SecretKey)`. -/
theorem C9_basic_auth_by_operation (k : Kassa) :
    (∀ inputPayment req, Kassa.CreatePayment.request k inputPayment = .ok req →
        req.Header.Values "Authorization" =
          ["Basic " ++ basicAuth k.IdempotenceKey k.SecretKey]) ∧
      (∀ paymentId req, Kassa.PaymentInfo.request k paymentId = .ok req →
        req.Header.Values "Authorization" =
          ["Basic " ++ basicAuth k.IdempotenceKey k.SecretKey]) ∧
      (∀ inputRefund req, Kassa.CreateRefund.request k inputRefund = .ok req →
        req.Header.Values "Authorization" =
          ["Basic " ++ basicAuth k.IdempotenceKey k.SecretKey]) ∧
      (∀ refundId req, Kassa.RefundInfo.request k refundId = .ok req →
        req.Header.Values "Authorization" =
          ["Basic " ++ basicAuth k.IdempotenceKey k.SecretKey]) ∧
      (∀ paymentId inputPayment req,
        Kassa.PaymentConfirm.request k paymentId inputPayment = .ok req →
        req.Header.Values "Authorization" ≠
          ["Basic " ++ basicAuth k.IdempotenceKey k.SecretKey]) ∧
      (∀ paymentId req, Kassa.PaymentCancel.request k paymentId = .ok req →
        req.Header.Values "Authorization" ≠
          ["Basic " ++ basicAuth k.IdempotenceKey k.SecretKey]) := by
  refine ⟨?_, ?_, ?_, ?_, ?_, ?_⟩
  · intro inputPayment req h
    unfold Kassa.CreatePayment.request at h
    split at h
    · simp at h
    · split at h
      · simp at h
      · simp only [Except.ok.injEq] at h
        subst h
        exact authorization_after_basic_auth _ _ _
  · intro paymentId req h
    unfold Kassa.PaymentInfo.request at h
    split at h
    · simp at h
    · simp only [Except.ok.injEq] at h
      subst h
      simp only [Request.SetBasicAuth]
      exact Header.Values_Set_same _ _ _ _ rfl
  · intro inputRefund req h
    unfold Kassa.CreateRefund.request at h
    split at h
    · simp at h
    · split at h
      · simp at h
      · simp only [Except.ok.injEq] at h
        subst h
        exact authorization_after_basic_auth _ _ _
  · intro refundId req h
    unfold Kassa.RefundInfo.request at h
    split at h
    · simp at h
    · simp only [Except.ok.injEq] at h
      subst h
      simp only [Request.SetBasicAuth]
      exact Header.Values_Set_same _ _ _ _ rfl
  · intro paymentId inputPayment req h
    unfold Kassa.PaymentConfirm.request at h
    split at h
    · simp at h
    · split at h
      · simp at h
      · next req0 hnew =>
        simp only [Except.ok.injEq] at h
        subst h
        exact authorization_after_header_set req0 (NewRequest_Header _ _ _ _ hnew) _ _
  · intro paymentId req h
    unfold Kassa.PaymentCancel.request at h
    split at h
    · simp at h
    · next req0 hnew =>
      simp only [Except.ok.injEq] at h
      subst h
      exact authorization_after_header_set req0 (NewRequest_Header _ _ _ _ hnew) _ _

/-- C9 at the client of the demo: the request of `PaymentCancel` has no `Authorization`
header (it has a header `Testidempotencekey: testSecrectKey` instead), while the request
of `PaymentInfo` has the basic-auth header. -/
theorem C9_basic_auth_by_operation_witness :
    (Kassa.PaymentCancel.request exampleKassa "pay_1").toOption.map
        (fun req => (req.Header.Values "Authorization",
          req.Header.Values "Testidempotencekey")) = some ([], ["testSecrectKey"]) ∧
      (Kassa.PaymentInfo.request exampleKassa "pay_1").toOption.map
        (fun req => req.Header.Values "Authorization") =
        some ["Basic dGVzdElkZW1wb3RlbmNlS2V5OnRlc3RTZWNyZWN0S2V5"] ∧
      ([] : List String) ≠ ["Basic " ++ basicAuth "testIdempotenceKey" "testSecrectKey"] :=
  ⟨rfl, rfl, (C9_basic_auth_by_operation exampleKassa).2.2.2.2.2 "pay_1"
    { Method := "POST"
      URL := "https://payment.yandex.net/api/v3/payments/pay_1/cancel"
      Header := [("Testidempotencekey", ["testSecrectKey"]),
        ("Idempotence-Key", ["testIdempotenceKey"]), ("Content-Type", ["application/json"])]
      Body := none } rfl⟩

/-- C10: for every client k, the request each mutating operation (CreatePayment,
PaymentConfirm, PaymentCancel, CreateRefund) hands to `client.Do` carries, under the header
name `Idempotence-Key`, exactly the one value k.IdempotenceKey. -/
theorem C10_idempotence_key_header (k : Kassa) :
    (∀ inputPayment req, Kassa.CreatePayment.request k inputPayment = .ok req →
        req.Header.Values "Idempotence-Key" = [k.IdempotenceKey]) ∧
      (∀ paymentId inputPayment req,
        Kassa.PaymentConfirm.request k paymentId inputPayment = .ok req →
        req.Header.Values "Idempotence-Key" = [k.IdempotenceKey]) ∧
      (∀ paymentId req, Kassa.PaymentCancel.request k paymentId = .ok req →
        req.Header.Values "Idempotence-Key" = [k.IdempotenceKey]) ∧
      (∀ inputRefund req, Kassa.CreateRefund.request k inputRefund = .ok req →
        req.Header.Values "Idempotence-Key" = [k.IdempotenceKey]) := by
  refine ⟨?_, ?_, ?_, ?_⟩
  · intro inputPayment req h
    unfold Kassa.CreatePayment.request at h
    split at h
    · simp at h
    · split at h
      · simp at h
      · simp only [Except.ok.injEq] at h
        subst h
        exact idempotence_after_basic_auth _ _ _
  · intro paymentId inputPayment req h
    unfold Kassa.PaymentConfirm.request at h
    split at h
    · simp at h
    · split at h
      · simp at h
      · simp only [Except.ok.injEq] at h
        subst h
        exact idempotence_after_header_set _ _ _
  · intro paymentId req h
    unfold Kassa.PaymentCancel.request at h
    split at h
    · simp at h
    · simp only [Except.ok.injEq] at h
      subst h
      exact idempotence_after_header_set _ _ _
  · intro inputRefund req h
    unfold Kassa.CreateRefund.request at h
    split at h
    · simp at h
    · split at h
      · simp at h
      · simp only [Except.ok.injEq] at h
        subst h
        exact idempotence_after_basic_auth _ _ _

/-- C10 at the client of the demo: the request of `PaymentCancel` carries
`Idempotence-Key: testIdempotenceKey`. -/
theorem C10_idempotence_key_header_witness :
    Kassa.PaymentCancel.request exampleKassa "pay_1" = .ok
        { Method := "POST"
          URL := "https://payment.yandex.net/api/v3/payments/pay_1/cancel"
          Header := [("Testidempotencekey", ["testSecrectKey"]),
            ("Idempotence-Key", ["testIdempotenceKey"]), ("Content-Type", ["application/json"])]
          Body := none } ∧
      Header.Values [("Testidempotencekey", ["testSecrectKey"]),
          ("Idempotence-Key", ["testIdempotenceKey"]), ("Content-Type", ["application/json"])]
        "Idempotence-Key" = ["testIdempotenceKey"] :=
  ⟨rfl, (C10_idempotence_key_header exampleKassa).2.2.1 "pay_1" _ rfl⟩

/-! ## The idempotence key -/

/-- The request of a mutating operation carries the client's idempotence key, and only it,
under the header name `Idempotence-Key`. -/
lemma Operation.idempotence_header (k : Kassa) (op : Operation) (req : Request)
    (hm : op.mutating = true) (h : op.request k = some (.ok req)) :
    req.Header.Values "Idempotence-Key" = [k.IdempotenceKey] := by
  cases op with
  | CreatePayment inputPayment =>
    simp only [Operation.request, Option.some.injEq, Kassa.CreatePayment.request] at h
    split at h
    · simp at h
    · split at h
      · simp at h
      · simp only [Except.ok.injEq] at h
        subst h
        exact idempotence_after_basic_auth _ _ _
  | PaymentInfo paymentId => simp [Operation.mutating] at hm
  | PaymentConfirm paymentId inputPayment =>
    cases inputPayment with
    | none => simp [Operation.request] at h
    | some input =>
      simp only [Operation.request, Option.some.injEq, Kassa.PaymentConfirm.request] at h
      split at h
      · simp at h
      · split at h
        · simp at h
        · simp only [Except.ok.injEq] at h
          subst h
          exact idempotence_after_header_set _ _ _
  | PaymentCancel paymentId =>
    simp only [Operation.request, Option.some.injEq, Kassa.PaymentCancel.request] at h
    split at h
    · simp at h
    · simp only [Except.ok.injEq] at h
      subst h
      exact idempotence_after_header_set _ _ _
  | CreateRefund inputRefund =>
    simp only [Operation.request, Option.some.injEq, Kassa.CreateRefund.request] at h
    split at h
    · simp at h
    · split at h
      · simp at h
      · simp only [Except.ok.injEq] at h
        subst h
        exact idempotence_after_basic_auth _ _ _
  | RefundInfo refundId => simp [Operation.mutating] at hm

/-- C11, counterexample: with the client of the demo, `CreatePayment` for two different
payment requests and `CreateRefund` all send the same `Idempotence-Key` value,
`testIdempotenceKey`; two different logical operations do not send different values. -/
theorem C11_counterexample :
    (Kassa.CreatePayment.request exampleKassa (some exampleRequest)).toOption.map
        (fun req => req.Header.Values "Idempotence-Key") = some ["testIdempotenceKey"] ∧
      (Kassa.CreatePayment.request exampleKassa (some otherRequest)).toOption.map
        (fun req => req.Header.Values "Idempotence-Key") = some ["testIdempotenceKey"] ∧
      (Kassa.CreateRefund.request exampleKassa exampleRefund).toOption.map
        (fun req => req.Header.Values "Idempotence-Key") = some ["testIdempotenceKey"] ∧
      (Kassa.CreatePayment.request exampleKassa (some exampleRequest)).toOption.map
          (fun req => req.Body) ≠
        (Kassa.CreatePayment.request exampleKassa (some otherRequest)).toOption.map
          (fun req => req.Body) ∧
      ¬ ((Kassa.CreatePayment.request exampleKassa (some exampleRequest)).toOption.map
          (fun req => req.Header.Values "Idempotence-Key") ≠
        (Kassa.CreatePayment.request exampleKassa (some otherRequest)).toOption.map
          (fun req => req.Header.Values "Idempotence-Key")) := by
  refine ⟨rfl, rfl, rfl, ?_, ?_⟩
  · intro h
    have h2 := congrArg (fun o => o.map (fun b => b.map (fun j =>
      match j with
      | .obj (("amount", .obj (("value", .str v) :: _)) :: _) => v
      | _ => ""))) h
    revert h2
    decide
  · intro h
    exact h rfl

/-- C11, amended: for a client k, every request of a mutating operation (create, confirm,
cancel, refund) carries k.IdempotenceKey as its only `Idempotence-Key` value. So two calls
that retry the same operation send the same value, and two calls for different logical
operations send the same value too; the values sent by two clients differ exactly when
their IdempotenceKey fields differ. -/
theorem C11_idempotence_key_of_client (k k2 : Kassa) (op1 op2 : Operation) (req1 req2 : Request)
    (hm1 : op1.mutating = true) (hm2 : op2.mutating = true)
    (h1 : op1.request k = some (.ok req1)) :
    (op2.request k = some (.ok req2) →
        req1.Header.Values "Idempotence-Key" = [k.IdempotenceKey] ∧
          req2.Header.Values "Idempotence-Key" = req1.Header.Values "Idempotence-Key") ∧
      (op2.request k2 = some (.ok req2) →
        (req2.Header.Values "Idempotence-Key" ≠ req1.Header.Values "Idempotence-Key" ↔
          k2.IdempotenceKey ≠ k.IdempotenceKey)) := by
  have e1 := Operation.idempotence_header k op1 req1 hm1 h1
  constructor
  · intro h2
    exact ⟨e1, by rw [e1, Operation.idempotence_header k op2 req2 hm2 h2]⟩
  · intro h2
    rw [e1, Operation.idempotence_header k2 op2 req2 hm2 h2]
    simp

/-- C11 at the client of the demo: the request of `CreateRefund` carries the same
`Idempotence-Key` value as the request of `CreatePayment`. -/
theorem C11_idempotence_key_of_client_witness :
    (Kassa.CreateRefund.request exampleKassa exampleRefund).toOption.map
        (fun req => req.Header.Values "Idempotence-Key") =
      (Kassa.CreatePayment.request exampleKassa (some exampleRequest)).toOption.map
        (fun req => req.Header.Values "Idempotence-Key") :=
  congrArg some
    ((C11_idempotence_key_of_client exampleKassa exampleKassa
      (.CreatePayment (some exampleRequest)) (.CreateRefund exampleRefund)
      ((Kassa.CreatePayment.request exampleKassa (some exampleRequest)).toOption.getD
        { Method := "", URL := "" })
      ((Kassa.CreateRefund.request exampleKassa exampleRefund).toOption.getD
        { Method := "", URL := "" })
      rfl rfl rfl).1 rfl).2

/-! ## IsYandexError -/

/-- C15: `IsYandexError(err)` returns that `*Error` and `true` when the dynamic type of err
is `*Error`; it returns `(nil, false)` for every other error value and for the nil error;
and whenever it returns `true`, the value it returns is its argument. A `*Error` is
represented by the Error it points to, so "the same" is equality of that value. -/
theorem C15_IsYandexError_cases :
    (∀ e : Error, IsYandexError (some (.yandex e)) = (some e, true)) ∧
      (∀ err : GoError, err.isYandex = false → IsYandexError (some err) = (none, false)) ∧
      IsYandexError none = (none, false) ∧
      (∀ (err : Option GoError) (r : Option Error), IsYandexError err = (r, true) →
        ∃ e, r = some e ∧ err = some (.yandex e)) := by
  refine ⟨fun e => rfl, IsYandexError_of_not_yandex, rfl, ?_⟩
  intro err r h
  cases err with
  | none => simp [IsYandexError] at h
  | some g =>
    cases g with
    | yandex e =>
      simp only [IsYandexError, Prod.mk.injEq, and_true] at h
      exact ⟨e, h.symm, rfl⟩
    | unmarshalType v t => simp [IsYandexError] at h
    | jsonSyntax reason => simp [IsYandexError] at h
    | marshal reason => simp [IsYandexError] at h
    | transport reason => simp [IsYandexError] at h
    | read reason => simp [IsYandexError] at h

/-- C15 at the errors the demo meets: a transport error is rejected, and an answer `true`
for the `not_found` error comes with that very error. -/
theorem C15_IsYandexError_cases_witness :
    IsYandexError (some (.transport "dial tcp: timeout")) = (none, false) ∧
      ∃ e, some ({ Code := "not_found" } : Error) = some e ∧
        some (GoError.yandex { Code := "not_found" }) = some (.yandex e) :=
  ⟨C15_IsYandexError_cases.2.1 (.transport "dial tcp: timeout") rfl,
    C15_IsYandexError_cases.2.2.2 (some (.yandex { Code := "not_found" }))
      (some { Code := "not_found" }) rfl⟩

/-! ## The body of the capture request -/

/-- The JSON name of `PaymentConfirmRequest.Amount` is the Go field name: the tag in the
source has a blank after the colon. -/
lemma jsonKey_confirm_Amount : jsonKey "Amount" "json: \"amount\"" = some "Amount" := by decide

/-- The JSON name of `PaymentConfirmRequest.Receipt` is the Go field name. -/
lemma jsonKey_confirm_Receipt : jsonKey "Receipt" "json: \"receipt\"" = some "Receipt" := by
  decide

/-- The JSON name of `PaymentConfirmRequest.Airline` is the Go field name. -/
lemma jsonKey_confirm_Airline : jsonKey "Airline" "json: \"airline\"" = some "Airline" := by
  decide

/-- The request made by `NewRequest` has the method, the URL and the body it was given. -/
lemma NewRequest_fields (method url : String) (body : Option Json) (req : Request)
    (h : NewRequest method url body = .ok req) :
    req.Method = method ∧ req.URL = url ∧ req.Body = body := by
  unfold NewRequest at h
  split at h
  · simp only [Except.ok.injEq] at h
    subst h
    exact ⟨rfl, rfl, rfl⟩
  · simp at h

/-- The body of the request of `PaymentConfirm`. -/
lemma Kassa.PaymentConfirm.request_Body (k : Kassa) (paymentId : String) (r : PaymentRequest)
    (req : Request) (h : Kassa.PaymentConfirm.request k paymentId r = .ok req) :
    req.Body = some (.obj
      [("Amount", marshalStruct Amount.outFields r.Amount),
        ("Receipt", marshalStruct Receipt.outFields r.Receipt),
        ("Airline", marshalStruct Airline.outFields r.Airline)]) := by
  simp only [Kassa.PaymentConfirm.request, PaymentConfirmRequest.Marshal] at h
  split at h
  · simp at h
  · next req0 hnew =>
    simp only [Except.ok.injEq] at h
    subst h
    simp only [Request.SetHeader, (NewRequest_fields _ _ _ _ hnew).2.2]
    simp [marshalStruct, PaymentConfirmRequest.outFields, jsonKey_confirm_Amount,
      jsonKey_confirm_Receipt, jsonKey_confirm_Airline]

/-- C13, as the code behaves: for every payment id and every non-nil PaymentRequest r, the
body `PaymentConfirm` sends is the object with the three members `Amount`, `Receipt` and
`Airline` (capitalised, not `amount`, `receipt` and `airline`) holding the serialisations
of r.Amount, r.Receipt and r.Airline; it has no member named `amount`, `receipt` or
`airline`; and two requests that agree on Amount, Receipt and Airline produce the same
body. The three struct tags of `PaymentConfirmRequest` are written `json: "amount"` and so
on, with a blank after the colon, so encoding/json falls back to the Go field names. -/
theorem C13_capture_body_keys (k : Kassa) (paymentId : String) (r r2 : PaymentRequest)
    (req req2 : Request) (h : Kassa.PaymentConfirm.request k paymentId r = .ok req) :
    req.Body = some (.obj
        [("Amount", marshalStruct Amount.outFields r.Amount),
          ("Receipt", marshalStruct Receipt.outFields r.Receipt),
          ("Airline", marshalStruct Airline.outFields r.Airline)]) ∧
      (∀ members, req.Body = some (.obj members) →
        lastMember "amount" members = none ∧ lastMember "receipt" members = none ∧
          lastMember "airline" members = none) ∧
      (Kassa.PaymentConfirm.request k paymentId r2 = .ok req2 → r2.Amount = r.Amount →
        r2.Receipt = r.Receipt → r2.Airline = r.Airline → req2.Body = req.Body) := by
  have hb := Kassa.PaymentConfirm.request_Body k paymentId r req h
  refine ⟨hb, ?_, ?_⟩
  · intro members hm
    rw [hb] at hm
    simp only [Option.some.injEq, Json.obj.injEq] at hm
    subst hm
    simp [lastMember]
  · intro h2 ha hr hl
    rw [hb, Kassa.PaymentConfirm.request_Body k paymentId r2 req2 h2, ha, hr, hl]

/-- C13 at the capture of `pay_1` with the example request: the body sent has the members
`Amount`, `Receipt` and `Airline`. -/
theorem C13_capture_body_keys_witness :
    (Kassa.PaymentConfirm.request exampleKassa "pay_1" exampleRequest).toOption.map
        (fun req => req.Body) =
      some (some (.obj
        [("Amount", .obj [("value", .str "10.00"), ("currency", .str "RUB")]),
          ("Receipt", .obj [("items", .null), ("tax_system_code", .num (.int 0)),
            ("phone", .str ""), ("email", .str "payer@example.com")]),
          ("Airline", .obj [("booking_reference", .str ""), ("ticket_number", .str ""),
            ("passengers", .null), ("legs", .null)])])) :=
  congrArg (fun b => some b)
    (C13_capture_body_keys exampleKassa "pay_1" exampleRequest exampleRequest
      ((Kassa.PaymentConfirm.request exampleKassa "pay_1" exampleRequest).toOption.getD
        { Method := "", URL := "" })
      ((Kassa.PaymentConfirm.request exampleKassa "pay_1" exampleRequest).toOption.getD
        { Method := "", URL := "" }) rfl).1

/-! ## One classification for all operations -/

/-- Two operations of the same family decode the same resource type. -/
lemma Operation.decodeResource_of_isRefund (op op2 : Operation)
    (h : op2.isRefund = op.isRefund) : op2.decodeResource = op.decodeResource := by
  funext body
  cases op <;> cases op2 <;> first
    | rfl
    | simp [Operation.isRefund] at h

/-- A payment operation decodes a Payment. -/
lemma Operation.decodeResource_payment (op : Operation) (h : op.isRefund = false) (body : Body) :
    op.decodeResource body = (Payment.Unmarshal body).map Resource.payment := by
  cases op <;> first
    | rfl
    | simp [Operation.isRefund] at h

/-- A refund operation decodes a Refund. -/
lemma Operation.decodeResource_refund (op : Operation) (h : op.isRefund = true) (body : Body) :
    op.decodeResource body = (Refund.Unmarshal body).map Resource.refund := by
  cases op <;> first
    | rfl
    | simp [Operation.isRefund] at h

/-- Every operation classifies a response as the classifier of the specification does. -/
lemma Operation.run_eq_specClassifier (k : Kassa) (client : Request → Exchange) (op : Operation)
    (status : Int) (body : Body) (h : op.exchange k client = some (.response status body)) :
    op.run k client = some (specClassifier op.decodeResource status body) := by
  unfold specClassifier
  by_cases h200 : status = 200
  · subst h200
    rw [Operation.run_of_ok k client op body h, if_pos rfl]
    cases op.decodeResource body <;> rfl
  · by_cases h202 : status = 202
    · subst h202
      rw [Operation.run_of_accepted k client op body h, if_neg h200, if_pos rfl]
      cases Processing.Unmarshal body <;> rfl
    · rw [Operation.run_of_other k client op status body h200 h202 h, if_neg h200, if_neg h202]
      cases Error.Unmarshal body <;> rfl

/-- C14, counterexample: `PaymentInfo` and `RefundInfo` both receive status 200 with the same
body, an object whose `paid` member is a string. The payment operation returns the
decoding error, the refund operation returns a Refund: the two do not produce the same
one of the three outcomes. -/
theorem C14_counterexample :
    (Operation.PaymentInfo "x").run exampleKassa (answering 200 clashBody) =
        some (none, none, some (.unmarshalType "string" "bool")) ∧
      (Operation.RefundInfo "x").run exampleKassa (answering 200 clashBody) =
        some (some (.refund { ID := "x", Status := "succeeded" }), none, none) ∧
      ((Operation.PaymentInfo "x").run exampleKassa (answering 200 clashBody)).map outcomeOf ≠
        ((Operation.RefundInfo "x").run exampleKassa (answering 200 clashBody)).map outcomeOf := by
  refine ⟨rfl, rfl, ?_⟩
  decide

/-- C14, amended: every one of the six operations classifies a response exactly as the
classifier of the specification, a function of status code and body, applied with the
decoder of the operation's resource type. Hence two operations of the same family (the four
payment operations, or the two refund operations) return identical results on the same
round trip; a payment operation and a refund operation return identical results on every
round trip that is not a response with status 200; and on a response with status 200, where
each decodes its own resource type, the two return a nil Processing and produce the same
outcome exactly when the body decodes both as a Payment and as a Refund or as neither. -/
theorem C14_one_classifier (k : Kassa) (client client2 : Request → Exchange)
    (op op2 : Operation) :
    (∀ status body, op.exchange k client = some (.response status body) →
        op.run k client = some (specClassifier op.decodeResource status body)) ∧
      (∀ x, op.exchange k client = some x → op2.exchange k client2 = some x →
        op2.isRefund = op.isRefund → op2.run k client2 = op.run k client) ∧
      (∀ x, op.exchange k client = some x → op2.exchange k client2 = some x →
        (∀ body, x ≠ .response 200 body) → op2.run k client2 = op.run k client) ∧
      (∀ body, op.exchange k client = some (.response 200 body) →
        op2.exchange k client2 = some (.response 200 body) →
        op.isRefund = false → op2.isRefund = true →
        (∀ r, op.run k client = some r → r.2.1 = none) ∧
          (∀ r, op2.run k client2 = some r → r.2.1 = none) ∧
          ((op2.run k client2).map outcomeOf = (op.run k client).map outcomeOf ↔
            ((Refund.Unmarshal body).toOption.isSome =
              (Payment.Unmarshal body).toOption.isSome))) := by
  refine ⟨fun status body h => Operation.run_eq_specClassifier k client op status body h,
    ?_, ?_, ?_⟩
  · intro x h h2 hfam
    cases x with
    | doFailed reason =>
      rw [Operation.run_of_doFailed k client op reason h,
        Operation.run_of_doFailed k client2 op2 reason h2]
    | readFailed status reason =>
      rw [Operation.run_of_readFailed k client op status reason h,
        Operation.run_of_readFailed k client2 op2 status reason h2]
    | response status body =>
      rw [Operation.run_eq_specClassifier k client op status body h,
        Operation.run_eq_specClassifier k client2 op2 status body h2,
        Operation.decodeResource_of_isRefund op op2 hfam]
  · intro x h h2 hx
    cases x with
    | doFailed reason =>
      rw [Operation.run_of_doFailed k client op reason h,
        Operation.run_of_doFailed k client2 op2 reason h2]
    | readFailed status reason =>
      rw [Operation.run_of_readFailed k client op status reason h,
        Operation.run_of_readFailed k client2 op2 status reason h2]
    | response status body =>
      have h200 : status ≠ 200 := by
        intro hs
        subst hs
        exact hx body rfl
      by_cases h202 : status = 202
      · subst h202
        rw [Operation.run_of_accepted k client op body h,
          Operation.run_of_accepted k client2 op2 body h2]
      · rw [Operation.run_of_other k client op status body h200 h202 h,
          Operation.run_of_other k client2 op2 status body h200 h202 h2]
  · intro body h h2 hp hr
    rw [Operation.run_of_ok k client op body h, Operation.run_of_ok k client2 op2 body h2,
      Operation.decodeResource_payment op hp, Operation.decodeResource_refund op2 hr]
    cases Payment.Unmarshal body <;> cases Refund.Unmarshal body <;>
      simp [Except.map, outcomeOf, Except.toOption]

/-- C14 at a 404 with the `not_found` body: `CreatePayment` and `RefundInfo` return the same
result. -/
theorem C14_one_classifier_witness :
    (Operation.RefundInfo "ref_1").run exampleKassa (answering 404 notFoundBody) =
      (Operation.CreatePayment (some exampleRequest)).run exampleKassa
        (answering 404 notFoundBody) :=
  (C14_one_classifier exampleKassa (answering 404 notFoundBody) (answering 404 notFoundBody)
    (.CreatePayment (some exampleRequest)) (.RefundInfo "ref_1")).2.2.1
    (.response 404 (.value notFoundBody)) rfl rfl (fun body h => by
      simp only [Exchange.response.injEq] at h
      exact absurd h.1 (by decide))

/-! ## Method and URL of the requests -/

/-- A text without a percent sign has no ill-formed percent escape. -/
lemma escapesValid_of_no_percent (l : List Char) (h : ∀ c ∈ l, c ≠ '%') :
    escapesValid l = true := by
  induction l with
  | nil => rfl
  | cons c cs ih =>
    have hc : c ≠ '%' := h c (List.mem_cons_self _ _)
    unfold escapesValid
    rw [if_neg hc]
    exact ih (fun x hx => h x (List.mem_cons_of_mem _ hx))

/-- What a plain character is. -/
lemma plainURLChar_spec (c : Char) (h : plainURLChar c = true) :
    c ≠ '%' ∧ ¬ (c.toNat < 32 ∨ c.toNat = 127) := by
  simp [plainURLChar] at h
  refine ⟨h.2, ?_⟩
  omega

/-- A URL made of plain characters is accepted by `url.Parse`. -/
lemma urlParses_of_plain (s : String) (h : ∀ c ∈ s.toList, plainURLChar c = true) :
    urlParses s = true := by
  unfold urlParses urlBeforeFragment urlFragmentText
  rw [Bool.and_eq_true, Bool.and_eq_true]
  refine ⟨⟨?_, ?_⟩, ?_⟩
  · rw [List.all_eq_true]
    intro c hc
    simpa using (plainURLChar_spec c (h c (List.takeWhile_subset _ hc))).2
  · apply escapesValid_of_no_percent
    intro c hc
    exact (plainURLChar_spec c
      (h c (List.takeWhile_subset _ (List.takeWhile_subset _ hc)))).1
  · apply escapesValid_of_no_percent
    intro c hc
    exact (plainURLChar_spec c (h c (List.dropWhile_subset _ (List.mem_of_mem_drop hc)))).1

/-- The characters of a concatenation. -/
lemma toList_append_mem (s t : String) (c : Char) (h : c ∈ (s ++ t).toList) :
    c ∈ s.toList ∨ c ∈ t.toList := by
  have : (s ++ t).toList = s.toList ++ t.toList := String.data_append s t
  rw [this] at h
  exact List.mem_append.mp h

/-- What `NewRequest` returns, by whether the URL parses. -/
lemma NewRequest_cases (method url : String) (body : Option Json) :
    (urlParses url = true →
        NewRequest method url body = .ok { Method := method, URL := url, Body := body }) ∧
      (urlParses url = false →
        NewRequest method url body = .error (.transport ("parse " ++ url))) := by
  unfold NewRequest
  constructor
  · intro h
    rw [if_pos h]
  · intro h
    rw [if_neg (by simp [h])]

lemma baseURL_payments : baseURL ++ "/payments" = "https://payment.yandex.net/api/v3/payments" := by
  decide

lemma baseURL_payments_slash :
    baseURL ++ "/payments/" = "https://payment.yandex.net/api/v3/payments/" := by
  decide

lemma baseURL_refunds : baseURL ++ "/refunds" = "https://payment.yandex.net/api/v3/refunds" := by
  decide

lemma baseURL_refunds_slash :
    baseURL ++ "/refunds/" = "https://payment.yandex.net/api/v3/refunds/" := by
  decide

lemma urlParses_payments : urlParses "https://payment.yandex.net/api/v3/payments" = true := by
  decide

lemma urlParses_refunds : urlParses "https://payment.yandex.net/api/v3/refunds" = true := by
  decide

/-- What a plain path character is. -/
lemma plainPathChar_spec (c : Char) (h : plainPathChar c = true) :
    plainURLChar c = true ∧ c ≠ '?' ∧ c ≠ '#' := by
  simpa [plainPathChar, and_assoc] using h

/-- Decoding a path without the byte of the percent sign changes nothing. -/
lemma unescapePath_of_no_percent (l : List Nat) (h : ∀ b ∈ l, b ≠ 37) : unescapePath l = l := by
  induction l with
  | nil => rfl
  | cons b bs ih =>
    unfold unescapePath
    rw [if_neg (h b (List.mem_cons_self _ _)), ih (fun x hx => h x (List.mem_cons_of_mem _ hx))]

/-- The UTF-8 bytes of a character other than the percent sign are not its byte. -/
lemma utf8Char_no_percent (c : Char) (hc : c ≠ '%') : ∀ b ∈ utf8Char c, b ≠ 37 := by
  have hn : c.toNat ≠ 37 := by
    intro h
    apply hc
    have := congrArg Char.ofNat h
    simpa using this
  intro b hb
  unfold utf8Char at hb
  simp only at hb
  split_ifs at hb <;> simp at hb <;> omega

/-- The UTF-8 bytes of a text without percent sign have no byte of the percent sign. -/
lemma utf8_no_percent (l : List Char) (h : ∀ c ∈ l, c ≠ '%') :
    ∀ b ∈ l.flatMap utf8Char, b ≠ 37 := by
  intro b hb
  rw [List.mem_flatMap] at hb
  obtain ⟨c, hc, hbc⟩ := hb
  exact utf8Char_no_percent c (h c hc) b hbc

/-- The scheme and the host are written in plain path characters. -/
lemma hostChars_plain : ∀ c ∈ "https://payment.yandex.net".toList, plainPathChar c = true := by
  decide

/-- The parts of a URL made of the scheme, the host and a path of plain path characters:
`url.Parse` accepts it and reads the path as it stands, no query and no fragment. -/
lemma parsedURL_of_plain (raw : String) (path : List Char)
    (hraw : raw.toList = "https://payment.yandex.net".toList ++ path)
    (hplain : ∀ c ∈ path, plainPathChar c = true) :
    urlParses raw = true ∧ urlPathText raw = path ∧
      (parsedURL raw).Path = path.flatMap utf8Char ∧ (parsedURL raw).RawQuery = "" ∧
      (parsedURL raw).ForceQuery = false ∧ (parsedURL raw).Fragment = [] := by
  have hall : ∀ c ∈ raw.toList, plainPathChar c = true := by
    intro c hc
    rw [hraw] at hc
    rcases List.mem_append.mp hc with h1 | h2
    · exact hostChars_plain c h1
    · exact hplain c h2
  have hbefore : urlBeforeFragment raw = raw.toList := by
    unfold urlBeforeFragment
    rw [List.takeWhile_eq_self_iff]
    intro c hc
    simpa using (plainPathChar_spec c (hall c hc)).2.2
  have hfrag : urlFragmentText raw = [] := by
    unfold urlFragmentText
    have : raw.toList.dropWhile (fun c => decide (c ≠ '#')) = [] := by
      rw [List.dropWhile_eq_nil_iff]
      intro c hc
      simpa using (plainPathChar_spec c (hall c hc)).2.2
    rw [this]
    rfl
  have hquery : urlQueryText raw = [] := by
    unfold urlQueryText
    rw [hbefore]
    have : raw.toList.dropWhile (fun c => decide (c ≠ '?')) = [] := by
      rw [List.dropWhile_eq_nil_iff]
      intro c hc
      simpa using (plainPathChar_spec c (hall c hc)).2.1
    rw [this]
    rfl
  have hpath : urlPathText raw = path := by
    unfold urlPathText
    rw [hbefore]
    have : raw.toList.takeWhile (fun c => decide (c ≠ '?')) = raw.toList := by
      rw [List.takeWhile_eq_self_iff]
      intro c hc
      simpa using (plainPathChar_spec c (hall c hc)).2.1
    rw [this, hraw]
    exact List.drop_left _ _
  have hnp : ∀ b ∈ path.flatMap utf8Char, b ≠ 37 :=
    utf8_no_percent path (fun c hc =>
      (plainURLChar_spec c (plainPathChar_spec c (hplain c hc)).1).1)
  refine ⟨?_, hpath, ?_, ?_, ?_, ?_⟩
  · exact urlParses_of_plain raw (fun c hc => (plainPathChar_spec c (hall c hc)).1)
  · simp only [parsedURL, hpath]
    exact unescapePath_of_no_percent _ hnp
  · simp only [parsedURL, hquery]
  · simp only [parsedURL, hbefore]
    have hq : ('?' : Char) ∉ raw.toList := by
      intro hc
      exact (plainPathChar_spec _ (hall _ hc)).2.1 rfl
    rw [List.count_eq_zero_of_not_mem hq]
    simp
  · simp only [parsedURL, hfrag]
    rfl

/-- What a character shown as it is on the request line is: a plain path character of one
byte that `validEncoded` accepts. -/
lemma verbatimPathChar_spec (c : Char) (h : verbatimPathChar c = true) :
    plainPathChar c = true ∧ utf8Char c = [c.toNat] ∧ validPathByte c.toNat = true ∧
      c.toNat ≠ 37 := by
  have hv : validPathByte c.toNat = true ∧ c.toNat ≠ 37 := by
    simpa [verbatimPathChar] using h
  have hr : 33 ≤ c.toNat ∧ c.toNat < 127 ∧ c.toNat ≠ 63 ∧ c.toNat ≠ 35 := by
    have := hv.1
    simp [validPathByte, shouldEscapePath] at this
    omega
  refine ⟨?_, ?_, hv.1, hv.2⟩
  · have h1 : c ≠ '%' := by
      intro hc
      exact hv.2 (by rw [hc]; rfl)
    have h2 : c ≠ '?' := by
      intro hc
      exact hr.2.2.1 (by rw [hc]; rfl)
    have h3 : c ≠ '#' := by
      intro hc
      exact hr.2.2.2 (by rw [hc]; rfl)
    simp [plainPathChar, plainURLChar, h1, h2, h3]
    omega
  · unfold utf8Char
    simp only
    rw [if_pos (by omega)]

/-- The bytes of a text of one-byte characters are its code points. -/
lemma utf8_of_verbatim (l : List Char) (h : ∀ c ∈ l, verbatimPathChar c = true) :
    l.flatMap utf8Char = l.map Char.toNat := by
  induction l with
  | nil => rfl
  | cons c cs ih =>
    rw [List.flatMap_cons, List.map_cons,
      (verbatimPathChar_spec c (h c (List.mem_cons_self _ _))).2.1,
      ih (fun x hx => h x (List.mem_cons_of_mem _ hx))]
    rfl

/-- Code points back to characters. -/
lemma map_ofNat_toNat (l : List Char) : (l.map Char.toNat).map Char.ofNat = l := by
  induction l with
  | nil => rfl
  | cons c cs ih => rw [List.map_cons, List.map_cons, ih, Char.ofNat_toNat]

/-- The request target of a URL made of the scheme, the host and a path, starting with a
slash, of characters shown as they are: it is that path. -/
lemma requestURI_of_verbatim (raw : String) (path : List Char)
    (hraw : raw.toList = "https://payment.yandex.net".toList ++ '/' :: path)
    (hv : ∀ c ∈ path, verbatimPathChar c = true) :
    (parsedURL raw).RequestURI = String.mk ('/' :: path) := by
  have hv2 : ∀ c ∈ '/' :: path, verbatimPathChar c = true := by
    intro c hc
    rcases List.mem_cons.mp hc with h1 | h2
    · rw [h1]
      decide
    · exact hv c h2
  have hplain := parsedURL_of_plain raw ('/' :: path) hraw
    (fun c hc => (verbatimPathChar_spec c (hv2 c hc)).1)
  have hbytes := utf8_of_verbatim ('/' :: path) hv2
  have hvalid : validEncodedPath (('/' :: path).map Char.toNat) = true := by
    unfold validEncodedPath
    rw [List.all_eq_true]
    intro b hb
    obtain ⟨c, hc, rfl⟩ := List.mem_map.mp hb
    exact (verbatimPathChar_spec c (hv2 c hc)).2.2.1
  have hun : unescapePath (('/' :: path).map Char.toNat) = ('/' :: path).map Char.toNat := by
    apply unescapePath_of_no_percent
    intro b hb
    obtain ⟨c, hc, rfl⟩ := List.mem_map.mp hb
    exact (verbatimPathChar_spec c (hv2 c hc)).2.2.2
  have hPath : (parsedURL raw).Path = ('/' :: path).map Char.toNat := by
    rw [hplain.2.2.1, hbytes]
  have hRaw : (parsedURL raw).RawPath = [] ∧
        escapePath (('/' :: path).map Char.toNat) = ('/' :: path).map Char.toNat ∨
      (parsedURL raw).RawPath = ('/' :: path).map Char.toNat := by
    simp only [parsedURL, hplain.2.1, hbytes, hun]
    by_cases he : ('/' :: path).map Char.toNat = escapePath (('/' :: path).map Char.toNat)
    · left
      rw [if_pos he]
      exact ⟨rfl, he.symm⟩
    · right
      rw [if_neg he]
  have hne : ('/' :: path).map Char.toNat ≠ [] := by simp
  have hstar : ('/' :: path).map Char.toNat ≠ [42] := by
    intro h
    have := congrArg List.head? h
    simp at this
  have hesc : (parsedURL raw).EscapedPath = ('/' :: path).map Char.toNat := by
    unfold URL.EscapedPath
    rcases hRaw with ⟨h0, he⟩ | h1
    · rw [h0, hPath, if_neg (by simp), if_neg hstar, he]
    · rw [h1, hPath, if_pos ⟨hne, hvalid, hun⟩]
  unfold URL.RequestURI
  rw [hesc, if_neg hne, map_ofNat_toNat, hplain.2.2.2.1, hplain.2.2.2.2.1]
  simp

/-- The characters of a prefix, an id and a suffix put together have a property the three
parts have. -/
lemma all_of_parts (P : Char → Bool) (pre post id : String)
    (hpre : ∀ c ∈ pre.toList, P c = true) (hpost : ∀ c ∈ post.toList, P c = true)
    (hid : ∀ c ∈ id.toList, P c = true) :
    ∀ c ∈ (pre ++ id ++ post).toList, P c = true := by
  intro c hc
  rcases toList_append_mem _ _ c hc with h1 | h2
  · rcases toList_append_mem _ _ c h1 with h3 | h4
    · exact hpre c h3
    · exact hid c h4
  · exact hpost c h2

/-- The URL of a path on the fixed host, as a list of characters. -/
lemma hostURL_toList (path : String) :
    ("https://payment.yandex.net" ++ path).toList =
      "https://payment.yandex.net".toList ++ path.toList :=
  String.data_append _ _

/-- The request target for a path made of a slash and characters shown as they are. -/
lemma requestURI_of_path (path : String)
    (h : ∀ c ∈ path.toList, verbatimPathChar c = true) :
    (parsedURL ("https://payment.yandex.net" ++ ("/" ++ path))).RequestURI = "/" ++ path := by
  have := requestURI_of_verbatim ("https://payment.yandex.net" ++ ("/" ++ path)) path.toList
    (by rw [hostURL_toList]; rfl) h
  rw [this]
  rfl

lemma url_payments_id (id : String) :
    "https://payment.yandex.net/api/v3/payments/" ++ id =
      "https://payment.yandex.net" ++ ("/api/v3/payments/" ++ id) := by
  rw [← String.append_assoc]
  rfl

lemma url_payments_id_post (id post : String) :
    "https://payment.yandex.net/api/v3/payments/" ++ id ++ post =
      "https://payment.yandex.net" ++ ("/api/v3/payments/" ++ id ++ post) := by
  rw [← String.append_assoc, ← String.append_assoc]
  rfl

lemma url_refunds_id (id : String) :
    "https://payment.yandex.net/api/v3/refunds/" ++ id =
      "https://payment.yandex.net" ++ ("/api/v3/refunds/" ++ id) := by
  rw [← String.append_assoc]
  rfl

/-- With an id of plain path characters, each of the four paths with an id is made of plain
path characters. -/
lemma plain_paths (id : String) (hid : ∀ c ∈ id.toList, plainPathChar c = true) :
    (∀ c ∈ ("/api/v3/payments/" ++ id).toList, plainPathChar c = true) ∧
      (∀ c ∈ ("/api/v3/payments/" ++ id ++ "/capture").toList, plainPathChar c = true) ∧
      (∀ c ∈ ("/api/v3/payments/" ++ id ++ "/cancel").toList, plainPathChar c = true) ∧
      (∀ c ∈ ("/api/v3/refunds/" ++ id).toList, plainPathChar c = true) := by
  have hempty : ∀ c ∈ "".toList, plainPathChar c = true := by decide
  refine ⟨?_, ?_, ?_, ?_⟩
  · have := all_of_parts plainPathChar "/api/v3/payments/" "" id (by decide) hempty hid
    simpa using this
  · exact all_of_parts plainPathChar "/api/v3/payments/" "/capture" id (by decide) (by decide)
      hid
  · exact all_of_parts plainPathChar "/api/v3/payments/" "/cancel" id (by decide) (by decide)
      hid
  · have := all_of_parts plainPathChar "/api/v3/refunds/" "" id (by decide) hempty hid
    simpa using this

/-- With an id of characters shown as they are, each of the four paths with an id, its
leading slash apart, is made of such characters. -/
lemma verbatim_paths (id : String) (hid : ∀ c ∈ id.toList, verbatimPathChar c = true) :
    (∀ c ∈ ("api/v3/payments/" ++ id).toList, verbatimPathChar c = true) ∧
      (∀ c ∈ ("api/v3/payments/" ++ id ++ "/capture").toList, verbatimPathChar c = true) ∧
      (∀ c ∈ ("api/v3/payments/" ++ id ++ "/cancel").toList, verbatimPathChar c = true) ∧
      (∀ c ∈ ("api/v3/refunds/" ++ id).toList, verbatimPathChar c = true) := by
  have hempty : ∀ c ∈ "".toList, verbatimPathChar c = true := by decide
  refine ⟨?_, ?_, ?_, ?_⟩
  · have := all_of_parts verbatimPathChar "api/v3/payments/" "" id (by decide) hempty hid
    simpa using this
  · exact all_of_parts verbatimPathChar "api/v3/payments/" "/capture" id (by decide)
      (by decide) hid
  · exact all_of_parts verbatimPathChar "api/v3/payments/" "/cancel" id (by decide)
      (by decide) hid
  · have := all_of_parts verbatimPathChar "api/v3/refunds/" "" id (by decide) hempty hid
    simpa using this

lemma path_payments_id (id : String) :
    "/api/v3/payments/" ++ id = "/" ++ ("api/v3/payments/" ++ id) := by
  rw [← String.append_assoc]
  rfl

lemma path_payments_id_post (id post : String) :
    "/api/v3/payments/" ++ id ++ post = "/" ++ ("api/v3/payments/" ++ id ++ post) := by
  rw [← String.append_assoc, ← String.append_assoc]
  rfl

lemma path_refunds_id (id : String) :
    "/api/v3/refunds/" ++ id = "/" ++ ("api/v3/refunds/" ++ id) := by
  rw [← String.append_assoc]
  rfl

/-- The request target for one of the paths with an id. -/
lemma requestURI_of_url (url path rest : String) (hurl : url = "https://payment.yandex.net" ++ path)
    (hpath : path = "/" ++ rest) (h : ∀ c ∈ rest.toList, verbatimPathChar c = true) :
    (parsedURL url).RequestURI = path := by
  rw [hurl, hpath]
  exact requestURI_of_path rest h

/-- A URL of a path of plain path characters on the fixed host is accepted by `url.Parse`. -/
lemma NewRequest_parses_of_plain (path : String)
    (h : ∀ c ∈ path.toList, plainPathChar c = true) :
    urlParses ("https://payment.yandex.net" ++ path) = true :=
  (parsedURL_of_plain _ path.toList (hostURL_toList path) h).1

/-- A request built for a path of plain path characters on the fixed host is a request for
that path. -/
lemma IssuesPath_of (r : Except GoError Request) (method path : String) (req : Request)
    (hr : r = .ok req) (hm : req.Method = method)
    (hu : req.URL = "https://payment.yandex.net" ++ path)
    (h : ∀ c ∈ path.toList, plainPathChar c = true) : IssuesPath r method path := by
  have hp := parsedURL_of_plain _ path.toList (hostURL_toList path) h
  refine ⟨req, hr, hm, hu, ?_, ?_, ?_, ?_⟩
  · rw [hu]
    exact hp.2.2.1
  · rw [hu]
    exact hp.2.2.2.1
  · rw [hu]
    exact hp.2.2.2.2.1
  · rw [hu]
    exact hp.2.2.2.2.2

/-- A request built for a path of characters shown as they are has that path as the target
on its request line. -/
lemma IssuesTarget_of (r : Except GoError Request) (method path rest : String) (req : Request)
    (hr : r = .ok req) (hm : req.Method = method)
    (hu : req.URL = "https://payment.yandex.net" ++ path) (hpath : path = "/" ++ rest)
    (h : ∀ c ∈ rest.toList, verbatimPathChar c = true) : IssuesTarget r method path :=
  ⟨req, hr, hm, requestURI_of_url _ _ rest hu hpath h⟩

/-- C12, counterexample: three ids for which the request is not the tabulated one. For the id
`100%` the URL has an ill-formed percent escape: `http.NewRequest` fails and `PaymentInfo`
returns an error without issuing any request. For the id `x#y` the text after `#` is a
fragment, which is not sent: `PaymentCancel` posts to `/api/v3/payments/x`, without
`/cancel`. For the id `x?y` the text after `?` is a query: `PaymentConfirm` posts to the path
`/api/v3/payments/x` with the query `y/capture`. -/
theorem C12_counterexample :
    (Kassa.PaymentInfo.request exampleKassa "100%").toOption = none ∧
      (Operation.PaymentInfo "100%").exchange exampleKassa (answering 200 pendingBody) = none ∧
      ((Operation.PaymentInfo "100%").run exampleKassa (answering 200 pendingBody)).map
          (fun r => (r.1, r.2.1, r.2.2.isSome)) = some (none, none, true) ∧
      (Kassa.PaymentCancel.request exampleKassa "x#y").toOption.map
          (fun req => (req.Method, req.RequestURI)) = some ("POST", "/api/v3/payments/x") ∧
      (Kassa.PaymentConfirm.request exampleKassa "x?y" exampleRequest).toOption.map
          (fun req => (req.Method, req.RequestURI, (parsedURL req.URL).Path,
            (parsedURL req.URL).RawQuery)) =
        some ("POST", "/api/v3/payments/x?y/capture", utf8Bytes "/api/v3/payments/x",
          "y/capture") :=
  ⟨rfl, rfl, rfl, rfl, rfl⟩

/-- C12, amended: each operation hands `http.NewRequest` the tabulated method and the URL made
of the fixed base and the tabulated path with the id inserted verbatim. `CreateRefund` always
issues its request, and `CreatePayment` does unless the metadata cannot be encoded; their
request lines carry `/api/v3/refunds` and `/api/v3/payments`. An operation that takes an id
issues its request exactly when `url.Parse` accepts that URL, and otherwise returns an error
without issuing a request. For an id without ASCII control character, `%`, `?` and `#` the
request is issued and the path `url.Parse` reads from the URL is the tabulated path with the
id verbatim, with no query and no fragment. For an id of ASCII letters, digits and the marks
`- _ . ~ $ & + , / : ; = @ ! ' ( ) * [ ]` the target on the request line is that path,
character for character. -/
theorem C12_method_and_url (k : Kassa) (id : String) :
    (∀ inputPayment,
        ((∀ r, inputPayment = some r → r.Metadata.encodable = true) →
          IssuesPath (Kassa.CreatePayment.request k inputPayment) "POST" "/api/v3/payments" ∧
            IssuesTarget (Kassa.CreatePayment.request k inputPayment) "POST"
              "/api/v3/payments") ∧
        (∀ req, Kassa.CreatePayment.request k inputPayment = .ok req →
          req.Method = "POST" ∧ req.URL = baseURL ++ "/payments")) ∧
      (∀ inputRefund,
        IssuesPath (Kassa.CreateRefund.request k inputRefund) "POST" "/api/v3/refunds" ∧
          IssuesTarget (Kassa.CreateRefund.request k inputRefund) "POST" "/api/v3/refunds" ∧
          ∃ req, Kassa.CreateRefund.request k inputRefund = .ok req ∧
            req.Method = "POST" ∧ req.URL = baseURL ++ "/refunds") ∧
      ((urlParses (baseURL ++ "/payments/" ++ id) = true →
          ∃ req, Kassa.PaymentInfo.request k id = .ok req ∧
            req.Method = "GET" ∧ req.URL = baseURL ++ "/payments/" ++ id) ∧
        (urlParses (baseURL ++ "/payments/" ++ id) = false →
          ∃ err, Kassa.PaymentInfo.request k id = .error err)) ∧
      (∀ inputPayment,
        (urlParses (baseURL ++ "/payments/" ++ id ++ "/capture") = true →
          ∃ req, Kassa.PaymentConfirm.request k id inputPayment = .ok req ∧
            req.Method = "POST" ∧ req.URL = baseURL ++ "/payments/" ++ id ++ "/capture") ∧
        (urlParses (baseURL ++ "/payments/" ++ id ++ "/capture") = false →
          ∃ err, Kassa.PaymentConfirm.request k id inputPayment = .error err)) ∧
      ((urlParses (baseURL ++ "/payments/" ++ id ++ "/cancel") = true →
          ∃ req, Kassa.PaymentCancel.request k id = .ok req ∧
            req.Method = "POST" ∧ req.URL = baseURL ++ "/payments/" ++ id ++ "/cancel") ∧
        (urlParses (baseURL ++ "/payments/" ++ id ++ "/cancel") = false →
          ∃ err, Kassa.PaymentCancel.request k id = .error err)) ∧
      ((urlParses (baseURL ++ "/refunds/" ++ id) = true →
          ∃ req, Kassa.RefundInfo.request k id = .ok req ∧
            req.Method = "GET" ∧ req.URL = baseURL ++ "/refunds/" ++ id) ∧
        (urlParses (baseURL ++ "/refunds/" ++ id) = false →
          ∃ err, Kassa.RefundInfo.request k id = .error err)) ∧
      ((∀ c ∈ id.toList, plainPathChar c = true) →
        IssuesPath (Kassa.PaymentInfo.request k id) "GET" ("/api/v3/payments/" ++ id) ∧
          (∀ inputPayment, IssuesPath (Kassa.PaymentConfirm.request k id inputPayment) "POST"
            ("/api/v3/payments/" ++ id ++ "/capture")) ∧
          IssuesPath (Kassa.PaymentCancel.request k id) "POST"
            ("/api/v3/payments/" ++ id ++ "/cancel") ∧
          IssuesPath (Kassa.RefundInfo.request k id) "GET" ("/api/v3/refunds/" ++ id)) ∧
      ((∀ c ∈ id.toList, verbatimPathChar c = true) →
        IssuesTarget (Kassa.PaymentInfo.request k id) "GET" ("/api/v3/payments/" ++ id) ∧
          (∀ inputPayment, IssuesTarget (Kassa.PaymentConfirm.request k id inputPayment) "POST"
            ("/api/v3/payments/" ++ id ++ "/capture")) ∧
          IssuesTarget (Kassa.PaymentCancel.request k id) "POST"
            ("/api/v3/payments/" ++ id ++ "/cancel") ∧
          IssuesTarget (Kassa.RefundInfo.request k id) "GET" ("/api/v3/refunds/" ++ id)) := by
  have hInfo : (urlParses (baseURL ++ "/payments/" ++ id) = true →
        ∃ req, Kassa.PaymentInfo.request k id = .ok req ∧
          req.Method = "GET" ∧ req.URL = baseURL ++ "/payments/" ++ id) := by
    intro hu
    rw [baseURL_payments_slash] at hu ⊢
    simp only [Kassa.PaymentInfo.request, (NewRequest_cases _ _ _).1 hu]
    exact ⟨_, rfl, rfl, rfl⟩
  have hConfirm : ∀ inputPayment,
      (urlParses (baseURL ++ "/payments/" ++ id ++ "/capture") = true →
        ∃ req, Kassa.PaymentConfirm.request k id inputPayment = .ok req ∧
          req.Method = "POST" ∧ req.URL = baseURL ++ "/payments/" ++ id ++ "/capture") := by
    intro inputPayment hu
    rw [baseURL_payments_slash] at hu ⊢
    simp only [Kassa.PaymentConfirm.request, PaymentConfirmRequest.Marshal,
      (NewRequest_cases _ _ _).1 hu]
    exact ⟨_, rfl, rfl, rfl⟩
  have hCancel : (urlParses (baseURL ++ "/payments/" ++ id ++ "/cancel") = true →
        ∃ req, Kassa.PaymentCancel.request k id = .ok req ∧
          req.Method = "POST" ∧ req.URL = baseURL ++ "/payments/" ++ id ++ "/cancel") := by
    intro hu
    rw [baseURL_payments_slash] at hu ⊢
    simp only [Kassa.PaymentCancel.request, (NewRequest_cases _ _ _).1 hu]
    exact ⟨_, rfl, rfl, rfl⟩
  have hRefund : (urlParses (baseURL ++ "/refunds/" ++ id) = true →
        ∃ req, Kassa.RefundInfo.request k id = .ok req ∧
          req.Method = "GET" ∧ req.URL = baseURL ++ "/refunds/" ++ id) := by
    intro hu
    rw [baseURL_refunds_slash] at hu ⊢
    simp only [Kassa.RefundInfo.request, (NewRequest_cases _ _ _).1 hu]
    exact ⟨_, rfl, rfl, rfl⟩
  have hCreate : ∀ inputPayment, (∀ r, inputPayment = some r → r.Metadata.encodable = true) →
      ∃ req, Kassa.CreatePayment.request k inputPayment = .ok req ∧
        req.Method = "POST" ∧ req.URL = "https://payment.yandex.net" ++ "/api/v3/payments" := by
    intro inputPayment henc
    cases inputPayment with
    | none =>
      simp only [Kassa.CreatePayment.request, PaymentRequest.Marshal,
        (NewRequest_cases _ _ _).1 urlParses_payments]
      exact ⟨_, rfl, rfl, rfl⟩
    | some r =>
      have hr := henc r rfl
      cases hm : r.Metadata with
      | unsupported => rw [hm] at hr; simp [Metadata.encodable] at hr
      | nil =>
        simp only [Kassa.CreatePayment.request, PaymentRequest.Marshal, hm,
          (NewRequest_cases _ _ _).1 urlParses_payments]
        exact ⟨_, rfl, rfl, rfl⟩
      | entries members =>
        simp only [Kassa.CreatePayment.request, PaymentRequest.Marshal, hm,
          (NewRequest_cases _ _ _).1 urlParses_payments]
        exact ⟨_, rfl, rfl, rfl⟩
  have hCreateRefund : ∀ inputRefund, ∃ req, Kassa.CreateRefund.request k inputRefund = .ok req ∧
      req.Method = "POST" ∧ req.URL = "https://payment.yandex.net" ++ "/api/v3/refunds" := by
    intro inputRefund
    simp only [Kassa.CreateRefund.request, RefundRequest.Marshal,
      (NewRequest_cases _ _ _).1 urlParses_refunds]
    exact ⟨_, rfl, rfl, rfl⟩
  refine ⟨?_, ?_, ⟨hInfo, ?_⟩, ?_, ⟨hCancel, ?_⟩, ⟨hRefund, ?_⟩, ?_, ?_⟩
  · intro inputPayment
    constructor
    · intro henc
      obtain ⟨req, hreq, hm, hu⟩ := hCreate inputPayment henc
      exact ⟨IssuesPath_of _ _ _ req hreq hm hu (by decide),
        IssuesTarget_of _ _ _ "api/v3/payments" req hreq hm hu rfl (by decide)⟩
    · intro req h
      unfold Kassa.CreatePayment.request at h
      split at h
      · simp at h
      · split at h
        · simp at h
        · next req0 hnew =>
          simp only [Except.ok.injEq] at h
          subst h
          have hf := NewRequest_fields _ _ _ _ hnew
          simp only [Request.SetHeader, Request.SetBasicAuth, hf.1, hf.2.1, baseURL_payments,
            and_self]
  · intro inputRefund
    obtain ⟨req, hreq, hm, hu⟩ := hCreateRefund inputRefund
    exact ⟨IssuesPath_of _ _ _ req hreq hm hu (by decide),
      IssuesTarget_of _ _ _ "api/v3/refunds" req hreq hm hu rfl (by decide),
      req, hreq, hm, hu.trans baseURL_refunds.symm⟩
  · intro hu
    rw [baseURL_payments_slash] at hu
    simp only [Kassa.PaymentInfo.request, (NewRequest_cases _ _ _).2 hu]
    exact ⟨_, rfl⟩
  · intro inputPayment
    refine ⟨hConfirm inputPayment, ?_⟩
    intro hu
    rw [baseURL_payments_slash] at hu
    simp only [Kassa.PaymentConfirm.request, PaymentConfirmRequest.Marshal,
      (NewRequest_cases _ _ _).2 hu]
    exact ⟨_, rfl⟩
  · intro hu
    rw [baseURL_payments_slash] at hu
    simp only [Kassa.PaymentCancel.request, (NewRequest_cases _ _ _).2 hu]
    exact ⟨_, rfl⟩
  · intro hu
    rw [baseURL_refunds_slash] at hu
    simp only [Kassa.RefundInfo.request, (NewRequest_cases _ _ _).2 hu]
    exact ⟨_, rfl⟩
  · intro hid
    have hp := plain_paths id hid
    have hu1 : baseURL ++ "/payments/" ++ id =
        "https://payment.yandex.net" ++ ("/api/v3/payments/" ++ id) := by
      rw [baseURL_payments_slash, url_payments_id]
    have hu2 : ∀ post, baseURL ++ "/payments/" ++ id ++ post =
        "https://payment.yandex.net" ++ ("/api/v3/payments/" ++ id ++ post) := by
      intro post
      rw [baseURL_payments_slash, url_payments_id_post]
    have hu3 : baseURL ++ "/refunds/" ++ id =
        "https://payment.yandex.net" ++ ("/api/v3/refunds/" ++ id) := by
      rw [baseURL_refunds_slash, url_refunds_id]
    refine ⟨?_, ?_, ?_, ?_⟩
    · obtain ⟨req, hreq, hm, hu⟩ := hInfo (by
        rw [hu1]; exact (NewRequest_parses_of_plain _ hp.1))
      exact IssuesPath_of _ _ _ req hreq hm (hu.trans hu1) hp.1
    · intro inputPayment
      obtain ⟨req, hreq, hm, hu⟩ := hConfirm inputPayment (by
        rw [hu2]; exact (NewRequest_parses_of_plain _ hp.2.1))
      exact IssuesPath_of _ _ _ req hreq hm (hu.trans (hu2 _)) hp.2.1
    · obtain ⟨req, hreq, hm, hu⟩ := hCancel (by
        rw [hu2]; exact (NewRequest_parses_of_plain _ hp.2.2.1))
      exact IssuesPath_of _ _ _ req hreq hm (hu.trans (hu2 _)) hp.2.2.1
    · obtain ⟨req, hreq, hm, hu⟩ := hRefund (by
        rw [hu3]; exact (NewRequest_parses_of_plain _ hp.2.2.2))
      exact IssuesPath_of _ _ _ req hreq hm (hu.trans hu3) hp.2.2.2
  · intro hidv
    have hid : ∀ c ∈ id.toList, plainPathChar c = true :=
      fun c hc => (verbatimPathChar_spec c (hidv c hc)).1
    have hp := plain_paths id hid
    have hv := verbatim_paths id hidv
    have hu1 : baseURL ++ "/payments/" ++ id =
        "https://payment.yandex.net" ++ ("/api/v3/payments/" ++ id) := by
      rw [baseURL_payments_slash, url_payments_id]
    have hu2 : ∀ post, baseURL ++ "/payments/" ++ id ++ post =
        "https://payment.yandex.net" ++ ("/api/v3/payments/" ++ id ++ post) := by
      intro post
      rw [baseURL_payments_slash, url_payments_id_post]
    have hu3 : baseURL ++ "/refunds/" ++ id =
        "https://payment.yandex.net" ++ ("/api/v3/refunds/" ++ id) := by
      rw [baseURL_refunds_slash, url_refunds_id]
    refine ⟨?_, ?_, ?_, ?_⟩
    · obtain ⟨req, hreq, hm, hu⟩ := hInfo (by
        rw [hu1]; exact (NewRequest_parses_of_plain _ hp.1))
      exact IssuesTarget_of _ _ _ _ req hreq hm (hu.trans hu1) (path_payments_id id) hv.1
    · intro inputPayment
      obtain ⟨req, hreq, hm, hu⟩ := hConfirm inputPayment (by
        rw [hu2]; exact (NewRequest_parses_of_plain _ hp.2.1))
      exact IssuesTarget_of _ _ _ _ req hreq hm (hu.trans (hu2 _))
        (path_payments_id_post id _) hv.2.1
    · obtain ⟨req, hreq, hm, hu⟩ := hCancel (by
        rw [hu2]; exact (NewRequest_parses_of_plain _ hp.2.2.1))
      exact IssuesTarget_of _ _ _ _ req hreq hm (hu.trans (hu2 _))
        (path_payments_id_post id _) hv.2.2.1
    · obtain ⟨req, hreq, hm, hu⟩ := hRefund (by
        rw [hu3]; exact (NewRequest_parses_of_plain _ hp.2.2.2))
      exact IssuesTarget_of _ _ _ _ req hreq hm (hu.trans hu3) (path_refunds_id id) hv.2.2.2

/-- C12 at the id `pay_1`, which is made of letters, a digit and `_`: `PaymentCancel` issues
a request whose request line is `POST /api/v3/payments/pay_1/cancel`. -/
theorem C12_method_and_url_witness :
    (∀ c ∈ "pay_1".toList, verbatimPathChar c = true) ∧
      IssuesTarget (Kassa.PaymentCancel.request exampleKassa "pay_1") "POST"
        ("/api/v3/payments/" ++ "pay_1" ++ "/cancel") :=
  ⟨by decide, ((C12_method_and_url exampleKassa "pay_1").2.2.2.2.2.2.2 (by decide)).2.2.1⟩

end Yandexkassa
